import Mathlib

/-!
Verification of the SQL-to-FHIR library builder core: a shallow embedding of
`sql_fhir_library_generator/parser.py` (comment scanning, `@key value`
extraction, value coercion, duplicate-key merging) and
`sql_fhir_library_generator/fhir_builder.py` (document assembly, known-key
mapping, extension synthesis, content-type handling, empty-property pruning),
together with theorems settling the specified properties.

Strings are modelled as `List Char` inside the parser (Python `str` is a
character sequence); Python regexes are modelled by hand-written matchers with
the exact backtracking semantics of the patterns in the source.  Unicode-only
behaviour (non-ASCII case mapping, Unicode word characters and digits) is
modelled at ASCII precision, which covers every property below.
-/

namespace SFLB

/-- Python whitespace (the set stripped by `str.strip()` and matched by the
regex class `\s`, ASCII part). -/
def isPySpace (c : Char) : Bool :=
  c = ' ' || c = '\t' || c = '\n' || c = '\r' || c = '\x0b' || c = '\x0c'

/-- Python `str.strip()` on a character list. -/
def stripL (cs : List Char) : List Char :=
  ((cs.dropWhile isPySpace).reverse.dropWhile isPySpace).reverse

/-- Python `str.strip()`. -/
def pyStrip (s : String) : String := String.mk (stripL s.data)

/-- Python `str.lower()` (ASCII). -/
def lowerL (cs : List Char) : List Char := cs.map Char.toLower

/-- Regex `\w` (ASCII): letters, digits, underscore. -/
def isWordChar (c : Char) : Bool := c.isAlphanum || c = '_'

/-- An apostrophe character (Python quote stripping uses it). -/
def squote : Char := Char.ofNat 39

mutual
/-- Coerced value: the union of types `_convert_value` can return.  A float
is represented by the literal that parsed as a float; no property below
depends on the numeric value of a float. -/
inductive Value where
  | bool (b : Bool)
  | int (n : Int)
  | float (lit : String)
  | str (s : String)
  | list (vs : VList)
deriving DecidableEq
inductive VList where
  | nil
  | cons (v : Value) (vs : VList)
deriving DecidableEq
end

def VList.append : VList → VList → VList
  | .nil, ws => ws
  | .cons v vs, ws => .cons v (VList.append vs ws)

instance : Append VList := ⟨VList.append⟩

/-! ## Comment extraction

`_extract_comments` runs `re.finditer` with `--\s*(.+)` (single-line) and
`/\*\s*(.*?)\s*\*/` with DOTALL (multi-line) over the whole text, stripping
each captured group.  The matchers below reproduce the scanning and
backtracking of those patterns; both use fuel bounded by the text length
(each step consumes at least one character). -/

/-- Scanner for `--\s*(.+)`: after `--`, greedy `\s*` runs to the first
non-whitespace character and `(.+)` takes the rest of that line; if only
whitespace remains, backtracking leaves `(.+)` one trailing non-newline
whitespace character (stripping to an empty comment), and with none the
engine advances one character. -/
def lineCommentScan : Nat → List Char → List (List Char)
  | 0, _ => []
  | _ + 1, [] => []
  | fuel + 1, '-' :: '-' :: rest =>
      let ws := rest.takeWhile isPySpace
      let tl := rest.dropWhile isPySpace
      match tl with
      | _ :: _ =>
          let grp := tl.takeWhile (fun c => c ≠ '\n')
          stripL grp :: lineCommentScan fuel (tl.dropWhile (fun c => c ≠ '\n'))
      | [] =>
          if ws.any (fun c => c ≠ '\n') then [[]]
          else lineCommentScan fuel ('-' :: rest)
  | fuel + 1, _ :: cs => lineCommentScan fuel cs

/-- Split at the first `*/`, returning the text before it and the rest after. -/
def splitClose : List Char → Option (List Char × List Char)
  | [] => none
  | '*' :: '/' :: rest => some ([], rest)
  | c :: rest =>
      match splitClose rest with
      | some (a, b) => some (c :: a, b)
      | none => none

/-- Scanner for `/\*\s*(.*?)\s*\*/` with DOTALL: non-greedy to the nearest
`*/`; the surrounding `\s*` trim the captured group, so the group is the
stripped text between the markers.  An unclosed `/*` never matches. -/
def blockCommentScan : Nat → List Char → List (List Char)
  | 0, _ => []
  | _ + 1, [] => []
  | fuel + 1, '/' :: '*' :: rest =>
      match splitClose rest with
      | some (inner, after) => stripL inner :: blockCommentScan fuel after
      | none => blockCommentScan fuel ('*' :: rest)
  | fuel + 1, _ :: cs => blockCommentScan fuel cs

/-- `_extract_comments`: all single-line comment regions first, then all
block comment regions, each stripped. -/
def extractComments (s : String) : List (List Char) :=
  lineCommentScan s.data.length s.data ++ blockCommentScan s.data.length s.data

/-! ## The `@key value` matcher

Pattern: `@(\w+)(?:\s*[:=]\s*|\s+)([^@\n\r]+?)(?=@|\s*(?:--|\*/|$))` with
MULTILINE, run per comment region.  The value class excludes `@`, `\n`, `\r`;
the lookahead succeeds at a `@`, or after optional whitespace at `--`, `*/`,
end of line, or end of region. -/

/-- A character the value group `[^@\n\r]` can contain. -/
def isValChar (c : Char) : Bool := !(c = '@' || c = '\n' || c = '\r')

/-- The lookahead arm `\s*(?:--|\*/|$)` (MULTILINE: `$` matches at the end of
the region and before each newline). -/
def lookArm : List Char → Bool
  | [] => true
  | '-' :: '-' :: _ => true
  | '*' :: '/' :: _ => true
  | '\n' :: _ => true
  | c :: rest => if isPySpace c then lookArm rest else false

/-- The whole lookahead `(?=@|\s*(?:--|\*/|$))`. -/
def lookaheadOk (u : List Char) : Bool :=
  match u with
  | '@' :: _ => true
  | _ => lookArm u

/-- Lazy match of `([^@\n\r]+?)` followed by the lookahead: the shortest
nonempty run of value characters after which the lookahead holds.  Returns
the captured value and the rest of the region. -/
def valueSplit : List Char → Option (List Char × List Char)
  | [] => none
  | c :: rest =>
      if isValChar c then
        if lookaheadOk rest then some ([c], rest)
        else
          match valueSplit rest with
          | some (v, r) => some (c :: v, r)
          | none => none
      else none

/-- Suffixes `cs.drop n, cs.drop (n-1), …, cs.drop 0`: the candidate value
start positions a greedy `\s*` tries, longest whitespace first. -/
def dropsDesc (cs : List Char) (n : Nat) : List (List Char) :=
  (List.range (n + 1)).map (fun d => cs.drop (n - d))

/-- Suffixes `cs.drop n, …, cs.drop 1`: candidates for a greedy `\s+`. -/
def dropsDescPos (cs : List Char) (n : Nat) : List (List Char) :=
  (List.range n).map (fun d => cs.drop (n - d))

/-- Try the first candidate start position at which the value matches. -/
def firstValue : List (List Char) → Option (List Char × List Char)
  | [] => none
  | t :: ts =>
      match valueSplit t with
      | some r => some r
      | none => firstValue ts

/-- One match attempt of the pattern at the start of the input.  The key is a
maximal `\w+` run; the separator alternation `\s*[:=]\s*|\s+` is tried left to
right with greedy whitespace (inside the first alternative the punctuation
can only sit at the end of the whitespace run, since `:`/`=` are not
whitespace).  Returns key, raw value and the rest of the region. -/
def tryAnnMatch : List Char → Option (List Char × List Char × List Char)
  | '@' :: rest =>
      let key := rest.takeWhile isWordChar
      if key.isEmpty then none
      else
        let afterKey := rest.dropWhile isWordChar
        let w1 := afterKey.takeWhile isPySpace
        let tl1 := afterKey.dropWhile isPySpace
        let altOne : List (List Char) :=
          match tl1 with
          | c :: afterP =>
              if c = ':' || c = '=' then
                dropsDesc afterP (afterP.takeWhile isPySpace).length
              else []
          | [] => []
        let altTwo : List (List Char) := dropsDescPos afterKey w1.length
        match firstValue (altOne ++ altTwo) with
        | some (v, r) => some (key, v, r)
        | none => none
  | _ => none

/-- `re.finditer` over a region: scan left to right, emit non-overlapping
matches, resume at each match end. -/
def annScan : Nat → List Char → List (List Char × List Char)
  | 0, _ => []
  | _ + 1, [] => []
  | fuel + 1, c :: cs =>
      match tryAnnMatch (c :: cs) with
      | some (k, v, rest) => (k, v) :: annScan fuel rest
      | none => annScan fuel cs

/-- All `(key, raw value)` matches in one comment region. -/
def annMatchesIn (cs : List Char) : List (List Char × List Char) :=
  annScan cs.length cs

/-! ## Value coercion (`_convert_value`) -/

/-- Digit run tail of Python numeric literals: digits with single
underscores between digits (`int("1_0")` succeeds, `int("1__0")` fails). -/
def digitsURest : List Char → Bool
  | [] => true
  | '_' :: c :: rest => c.isDigit && digitsURest rest
  | '_' :: [] => false
  | c :: rest => c.isDigit && digitsURest rest

/-- Nonempty digit run with legal underscores. -/
def digitsU : List Char → Bool
  | [] => false
  | c :: rest => c.isDigit && digitsURest rest

/-- Numeric value of a digit run, ignoring underscores. -/
def natOfDigits (cs : List Char) : Nat :=
  (cs.filter (fun c => c ≠ '_')).foldl (fun a c => a * 10 + (c.toNat - 48)) 0

/-- Python `int(s)` on an already stripped string: optional sign then a
digit run (ASCII). -/
def pyIntParse (cs : List Char) : Option Int :=
  match cs with
  | '+' :: rest => if digitsU rest then some (natOfDigits rest : Int) else none
  | '-' :: rest => if digitsU rest then some (-(natOfDigits rest : Int)) else none
  | _ => if digitsU cs then some (natOfDigits cs : Int) else none

/-- Optionally signed digit run (exponent part of a float literal). -/
def signedDigitsU : List Char → Bool
  | '+' :: rest => digitsU rest
  | '-' :: rest => digitsU rest
  | cs => digitsU cs

/-- Mantissa of a Python float literal: `d+`, `d+.d*` or `.d+`. -/
def mantOk (cs : List Char) : Bool :=
  let ip := cs.takeWhile (fun c => c ≠ '.')
  match cs.dropWhile (fun c => c ≠ '.') with
  | [] => digitsU ip
  | _ :: frac =>
      if frac.contains '.' then false
      else if ip.isEmpty then digitsU frac
      else digitsU ip && (frac.isEmpty || digitsU frac)

/-- Mantissa with optional exponent. -/
def floatBody (cs : List Char) : Bool :=
  let m := cs.takeWhile (fun c => !(c = 'e' || c = 'E'))
  match cs.dropWhile (fun c => !(c = 'e' || c = 'E')) with
  | [] => mantOk m
  | _ :: ex => mantOk m && signedDigitsU ex

/-- The special float spellings `inf`, `infinity`, `nan` (case-insensitive). -/
def infNan (cs : List Char) : Bool :=
  lowerL cs = "inf".data || lowerL cs = "infinity".data || lowerL cs = "nan".data

/-- Whether Python `float(s)` succeeds on an already stripped string. -/
def pyFloatOk (cs : List Char) : Bool :=
  match cs with
  | '+' :: rest => infNan rest || floatBody rest
  | '-' :: rest => infNan rest || floatBody rest
  | _ => infNan cs || floatBody cs

/-- Split on every occurrence of a character (Python `str.split(sep)`). -/
def splitOnChar (sep : Char) : List Char → List (List Char)
  | [] => [[]]
  | c :: rest =>
      if c = sep then [] :: splitOnChar sep rest
      else
        match splitOnChar sep rest with
        | p :: ps => (c :: p) :: ps
        | [] => [[c]]

def VList.ofList : List Value → VList
  | [] => .nil
  | v :: vs => .cons v (VList.ofList vs)

/-- `_convert_value`: strip, then booleans, then `int` when no `.`/`e`
else `float`, then the fall-through after a failed numeric parse (comma
splitting with recursive coercion, quote stripping, the raw string).  The
fuel is an upper bound on the nesting depth; comma parts are strictly
shorter than the input, so the top-level call with `length + 1` fuel never
exhausts it. -/
def convertValueF : Nat → List Char → Value
  | 0, cs => .str (String.mk (stripL cs))
  | fuel + 1, cs0 =>
      let v := stripL cs0
      let low := lowerL v
      let fall : Value :=
        if v.contains ',' then
          .list (VList.ofList ((splitOnChar ',' v).map
            (fun p => convertValueF fuel (stripL p))))
        else
          match v with
          | [] => .str ""
          | c :: _ =>
              if (c = '"' && v.getLast? = some '"')
                  || (c = squote && v.getLast? = some squote) then
                .str (String.mk ((v.drop 1).dropLast))
              else .str (String.mk v)
      if low = "true".data || low = "yes".data || low = "on".data || low = "1".data then
        .bool true
      else if low = "false".data || low = "no".data || low = "off".data || low = "0".data then
        .bool false
      else if !(v.contains '.') && !(low.contains 'e') then
        match pyIntParse v with
        | some n => .int n
        | none => fall
      else if pyFloatOk v then .float (String.mk v)
      else fall

/-- Coerce a raw (already extracted) value. -/
def convertValueL (cs : List Char) : Value := convertValueF (cs.length + 1) cs

/-- `_convert_value` on a string. -/
def convertValue (s : String) : Value := convertValueL s.data

/-! ## Region parsing and cross-region merging -/

def lookupAnn : List (String × Value) → String → Option Value
  | [], _ => none
  | (k2, v) :: rest, k => if k2 = k then some v else lookupAnn rest k

/-- Python dict assignment to an existing key: replace in place. -/
def updateAnn : List (String × Value) → String → Value → List (String × Value)
  | [], k, v => [(k, v)]
  | (k2, w) :: rest, k, v =>
      if k2 = k then (k, v) :: rest else (k2, w) :: updateAnn rest k v

/-- Duplicate keys inside one region: the first occurrence is wrapped into a
list when a second appears, and later occurrences are appended (a value that
is already a list is appended to directly). -/
def insertAnnRegion (m : List (String × Value)) (k : String) (v : Value) :
    List (String × Value) :=
  match lookupAnn m k with
  | none => m ++ [(k, v)]
  | some (.list vs) => updateAnn m k (.list (vs ++ VList.cons v .nil))
  | some ex => updateAnn m k (.list (.cons ex (.cons v .nil)))

/-- `_parse_annotations_from_text`: all matches of the pattern, keys and raw
values stripped, values coerced, duplicates collected per region. -/
def parseAnnsFromText (region : List Char) : List (String × Value) :=
  (annMatchesIn region).foldl
    (fun m kv => insertAnnRegion m (String.mk (stripL kv.1)) (convertValueL (stripL kv.2)))
    []

/-- View a value as a list (wrap scalars) for the cross-region merge. -/
def toVL : Value → VList
  | .list vs => vs
  | v => .cons v .nil

/-- Cross-region merge of one key: a repeated key becomes the concatenation
of the wrapped old and new values, at the old key position. -/
def mergeAnn (acc : List (String × Value)) (k : String) (v : Value) :
    List (String × Value) :=
  match lookupAnn acc k with
  | none => acc ++ [(k, v)]
  | some ex => updateAnn acc k (.list (toVL ex ++ toVL v))

/-- `parse_content`: extract regions, parse each, merge in region order. -/
def parseContent (s : String) : List (String × Value) :=
  (extractComments s).foldl
    (fun acc region =>
      (parseAnnsFromText region).foldl (fun a kv => mergeAnn a kv.1 kv.2) acc)
    []

/-! ## `parse_file` -/

/-- `pathlib.PurePath.suffix`: the extension of the final path component,
empty when the last dot is leading or trailing. -/
def pySuffix (path : String) : String :=
  let parts := (splitOnChar '/' path.data).filter (fun p => !(p = [] || p = ['.']))
  let nm := (parts.getLast?).getD []
  if nm.contains '.' then
    let after := nm.reverse.takeWhile (fun c => c ≠ '.')
    let i := nm.length - 1 - after.length
    if 0 < i && i < nm.length - 1 then String.mk (nm.drop i) else ""
  else ""

def fsLookup : List (String × String) → String → Option String
  | [], _ => none
  | (p, c) :: rest, q => if p = q then some c else fsLookup rest q

/-- `parse_file` over an explicit file-system map: missing path fails with
`FileNotFoundError`; an existing path whose lowercased suffix is not `.sql`
or `.ddl` fails with `ValueError`; otherwise the content is parsed. -/
def parseFile (fs : List (String × String)) (path : String) :
    Except String (List (String × Value)) :=
  match fsLookup fs path with
  | none => .error "FileNotFoundError: SQL file not found"
  | some content =>
      if !(lowerL (pySuffix path).data = ".sql".data
            || lowerL (pySuffix path).data = ".ddl".data) then
        .error "ValueError: Expected SQL file"
      else
        .ok (parseContent content)

/-! ## JSON documents

The FHIR Library resource is a Python dict tree; field order is insertion
order.  Own list types keep all recursions structural so that concrete
documents evaluate inside the kernel. -/

mutual
/-- A JSON-like value as produced by the builder. -/
inductive JSON where
  | null
  | bool (b : Bool)
  | int (n : Int)
  | float (lit : String)
  | str (s : String)
  | arr (xs : JList)
  | obj (fs : JFields)
deriving DecidableEq
inductive JList where
  | nil
  | cons (x : JSON) (xs : JList)
deriving DecidableEq
inductive JFields where
  | nil
  | cons (k : String) (v : JSON) (fs : JFields)
deriving DecidableEq
end

def JList.append : JList → JList → JList
  | .nil, ys => ys
  | .cons x xs, ys => .cons x (JList.append xs ys)

instance : Append JList := ⟨JList.append⟩

def JFields.append : JFields → JFields → JFields
  | .nil, gs => gs
  | .cons k v fs, gs => .cons k v (JFields.append fs gs)

instance : Append JFields := ⟨JFields.append⟩

def JList.ofList : List JSON → JList
  | [] => .nil
  | x :: xs => .cons x (JList.ofList xs)

def JFields.ofList : List (String × JSON) → JFields
  | [] => .nil
  | (k, v) :: fs => .cons k v (JFields.ofList fs)

/-- Python dict assignment: replace in place when present, else append. -/
def dictSet : JFields → String → JSON → JFields
  | .nil, k, v => .cons k v .nil
  | .cons k2 w fs, k, v =>
      if k2 = k then .cons k v fs else .cons k2 w (dictSet fs k v)

def dictGet : JFields → String → Option JSON
  | .nil, _ => none
  | .cons k2 v fs, k => if k2 = k then some v else dictGet fs k

def containsKey : JFields → String → Bool
  | .nil, _ => false
  | .cons k2 _ fs, k => k2 = k || containsKey fs k

/-- Apply a function to the value stored under a key (first occurrence). -/
def modifyVal : JFields → String → (JSON → JSON) → JFields
  | .nil, _, _ => .nil
  | .cons k2 v fs, k, g =>
      if k2 = k then .cons k2 (g v) fs else .cons k2 v (modifyVal fs k g)

/-! ## Python `str()` / `repr()` of annotation values

`str` of a list uses `repr` of the elements.  The repr of a string is
modelled as the single-quoted text without escape processing, and the repr
of a float as the literal that parsed; no property below depends on those
spellings beyond non-blankness. -/

mutual
def pyStr : Value → String
  | .bool true => "True"
  | .bool false => "False"
  | .int n => toString n
  | .float lit => lit
  | .str s => s
  | .list vs => "[" ++ pyReprVL vs ++ "]"
def pyRepr : Value → String
  | .bool true => "True"
  | .bool false => "False"
  | .int n => toString n
  | .float lit => lit
  | .str s => String.mk (squote :: s.data) ++ String.mk [squote]
  | .list vs => "[" ++ pyReprVL vs ++ "]"
def pyReprVL : VList → String
  | .nil => ""
  | .cons v .nil => pyRepr v
  | .cons v (.cons w vs) => pyRepr v ++ ", " ++ pyReprVL (.cons w vs)
end

/-- `", ".join(map(str, value))` over a coerced list. -/
def pyStrJoinVL : VList → String
  | .nil => ""
  | .cons v .nil => pyStr v
  | .cons v (.cons w vs) => pyStr v ++ ", " ++ pyStrJoinVL (.cons w vs)

/-- Whether a float literal denotes 0.0 (all mantissa digits zero). -/
def floatLitZero (lit : String) : Bool :=
  let m := lit.data.takeWhile (fun c => !(c = 'e' || c = 'E'))
  let ds := m.filter (fun c => c.isDigit)
  !ds.isEmpty && ds.all (fun c => c = '0')

/-- Python truthiness of a coerced value. -/
def valueTruthy : Value → Bool
  | .bool b => b
  | .int n => n ≠ 0
  | .float lit => !floatLitZero lit
  | .str s => s ≠ ""
  | .list .nil => false
  | .list (.cons _ _) => true

def isStrV : Value → Bool
  | .str _ => true
  | _ => false

def strOfV : Value → String
  | .str s => s
  | _ => ""

def isBoolV : Value → Bool
  | .bool _ => true
  | _ => false

def isListV : Value → Bool
  | .list _ => true
  | _ => false

mutual
def valueToJSON : Value → JSON
  | .bool b => .bool b
  | .int n => .int n
  | .float l => .float l
  | .str s => .str s
  | .list vs => .arr (vlistToJList vs)
def vlistToJList : VList → JList
  | .nil => .nil
  | .cons v vs => .cons (valueToJSON v) (vlistToJList vs)
end

/-! ## Base64 of the UTF-8 bytes of the source text -/

def b64Char (n : Nat) : Char :=
  ("ABCDEFGHIJKLMNOPQRSTUVWXYZabcdefghijklmnopqrstuvwxyz0123456789+/".data).getD n 'A'

def utf8Bytes (c : Char) : List Nat :=
  let n := c.toNat
  if n < 128 then [n]
  else if n < 2048 then [192 + n / 64, 128 + n % 64]
  else if n < 65536 then [224 + n / 4096, 128 + (n / 64) % 64, 128 + n % 64]
  else [240 + n / 262144, 128 + (n / 4096) % 64, 128 + (n / 64) % 64, 128 + n % 64]

def b64Encode : List Nat → List Char
  | [] => []
  | [a] => [b64Char (a / 4), b64Char ((a % 4) * 16), '=', '=']
  | [a, b] => [b64Char (a / 4), b64Char ((a % 4) * 16 + b / 16), b64Char ((b % 16) * 4), '=']
  | a :: b :: c :: rest =>
      b64Char (a / 4) :: b64Char ((a % 4) * 16 + b / 16) ::
        b64Char ((b % 16) * 4 + c / 64) :: b64Char (c % 64) :: b64Encode rest

def base64OfString (s : String) : String :=
  String.mk (b64Encode ((s.data.map utf8Bytes).flatten))

/-! ## `_format_date`: strptime against six formats, re-emitted as `%Y-%m-%d` -/

def digitVal (c : Char) : Nat := c.toNat - 48

/-- strptime `%Y`: exactly four digits. -/
def pYear : List Char → Option (Nat × List Char)
  | a :: b :: c :: d :: rest =>
      if a.isDigit && b.isDigit && c.isDigit && d.isDigit then
        some (digitVal a * 1000 + digitVal b * 100 + digitVal c * 10 + digitVal d, rest)
      else none
  | _ => none

/-- strptime `%m`: `1[0-2]|0[1-9]|[1-9]`. -/
def pMonth : List Char → Option (Nat × List Char)
  | c1 :: c2 :: rest =>
      if c1 = '1' && (c2 = '0' || c2 = '1' || c2 = '2') then some (10 + digitVal c2, rest)
      else if c1 = '0' && c2.isDigit && c2 ≠ '0' then some (digitVal c2, rest)
      else if c1.isDigit && c1 ≠ '0' then some (digitVal c1, c2 :: rest)
      else none
  | [c1] => if c1.isDigit && c1 ≠ '0' then some (digitVal c1, []) else none
  | [] => none

/-- strptime `%d`: `3[01]|[12]\d|0[1-9]|[1-9]`. -/
def pDay : List Char → Option (Nat × List Char)
  | c1 :: c2 :: rest =>
      if c1 = '3' && (c2 = '0' || c2 = '1') then some (30 + digitVal c2, rest)
      else if (c1 = '1' || c1 = '2') && c2.isDigit then some (digitVal c1 * 10 + digitVal c2, rest)
      else if c1 = '0' && c2.isDigit && c2 ≠ '0' then some (digitVal c2, rest)
      else if c1.isDigit && c1 ≠ '0' then some (digitVal c1, c2 :: rest)
      else none
  | [c1] => if c1.isDigit && c1 ≠ '0' then some (digitVal c1, []) else none
  | [] => none

/-- strptime `%H`: `2[0-3]|[0-1]\d|\d`. -/
def pHour : List Char → Option (Nat × List Char)
  | c1 :: c2 :: rest =>
      if c1 = '2' && (c2 = '0' || c2 = '1' || c2 = '2' || c2 = '3') then some (20 + digitVal c2, rest)
      else if (c1 = '0' || c1 = '1') && c2.isDigit then some (digitVal c1 * 10 + digitVal c2, rest)
      else if c1.isDigit then some (digitVal c1, c2 :: rest)
      else none
  | [c1] => if c1.isDigit then some (digitVal c1, []) else none
  | [] => none

/-- strptime `%M` and `%S`: `[0-5]\d|\d`. -/
def pMinSec : List Char → Option (Nat × List Char)
  | c1 :: c2 :: rest =>
      if ("012345".data).contains c1 && c2.isDigit then some (digitVal c1 * 10 + digitVal c2, rest)
      else if c1.isDigit then some (digitVal c1, c2 :: rest)
      else none
  | [c1] => if c1.isDigit then some (digitVal c1, []) else none
  | [] => none

def pLit (c : Char) : List Char → Option (Unit × List Char)
  | c2 :: rest => if c2 = c then some ((), rest) else none
  | [] => none

def isLeapYear (y : Nat) : Bool :=
  y % 4 = 0 && (y % 100 ≠ 0 || y % 400 = 0)

def daysInMonth (y m : Nat) : Nat :=
  if m = 2 then (if isLeapYear y then 29 else 28)
  else if m = 4 || m = 6 || m = 9 || m = 11 then 30
  else 31

/-- `datetime` construction validity for a regex-accepted date. -/
def validDate (y m d : Nat) : Bool :=
  1 ≤ y && d ≤ daysInMonth y m

/-- Optional trailing `%H:%M:%S` introduced by a literal separator. -/
def pTime (sep : Char) (cs : List Char) : Option (List Char) := do
  let (_, r0) ← pLit sep cs
  let (_, r1) ← pHour r0
  let (_, r2) ← pLit ':' r1
  let (_, r3) ← pMinSec r2
  let (_, r4) ← pLit ':' r3
  let (_, r5) ← pMinSec r4
  pure r5

/-- One strptime attempt in year-month-day order with given separators and
an optional time tail (`none`: the whole string must be the date). -/
def tryYMD (s1 s2 : Char) (time : Option Char) (cs : List Char) :
    Option (Nat × Nat × Nat) := do
  let (y, r1) ← pYear cs
  let (_, r2) ← pLit s1 r1
  let (m, r3) ← pMonth r2
  let (_, r4) ← pLit s2 r3
  let (d, r5) ← pDay r4
  let rest ← match time with
    | none => pure r5
    | some sep => pTime sep r5
  if rest = [] && validDate y m d then pure (y, m, d) else none

/-- strptime `%m/%d/%Y`. -/
def tryMDY (cs : List Char) : Option (Nat × Nat × Nat) := do
  let (m, r1) ← pMonth cs
  let (_, r2) ← pLit '/' r1
  let (d, r3) ← pDay r2
  let (_, r4) ← pLit '/' r3
  let (y, r5) ← pYear r4
  if r5 = [] && validDate y m d then pure (y, m, d) else none

/-- strptime `%d/%m/%Y`. -/
def tryDMY (cs : List Char) : Option (Nat × Nat × Nat) := do
  let (d, r1) ← pDay cs
  let (_, r2) ← pLit '/' r1
  let (m, r3) ← pMonth r2
  let (_, r4) ← pLit '/' r3
  let (y, r5) ← pYear r4
  if r5 = [] && validDate y m d then pure (y, m, d) else none

def pad2 (n : Nat) : String := if n < 10 then "0" ++ toString n else toString n

/-- `_format_date`: the six formats in source order, first success re-emitted
as `%Y-%m-%d` (glibc strftime does not zero-pad `%Y`); on failure the raw
string passes through. -/
def formatDate (s : String) : String :=
  let attempt :=
    (tryYMD '-' '-' none s.data).orElse (fun _ =>
    (tryYMD '/' '/' none s.data).orElse (fun _ =>
    (tryMDY s.data).orElse (fun _ =>
    (tryDMY s.data).orElse (fun _ =>
    (tryYMD '-' '-' (some 'T') s.data).orElse (fun _ =>
    tryYMD '-' '-' (some ' ') s.data)))))
  match attempt with
  | some (y, m, d) => toString y ++ "-" ++ pad2 m ++ "-" ++ pad2 d
  | none => s

/-! ## Field formatters -/

/-- `_format_contact`: one contact block with the name and an empty telecom
list. -/
def formatContact (s : String) : JSON :=
  .arr (.cons (.obj (JFields.ofList [("name", .str s), ("telecom", .arr .nil)])) .nil)

/-- `_format_identifier`. -/
def formatIdentifier (s : String) : JSON :=
  .obj (JFields.ofList
    [("value", .str s), ("system", .str "http://example.org/sql-library-identifiers")])

def pyUpper (s : String) : String := String.mk (s.data.map Char.toUpper)

/-- Jurisdiction codes from a string: split on commas, strip, keep the
non-blank parts. -/
def jurisdictionCodesOfStr (s : String) : List String :=
  ((splitOnChar ',' s.data).map stripL).filterMap
    (fun p => if p = [] then none else some (String.mk p))

/-- Jurisdiction codes from a list value: the comprehension
`[j.strip() for j in jurisdiction if j and str(j).strip()]`, where `.strip()`
raises AttributeError on a truthy non-string element. -/
def jurisdictionCodesOfVL : VList → Except String (List String)
  | .nil => .ok []
  | .cons j rest =>
      if valueTruthy j && pyStrip (pyStr j) ≠ "" then
        match j with
        | .str s => do
            let tl ← jurisdictionCodesOfVL rest
            .ok (pyStrip s :: tl)
        | _ => .error "AttributeError: strip on non-string jurisdiction entry"
      else jurisdictionCodesOfVL rest

/-- One jurisdiction CodeableConcept: the code is uppercased when at most
three characters long. -/
def jurisdictionConcept (j : String) : JSON :=
  .obj (JFields.ofList [("coding", .arr (.cons (.obj (JFields.ofList
    [("system", .str "urn:iso:std:iso:3166"),
     ("code", .str (if j.length ≤ 3 then pyUpper j else j)),
     ("display", .str j)])) .nil))])

/-- `_format_jurisdiction` for a string or list value. -/
def formatJurisdiction (v : Value) : Except String JList := do
  let codes ← match v with
    | .str s => Except.ok (jurisdictionCodesOfStr s)
    | .list vs => jurisdictionCodesOfVL vs
    | _ => Except.ok []
  let codes := codes.filter (fun j => j ≠ "")
  .ok (JList.ofList (codes.map jurisdictionConcept))

/-! ## The known-key mapping loop -/

/-- `annotation_mappings` in its dict literal order; every entry maps a key
to the identically named field. -/
def mappingPairs : List (String × String) :=
  [("title", "title"), ("name", "name"), ("description", "description"),
   ("version", "version"), ("status", "status"), ("author", "author"),
   ("publisher", "publisher"), ("contact", "contact"), ("copyright", "copyright"),
   ("purpose", "purpose"), ("usage", "usage"), ("url", "url"),
   ("identifier", "identifier"), ("date", "date"), ("type", "type"),
   ("subject", "subject"), ("experimental", "experimental"),
   ("jurisdiction", "jurisdiction"), ("approvalDate", "approvalDate"),
   ("lastReviewDate", "lastReviewDate"), ("effectivePeriod", "effectivePeriod")]

/-- One iteration of the mapping loop, with the branch chain of
`_apply_annotations_to_library`. -/
def mappingStep (ann : List (String × Value)) (f : JFields) (pair : String × String) :
    Except String JFields :=
  match lookupAnn ann pair.1 with
  | none => .ok f
  | some v =>
      let fk := pair.2
      if fk = "experimental" && isBoolV v then .ok (dictSet f fk (valueToJSON v))
      else if fk = "date" && isStrV v then .ok (dictSet f fk (.str (formatDate (strOfV v))))
      else if (fk = "author" || fk = "contact") && isStrV v then
        .ok (dictSet f fk (formatContact (strOfV v)))
      else if fk = "identifier" && isStrV v then
        (if pyStrip (strOfV v) ≠ "" then
          .ok (dictSet f fk (.arr (.cons (formatIdentifier (strOfV v)) .nil)))
        else .ok f)
      else if fk = "jurisdiction" && (isStrV v || isListV v) then do
        let js ← formatJurisdiction v
        match js with
        | .nil => .ok f
        | _ => .ok (dictSet f fk (.arr js))
      else if isStrV v then .ok (dictSet f fk (.str (strOfV v)))
      else .ok f

def applyMappings (ann : List (String × Value)) (f : JFields) : Except String JFields :=
  mappingPairs.foldlM (mappingStep ann) f

/-! ## Extension synthesis -/

def standardKeys : List String :=
  mappingPairs.map (fun p => p.1) ++ ["relatedDependency", "sqlDialect"]

def extUrl (k : String) : String :=
  "http://example.org/fhir/StructureDefinition/sql-" ++ k

/-- The extension record for one unmapped key, `none` when skipped (empty
list value). -/
def extEntry (k : String) (v : Value) : Option JSON :=
  match v with
  | .bool b => some (.obj (JFields.ofList [("url", .str (extUrl k)), ("valueBoolean", .bool b)]))
  | .int n => some (.obj (JFields.ofList [("url", .str (extUrl k)), ("valueInteger", .int n)]))
  | .float l => some (.obj (JFields.ofList [("url", .str (extUrl k)), ("valueDecimal", .float l)]))
  | .list .nil => none
  | .list vs => some (.obj (JFields.ofList
      [("url", .str (extUrl k)), ("valueString", .str (pyStrJoinVL vs))]))
  | .str s => some (.obj (JFields.ofList [("url", .str (extUrl k)), ("valueString", .str s)]))

/-- All extensions: unmapped keys whose stringified value is non-blank. -/
def extensionsOf (ann : List (String × Value)) : JList :=
  JList.ofList (ann.filterMap (fun kv =>
    if !(standardKeys.contains kv.1) && pyStrip (pyStr kv.2) ≠ "" then
      extEntry kv.1 kv.2
    else none))

def extStep (ann : List (String × Value)) (f : JFields) : JFields :=
  match extensionsOf ann with
  | .nil => f
  | es => dictSet f "extension" (.arr es)

/-! ## `_add_additional_metadata` -/

/-- Ensure `relatedArtifact` exists as a list, then append the entries.
This method is the only writer of the field and always stores a list, so
the non-list fallback below is unreachable. -/
def appendRelated (f : JFields) (es : JList) : JFields :=
  if containsKey f "relatedArtifact" then
    modifyVal f "relatedArtifact" (fun v =>
      match v with
      | .arr xs => .arr (xs ++ es)
      | w => w)
  else dictSet f "relatedArtifact" (.arr es)

def raResource (r : String) : JSON :=
  .obj (JFields.ofList [("type", .str "depends-on"), ("resource", .str r)])

def vlDeps : VList → JList
  | .nil => .nil
  | .cons d rest => .cons (raResource (pyStrip (pyStr d))) (vlDeps rest)

/-- `relatedDependency` entries: a string stays, a list keeps its elements,
anything else is stringified; each entry references `str(dep).strip()`. -/
def raDependencyEntries (v : Value) : JList :=
  match v with
  | .str s => .cons (raResource (pyStrip s)) .nil
  | .list vs => vlDeps vs
  | other => .cons (raResource (pyStrip (pyStr other))) .nil

def raDisplay (t : String) : JSON :=
  .obj (JFields.ofList [("type", .str "depends-on"), ("display", .str t)])

def tableEntries : VList → JList
  | .nil => .nil
  | .cons d rest => .cons (raDisplay ("Table: " ++ pyStr d)) (tableEntries rest)

def paramEntries : VList → JList
  | .nil => .nil
  | .cons p rest =>
      .cons (.obj (JFields.ofList [("name", .str (pyStr p)), ("type", .str "string")]))
        (paramEntries rest)

def addMetadata (ann : List (String × Value)) (f : JFields) : JFields :=
  let f1 :=
    match lookupAnn ann "relatedDependency" with
    | some v => appendRelated f (raDependencyEntries v)
    | none => f
  let f2 :=
    if (lookupAnn ann "database").isSome || (lookupAnn ann "schema").isSome then
      let display := "Database: " ++
        (match lookupAnn ann "database" with
         | some v => pyStr v
         | none => "Unknown")
      let display := display ++
        (match lookupAnn ann "schema" with
         | some v => ", Schema: " ++ pyStr v
         | none => "")
      appendRelated f1 (.cons (raDisplay display) .nil)
    else f1
  let f3 :=
    match (match lookupAnn ann "tables" with
           | some v => some v
           | none => lookupAnn ann "dependencies") with
    | some (.list vs) => appendRelated f2 (tableEntries vs)
    | _ => f2
  match lookupAnn ann "parameters" with
  | some (.list vs) => dictSet f3 "parameter" (.arr (paramEntries vs))
  | _ => f3

/-! ## Dialect, name generation, pruning, assembly -/

/-- `library['content'][0]['contentType'] = ct`. -/
def setCTinContent (ct : String) : JSON → JSON
  | .arr (.cons (.obj att) rest) => .arr (.cons (.obj (dictSet att "contentType" (.str ct))) rest)
  | w => w

/-- The sqlDialect handling: a truthy value has `.strip().lower()` applied,
which raises AttributeError unless it is a string; the content type becomes
`application/<dialect>+sql`. -/
def dialectStep (ann : List (String × Value)) (f : JFields) : Except String JFields :=
  match lookupAnn ann "sqlDialect" with
  | some v =>
      if valueTruthy v then
        match v with
        | .str s =>
            .ok (modifyVal f "content"
              (setCTinContent ("application/" ++ String.mk (lowerL (stripL s.data)) ++ "+sql")))
        | _ => .error "AttributeError: strip on non-string sqlDialect"
      else .ok f
  | none => .ok f

/-- Words of the cleaned title, with fuel (each step consumes at least one
character, so the input length is enough fuel): non-word non-space
characters and underscores become spaces, then split on whitespace. -/
def splitWordsF : Nat → List Char → List (List Char)
  | 0, _ => []
  | _ + 1, [] => []
  | n + 1, c :: rest =>
      if isPySpace c then splitWordsF n rest
      else (c :: rest.takeWhile (fun d => !isPySpace d)) ::
        splitWordsF n (rest.dropWhile (fun d => !isPySpace d))

def splitWords (cs : List Char) : List (List Char) := splitWordsF cs.length cs

/-- `_camel_case_title`. -/
def camelCaseTitle (t : String) : String :=
  if t = "" then ""
  else
    let cleaned := t.data.map (fun c => if !(isWordChar c || isPySpace c) then ' ' else c)
    let cleaned := cleaned.map (fun c => if c = '_' then ' ' else c)
    let ws := splitWords cleaned
    String.mk ((ws.map (fun w =>
      match w with
      | [] => []
      | c :: rest => Char.toUpper c :: rest.map Char.toLower)).flatten)

/-- Derive `name` from `title` when no `name` field was set.  A `title`
field is only ever set to a string, so the fallback is unreachable. -/
def nameStep (f : JFields) : JFields :=
  if !containsKey f "name" && containsKey f "title" then
    match dictGet f "title" with
    | some (.str t) => dictSet f "name" (.str (camelCaseTitle t))
    | _ => f
  else f

mutual
/-- `is_empty`: None, blank strings, empty or all-empty lists and dicts. -/
def isEmptyJ : JSON → Bool
  | .null => true
  | .bool _ => false
  | .int _ => false
  | .float _ => false
  | .str s => pyStrip s = ""
  | .arr xs => isEmptyL xs
  | .obj fs => isEmptyF fs
def isEmptyL : JList → Bool
  | .nil => true
  | .cons x xs => isEmptyJ x && isEmptyL xs
def isEmptyF : JFields → Bool
  | .nil => true
  | .cons _ v fs => isEmptyJ v && isEmptyF fs
end

mutual
/-- `_remove_empty_properties` / `clean_dict`: non-dicts are returned
unchanged. -/
def cleanJ : JSON → JSON
  | .obj fs => .obj (cleanF fs)
  | j => j
/-- Clean the entries of a dict: dict values are cleaned and dropped when
empty, list values have their items filtered (dict items cleaned), other
values are dropped when empty. -/
def cleanF : JFields → JFields
  | .nil => .nil
  | .cons k v fs =>
      match v with
      | .obj gs =>
          let cv : JSON := .obj (cleanF gs)
          if isEmptyJ cv then cleanF fs else .cons k cv (cleanF fs)
      | .arr xs =>
          (match cleanL xs with
           | .nil => cleanF fs
           | cl => .cons k (.arr cl) (cleanF fs))
      | _ => if isEmptyJ v then cleanF fs else .cons k v (cleanF fs)
/-- Clean the items of a list value: dict items are cleaned recursively,
all items are dropped when empty, other items pass through unchanged. -/
def cleanL : JList → JList
  | .nil => .nil
  | .cons x xs =>
      match x with
      | .obj gs =>
          let cx : JSON := .obj (cleanF gs)
          if isEmptyJ cx then cleanL xs else .cons cx (cleanL xs)
      | _ => if isEmptyJ x then cleanL xs else .cons x (cleanL xs)
end

def getAnnValue (ann : List (String × Value)) (k : String) (dflt : Value) : Value :=
  (lookupAnn ann k).getD dflt

def typeCoding : JSON :=
  .obj (JFields.ofList [("coding", .arr (.cons (.obj (JFields.ofList
    [("system", .str "http://terminology.hl7.org/CodeSystem/library-type"),
     ("code", .str "logic-library"),
     ("display", .str "Logic Library")])) .nil))])

/-- The attachment dict of the content entry. -/
def attachFields (ct d64 fn tc : String) : JFields :=
  JFields.ofList [("contentType", .str ct), ("data", .str d64),
    ("title", .str fn), ("creation", .str tc)]

/-- The base Library dict literal of `build_library_from_content`. -/
def baseFields (ann : List (String × Value)) (sqlB64 libraryId fn tm tc : String) : JFields :=
  JFields.ofList [
    ("resourceType", .str "Library"),
    ("id", .str libraryId),
    ("meta", .obj (JFields.ofList [("versionId", .str "1"), ("lastUpdated", .str tm)])),
    ("status", valueToJSON (getAnnValue ann "status" (.str "draft"))),
    ("type", typeCoding),
    ("content", .arr (.cons (.obj (attachFields "application/sql" sqlB64 fn tc)) .nil))]

/-- `build_library_from_content` with the annotations given.  The two
`datetime.now().isoformat() + "Z"` readings are the explicit arguments
`tm` (meta.lastUpdated) and `tc` (content creation). -/
def buildLibraryFromContent (sqlContent : String) (ann : List (String × Value))
    (libraryId filename tm tc : String) : Except String JSON := do
  let base := baseFields ann (base64OfString sqlContent) libraryId filename tm tc
  let f1 ← applyMappings ann base
  let f2 := extStep ann f1
  let f3 := addMetadata ann f2
  let f4 ← dialectStep ann f3
  let f5 := nameStep f4
  .ok (cleanJ (.obj f5))

/-- The `annotations = None` entry point: parse them from the content. -/
def buildParsingAnns (sqlContent libraryId filename tm tc : String) :
    Except String JSON :=
  buildLibraryFromContent sqlContent (parseContent sqlContent) libraryId filename tm tc

/-! ## Observers used by the theorems -/

/-- The content type of the first content attachment of a document. -/
def firstContentType (d : JSON) : Option String :=
  match d with
  | .obj fs =>
      match dictGet fs "content" with
      | some (.arr (.cons (.obj att) _)) =>
          match dictGet att "contentType" with
          | some (.str ct) => some ct
          | _ => none
      | _ => none
  | _ => none

/-- A top-level field of a document. -/
def topField (d : JSON) (k : String) : Option JSON :=
  match d with
  | .obj fs => dictGet fs k
  | _ => none

/-! ## Claim-side coercion rules (C5)

The coercion algorithm as the specification words it: an ordered list of
rules, the first applicable one winning.  This is a second formulation, to
be compared with `convertValueF`, which is translated from the source. -/

/-- Rule 1: case-insensitive truthy and falsy word sets. -/
def ruleBool (v : List Char) : Option Value :=
  if lowerL v ∈ ["true".data, "yes".data, "on".data, "1".data] then some (.bool true)
  else if lowerL v ∈ ["false".data, "no".data, "off".data, "0".data] then some (.bool false)
  else none

/-- Rules 2 and 3: an integer parse for strings free of `.` and `e`/`E`,
a float parse otherwise. -/
def ruleNumeric (v : List Char) : Option Value :=
  if !(v.contains '.') && !((lowerL v).contains 'e') then
    (pyIntParse v).map (fun n => .int n)
  else if pyFloatOk v then some (.float (String.mk v)) else none

/-- Rule 5: a string wrapped in a matching pair of quotes loses exactly the
outer pair. -/
def ruleQuote (v : List Char) : Option Value :=
  match v with
  | [] => none
  | c :: _ =>
      if (c = '"' && v.getLast? = some '"') || (c = squote && v.getLast? = some squote) then
        some (.str (String.mk ((v.drop 1).dropLast)))
      else none

/-- The rule chain: trim, then rule 1 (booleans), rules 2/3 (numbers),
rule 4 (comma splitting with recursive coercion), rule 5 (quotes), rule 6
(the trimmed string). -/
def specCoerceF : Nat → List Char → Value
  | 0, cs => .str (String.mk (stripL cs))
  | fuel + 1, raw =>
      let v := stripL raw
      match ruleBool v with
      | some r => r
      | none =>
          match ruleNumeric v with
          | some r => r
          | none =>
              if v.contains ',' then
                .list (VList.ofList ((splitOnChar ',' v).map
                  (fun p => specCoerceF fuel (stripL p))))
              else
                match ruleQuote v with
                | some r => r
                | none => .str (String.mk v)

/-- The claim-side coercion of a raw value string. -/
def specCoerce (s : String) : Value := specCoerceF (s.data.length + 1) s.data

/-! ## Claim-side merge shape (C6)

What the specification says `parse_content` produces for one key, given the
per-region occurrences in scan order. -/

/-- Per-region occurrence list of a key: the maps of all regions (line
comment regions first, then block comment regions), filtered to this key. -/
def regionOccurrences (s : String) (k : String) : List Value :=
  ((extractComments s).map parseAnnsFromText).filterMap (fun m => lookupAnn m k)

/-- Ordered concatenation of the wrapped occurrences. -/
def flatVL : List Value → VList
  | [] => .nil
  | v :: vs => toVL v ++ flatVL vs

/-- The specified merge: absent key, single native occurrence, or the
ordered concatenation of all wrapped occurrences. -/
def mergeSpec : List Value → Option Value
  | [] => none
  | [v] => some v
  | vs => some (.list (flatVL vs))

/-- Merging one region map into the accumulator, key by key. -/
def mergeRegion (acc : List (String × Value)) (m : List (String × Value)) :
    List (String × Value) :=
  m.foldl (fun a kv => mergeAnn a kv.1 kv.2) acc

/-- Folding the per-key merge over the occurrence list. -/
def combineOcc : Option Value → List Value → Option Value
  | o, [] => o
  | o, v :: occ =>
      match o with
      | none => combineOcc (some v) occ
      | some ex => combineOcc (some (.list (toVL ex ++ toVL v))) occ

/-- The keys of an annotation map. -/
def annKeys (m : List (String × Value)) : List String := m.map Prod.fst

def vlAppend_nil : (vs : VList) → vs ++ VList.nil = vs
  | .nil => rfl
  | .cons v vs => by
      show VList.cons v (vs ++ VList.nil) = VList.cons v vs
      rw [vlAppend_nil vs]

def vlAppend_assoc : (a : VList) → ∀ b c, a ++ b ++ c = a ++ (b ++ c)
  | .nil => fun _ _ => rfl
  | .cons v a => fun b c => by
      show VList.cons v (a ++ b ++ c) = VList.cons v (a ++ (b ++ c))
      rw [vlAppend_assoc a b c]

/-- Elementwise check that a jurisdiction list raises no AttributeError:
every entry is a string or falsy (falsy entries are filtered out). -/
def jurOkV : VList → Bool
  | .nil => true
  | .cons v vs => (isStrV v || !valueTruthy v) && jurOkV vs

/-- No-raise guard for the builder: any sqlDialect annotation is a string or
falsy, and any jurisdiction list is free of truthy non-strings. -/
def annNoRaise (ann : List (String × Value)) : Bool :=
  (match lookupAnn ann "sqlDialect" with
   | some v => isStrV v || !valueTruthy v
   | none => true) &&
  (match lookupAnn ann "jurisdiction" with
   | some (.list vs) => jurOkV vs
   | _ => true)

/-- A jurisdiction list passing the guard produces its codes without error. -/
def jurCodes_ok : (vs : VList) → jurOkV vs = true →
    ∃ cs, jurisdictionCodesOfVL vs = .ok cs
  | .nil => fun _ => ⟨[], rfl⟩
  | .cons j rest => fun h => by
      simp only [jurOkV, Bool.and_eq_true] at h
      obtain ⟨hj, hrest⟩ := h
      obtain ⟨cs, hcs⟩ := jurCodes_ok rest hrest
      simp only [jurisdictionCodesOfVL]
      by_cases hc : (valueTruthy j && (pyStrip (pyStr j) ≠ "" : Bool)) = true
      · rw [if_pos hc]
        cases j with
        | str s =>
            show ∃ cs2, (jurisdictionCodesOfVL rest >>= fun tl =>
              Except.ok (pyStrip s :: tl)) = Except.ok cs2
            rw [hcs]
            exact ⟨pyStrip s :: cs, rfl⟩
        | bool b =>
            rw [Bool.and_eq_true] at hc
            simp only [isStrV, Bool.false_or] at hj
            rw [hc.1] at hj
            exact absurd hj (by decide)
        | int n =>
            rw [Bool.and_eq_true] at hc
            simp only [isStrV, Bool.false_or] at hj
            rw [hc.1] at hj
            exact absurd hj (by decide)
        | float l =>
            rw [Bool.and_eq_true] at hc
            simp only [isStrV, Bool.false_or] at hj
            rw [hc.1] at hj
            exact absurd hj (by decide)
        | list ws =>
            rw [Bool.and_eq_true] at hc
            simp only [isStrV, Bool.false_or] at hj
            rw [hc.1] at hj
            exact absurd hj (by decide)
      · rw [if_neg hc]
        exact ⟨cs, hcs⟩

/-! ## Normal form of the assembled document

The builder only ever touches the base dict through `dictSet`/`modifyVal`
with keys other than resourceType, id, meta and content (except the dialect
step, which rewrites the attachment's contentType).  `deco` is the resulting
decomposition: the fixed head, the meta stamp, the status/type segment, the
content attachment, and the accumulated appended fields. -/

def keysJ : JFields → List String
  | .nil => []
  | .cons k _ fs => k :: keysJ fs

def metaObj (tm : String) : JSON :=
  .obj (.cons "versionId" (.str "1") (.cons "lastUpdated" (.str tm) .nil))

def contentJ (ct d64 fn tc : String) : JSON :=
  .arr (.cons (.obj (attachFields ct d64 fn tc)) .nil)

def deco (idv tm : String) (a2 : JFields) (ct d64 fn tc : String) (b : JFields) : JFields :=
  .cons "resourceType" (.str "Library") (.cons "id" (.str idv)
    (.cons "meta" (metaObj tm) (a2 ++ .cons "content" (contentJ ct d64 fn tc) b)))

/-- The status/type segment of the base dict. -/
def mid0 (ann : List (String × Value)) : JFields :=
  .cons "status" (valueToJSON (getAnnValue ann "status" (.str "draft")))
    (.cons "type" typeCoding .nil)

/-- The status/type segment after the mapping loop: a string `type`
annotation overwrites the coding. -/
def midF (ann : List (String × Value)) : JFields :=
  .cons "status" (valueToJSON (getAnnValue ann "status" (.str "draft")))
    (.cons "type"
      (match lookupAnn ann "type" with
       | some (.str s) => .str s
       | _ => typeCoding) .nil)

/-- An optional appended field. -/
def segOpt (k : String) (o : Option JSON) : JFields :=
  match o with
  | none => .nil
  | some v => .cons k v .nil

/-- Apply an optional field value (skip or set). -/
def applySegF (f : JFields) (k : String) (o : Option JSON) : JFields :=
  match o with
  | none => f
  | some v => dictSet f k v

/-- A plainly mapped key: set when the annotation value is a string. -/
def strSeg (ann : List (String × Value)) (k : String) : Option JSON :=
  match lookupAnn ann k with
  | some (.str s) => some (.str s)
  | _ => none

def contactSeg (ann : List (String × Value)) (k : String) : Option JSON :=
  match lookupAnn ann k with
  | some (.str s) => some (formatContact s)
  | _ => none

def identSeg (ann : List (String × Value)) : Option JSON :=
  match lookupAnn ann "identifier" with
  | some (.str s) =>
      if pyStrip s ≠ "" then some (.arr (.cons (formatIdentifier s) .nil)) else none
  | _ => none

def dateSeg (ann : List (String × Value)) : Option JSON :=
  match lookupAnn ann "date" with
  | some (.str s) => some (.str (formatDate s))
  | _ => none

def expSeg (ann : List (String × Value)) : Option JSON :=
  match lookupAnn ann "experimental" with
  | some (.bool b) => some (.bool b)
  | some (.str s) => some (.str s)
  | _ => none

/-- The jurisdiction field computation, with the AttributeError raised on a
truthy non-string list element. -/
def jurisdictionSeg (ann : List (String × Value)) : Except String (Option JSON) :=
  match lookupAnn ann "jurisdiction" with
  | some v =>
      if isStrV v || isListV v then
        match formatJurisdiction v with
        | .error e => .error e
        | .ok .nil => .ok none
        | .ok js => .ok (some (.arr js))
      else .ok none
  | none => .ok none

/-- The fields appended by the mapping loop, in loop order (status and type
live in the status/type segment instead). -/
def postMapped (ann : List (String × Value)) (jopt : Option JSON) : JFields :=
  segOpt "title" (strSeg ann "title") ++ segOpt "name" (strSeg ann "name") ++
  segOpt "description" (strSeg ann "description") ++
  segOpt "version" (strSeg ann "version") ++
  segOpt "author" (contactSeg ann "author") ++
  segOpt "publisher" (strSeg ann "publisher") ++
  segOpt "contact" (contactSeg ann "contact") ++
  segOpt "copyright" (strSeg ann "copyright") ++
  segOpt "purpose" (strSeg ann "purpose") ++
  segOpt "usage" (strSeg ann "usage") ++
  segOpt "url" (strSeg ann "url") ++
  segOpt "identifier" (identSeg ann) ++
  segOpt "date" (dateSeg ann) ++
  segOpt "subject" (strSeg ann "subject") ++
  segOpt "experimental" (expSeg ann) ++
  segOpt "jurisdiction" jopt ++
  segOpt "approvalDate" (strSeg ann "approvalDate") ++
  segOpt "lastReviewDate" (strSeg ann "lastReviewDate") ++
  segOpt "effectivePeriod" (strSeg ann "effectivePeriod")

/-- The mapping loop as nested optional field applications; the jurisdiction
field value is a parameter, computed by `jurisdictionSeg`. -/
def bigApply (ann : List (String × Value)) (jopt : Option JSON) (f : JFields) : JFields :=
  applySegF (applySegF (applySegF (applySegF (applySegF (applySegF (applySegF (applySegF (applySegF (applySegF (applySegF (applySegF (applySegF (applySegF (applySegF (applySegF (applySegF (applySegF (applySegF (applySegF (applySegF f "title" (strSeg ann "title")) "name" (strSeg ann "name")) "description" (strSeg ann "description")) "version" (strSeg ann "version")) "status" (strSeg ann "status")) "author" (contactSeg ann "author")) "publisher" (strSeg ann "publisher")) "contact" (contactSeg ann "contact")) "copyright" (strSeg ann "copyright")) "purpose" (strSeg ann "purpose")) "usage" (strSeg ann "usage")) "url" (strSeg ann "url")) "identifier" (identSeg ann)) "date" (dateSeg ann)) "type" (strSeg ann "type")) "subject" (strSeg ann "subject")) "experimental" (expSeg ann)) "jurisdiction" jopt) "approvalDate" (strSeg ann "approvalDate")) "lastReviewDate" (strSeg ann "lastReviewDate")) "effectivePeriod" (strSeg ann "effectivePeriod")

/-- The extension field, when any extensions were produced. -/
def extSeg (ann : List (String × Value)) : JFields :=
  match extensionsOf ann with
  | .nil => .nil
  | es => .cons "extension" (.arr es) .nil

def tablesOrDeps (ann : List (String × Value)) : Option Value :=
  match lookupAnn ann "tables" with
  | some v => some v
  | none => lookupAnn ann "dependencies"

def dbDisplay (ann : List (String × Value)) : String :=
  "Database: " ++
    (match lookupAnn ann "database" with
     | some v => pyStr v
     | none => "Unknown") ++
    (match lookupAnn ann "schema" with
     | some v => ", Schema: " ++ pyStr v
     | none => "")

/-- Whether `_add_additional_metadata` creates the relatedArtifact list. -/
def raCreated (ann : List (String × Value)) : Bool :=
  (lookupAnn ann "relatedDependency").isSome ||
  ((lookupAnn ann "database").isSome || (lookupAnn ann "schema").isSome) ||
  (match tablesOrDeps ann with
   | some (.list _) => true
   | _ => false)

/-- All relatedArtifact entries, in block order. -/
def raEntriesAll (ann : List (String × Value)) : JList :=
  (match lookupAnn ann "relatedDependency" with
   | some v => raDependencyEntries v
   | none => .nil) ++
  (if (lookupAnn ann "database").isSome || (lookupAnn ann "schema").isSome then
    .cons (raDisplay (dbDisplay ann)) .nil
  else .nil) ++
  (match tablesOrDeps ann with
   | some (.list vs) => tableEntries vs
   | _ => .nil)

/-- The relatedArtifact accumulation state: absent, or present with entries. -/
def raOptF : Option JList → JFields
  | none => .nil
  | some xs => .cons "relatedArtifact" (.arr xs) .nil

/-- Appending entries to the accumulation state. -/
def raApp : Option JList → JList → Option JList
  | none, es => some es
  | some xs, es => some (xs ++ es)

def raSeg (ann : List (String × Value)) : JFields :=
  if raCreated ann then .cons "relatedArtifact" (.arr (raEntriesAll ann)) .nil else .nil

def paramSeg (ann : List (String × Value)) : JFields :=
  match lookupAnn ann "parameters" with
  | some (.list vs) => .cons "parameter" (.arr (paramEntries vs)) .nil
  | _ => .nil

/-- The final content type, or the AttributeError of the dialect step. -/
def dialectRes (ann : List (String × Value)) : Except String String :=
  match lookupAnn ann "sqlDialect" with
  | some v =>
      if valueTruthy v then
        match v with
        | .str s => .ok ("application/" ++ String.mk (lowerL (stripL s.data)) ++ "+sql")
        | _ => .error "AttributeError: strip on non-string sqlDialect"
      else .ok "application/sql"
  | none => .ok "application/sql"

/-- The derived name field: only when the mapping loop set no name and set a
string title. -/
def nameSeg (ann : List (String × Value)) : JFields :=
  if (strSeg ann "name").isSome then .nil
  else
    match strSeg ann "title" with
    | some (.str t) => .cons "name" (.str (camelCaseTitle t)) .nil
    | _ => .nil

/-- Everything appended after the status/type segment and the content
attachment. -/
def postAll (ann : List (String × Value)) (jopt : Option JSON) : JFields :=
  postMapped ann jopt ++ extSeg ann ++ raSeg ann ++ paramSeg ann ++ nameSeg ann

/-! ## Timestamp erasure (C3) -/

/-- Drop every field with the given key. -/
def removeKey : JFields → String → JFields
  | .nil, _ => .nil
  | .cons k2 v fs, k =>
      if k2 = k then removeKey fs k else .cons k2 v (removeKey fs k)

def stripAtt (x : JSON) : JSON :=
  match x with
  | .obj att => .obj (removeKey att "creation")
  | w => w

def stripItems : JList → JList
  | .nil => .nil
  | .cons x xs => .cons (stripAtt x) (stripItems xs)

/-- Erase the clock-dependent leaves: `meta.lastUpdated` and the `creation`
field of every content attachment. -/
def stripField (k : String) (v : JSON) : JSON :=
  if k = "meta" then
    match v with
    | .obj ms => .obj (removeKey ms "lastUpdated")
    | w => w
  else if k = "content" then
    match v with
    | .arr xs => .arr (stripItems xs)
    | w => w
  else v

def stripFields : JFields → JFields
  | .nil => .nil
  | .cons k v fs => .cons k (stripField k v) (stripFields fs)

def stripTimestamps : JSON → JSON
  | .obj fs => .obj (stripFields fs)
  | j => j

def stripFields_append : (a : JFields) → ∀ b,
    stripFields (a ++ b) = stripFields a ++ stripFields b
  | .nil => fun _ => rfl
  | .cons k v a => fun b => by
      show JFields.cons k (stripField k v) (stripFields (a ++ b)) = _
      rw [stripFields_append a b]
      rfl


/-! ## Shape predicates for the pruning argument (C7)

`good` says every array sitting directly inside another array is free of
dicts (the only way that happens in the builder is through coerced
annotation values, which contain no dicts); `fieldsOk` is the claimed
output invariant: no field anywhere holds an empty value. -/

mutual
def objFreeJ : JSON → Bool
  | .obj _ => false
  | .arr xs => objFreeL xs
  | _ => true
def objFreeL : JList → Bool
  | .nil => true
  | .cons x xs => objFreeJ x && objFreeL xs
end

mutual
def goodJ : JSON → Bool
  | .obj fs => goodF fs
  | .arr xs => goodL xs
  | _ => true
def goodF : JFields → Bool
  | .nil => true
  | .cons _ v fs => goodJ v && goodF fs
def goodL : JList → Bool
  | .nil => true
  | .cons x xs =>
      (match x with
       | .arr _ => objFreeJ x
       | _ => goodJ x) && goodL xs
end

mutual
def fieldsOkJ : JSON → Bool
  | .obj fs => fieldsOkF fs
  | .arr xs => fieldsOkL xs
  | _ => true
def fieldsOkF : JFields → Bool
  | .nil => true
  | .cons _ v fs => !isEmptyJ v && fieldsOkJ v && fieldsOkF fs
def fieldsOkL : JList → Bool
  | .nil => true
  | .cons x xs => fieldsOkJ x && fieldsOkL xs
end

def goodL_append : (a : JList) → ∀ b, goodL (a ++ b) = (goodL a && goodL b)
  | .nil => fun _ => rfl
  | .cons x a => fun b => by
      show ((match x with | .arr _ => objFreeJ x | _ => goodJ x) && goodL (a ++ b)) = _
      rw [goodL_append a b]
      exact (Bool.and_assoc _ _ _).symm

def goodF_append : (a : JFields) → ∀ b, goodF (a ++ b) = (goodF a && goodF b)
  | .nil => fun _ => rfl
  | .cons k v a => fun b => by
      show (goodJ v && goodF (a ++ b)) = _
      rw [goodF_append a b]
      exact (Bool.and_assoc _ _ _).symm

mutual
/-- An object-free value satisfies the field invariant outright. -/
def objFreeOkJ : (x : JSON) → objFreeJ x = true → fieldsOkJ x = true
  | .null => fun _ => rfl
  | .bool _ => fun _ => rfl
  | .int _ => fun _ => rfl
  | .float _ => fun _ => rfl
  | .str _ => fun _ => rfl
  | .arr xs => fun h => by
      simp only [objFreeJ] at h
      simp only [fieldsOkJ]
      exact objFreeOkL xs h
  | .obj _ => fun h => Bool.noConfusion h
def objFreeOkL : (xs : JList) → objFreeL xs = true → fieldsOkL xs = true
  | .nil => fun _ => rfl
  | .cons x xs => fun h => by
      simp only [objFreeL, Bool.and_eq_true] at h
      simp only [fieldsOkL, Bool.and_eq_true]
      exact ⟨objFreeOkJ x h.1, objFreeOkL xs h.2⟩
end

mutual
/-- An object-free value is good. -/
def objFreeGoodJ : (x : JSON) → objFreeJ x = true → goodJ x = true
  | .null => fun _ => rfl
  | .bool _ => fun _ => rfl
  | .int _ => fun _ => rfl
  | .float _ => fun _ => rfl
  | .str _ => fun _ => rfl
  | .arr xs => fun h => by
      simp only [objFreeJ] at h
      simp only [goodJ]
      exact objFreeGoodL xs h
  | .obj _ => fun h => Bool.noConfusion h
def objFreeGoodL : (xs : JList) → objFreeL xs = true → goodL xs = true
  | .nil => fun _ => rfl
  | .cons x xs => fun h => by
      simp only [objFreeL, Bool.and_eq_true] at h
      simp only [goodL, Bool.and_eq_true]
      refine ⟨?_, objFreeGoodL xs h.2⟩
      cases x with
      | arr ys => exact h.1
      | obj fs => exact Bool.noConfusion h.1
      | null => rfl
      | bool b => rfl
      | int n => rfl
      | float l => rfl
      | str s => rfl
end

mutual
/-- Coerced annotation values contain no dicts. -/
def valueToJSON_objFree : (v : Value) → objFreeJ (valueToJSON v) = true
  | .bool _ => rfl
  | .int _ => rfl
  | .float _ => rfl
  | .str _ => rfl
  | .list vs => by
      simp only [valueToJSON, objFreeJ]
      exact vlistToJList_objFree vs
def vlistToJList_objFree : (vs : VList) → objFreeL (vlistToJList vs) = true
  | .nil => rfl
  | .cons v vs => by
      simp only [vlistToJList, objFreeL, Bool.and_eq_true]
      exact ⟨valueToJSON_objFree v, vlistToJList_objFree vs⟩
end

/-- The head of a cleaned list is never empty: `clean_dict` keeps only
non-empty items. -/
def cleanL_head : (xs : JList) → ∀ y ys, cleanL xs = .cons y ys → isEmptyJ y = false
  | .nil => fun _ _ h => JList.noConfusion h
  | .cons x xs => fun y ys h => by
      cases x with
      | obj gs =>
          by_cases he : isEmptyJ (.obj (cleanF gs)) = true
          · simp only [cleanL] at h
            rw [if_pos he] at h
            exact cleanL_head xs y ys h
          · simp only [cleanL] at h
            rw [if_neg he] at h
            injection h with h1 h2
            rw [← h1]
            cases hb : isEmptyJ (JSON.obj (cleanF gs)) with
            | false => rfl
            | true => exact absurd hb he
      | arr zs =>
          by_cases he : isEmptyJ (JSON.arr zs) = true
          · simp only [cleanL] at h
            rw [if_pos he] at h
            exact cleanL_head xs y ys h
          · simp only [cleanL] at h
            rw [if_neg he] at h
            injection h with h1 h2
            rw [← h1]
            cases hb : isEmptyJ (JSON.arr zs) with
            | false => rfl
            | true => exact absurd hb he
      | null =>
          by_cases he : isEmptyJ JSON.null = true
          · simp only [cleanL] at h
            rw [if_pos he] at h
            exact cleanL_head xs y ys h
          · exact absurd rfl he
      | bool b =>
          by_cases he : isEmptyJ (JSON.bool b) = true
          · simp only [cleanL] at h
            rw [if_pos he] at h
            exact cleanL_head xs y ys h
          · simp only [cleanL] at h
            rw [if_neg he] at h
            injection h with h1 h2
            rw [← h1]
            cases hb : isEmptyJ (JSON.bool b) with
            | false => rfl
            | true => exact absurd hb he
      | int n =>
          by_cases he : isEmptyJ (JSON.int n) = true
          · simp only [cleanL] at h
            rw [if_pos he] at h
            exact cleanL_head xs y ys h
          · simp only [cleanL] at h
            rw [if_neg he] at h
            injection h with h1 h2
            rw [← h1]
            cases hb : isEmptyJ (JSON.int n) with
            | false => rfl
            | true => exact absurd hb he
      | float l =>
          by_cases he : isEmptyJ (JSON.float l) = true
          · simp only [cleanL] at h
            rw [if_pos he] at h
            exact cleanL_head xs y ys h
          · simp only [cleanL] at h
            rw [if_neg he] at h
            injection h with h1 h2
            rw [← h1]
            cases hb : isEmptyJ (JSON.float l) with
            | false => rfl
            | true => exact absurd hb he
      | str s =>
          by_cases he : isEmptyJ (JSON.str s) = true
          · simp only [cleanL] at h
            rw [if_pos he] at h
            exact cleanL_head xs y ys h
          · simp only [cleanL] at h
            rw [if_neg he] at h
            injection h with h1 h2
            rw [← h1]
            cases hb : isEmptyJ (JSON.str s) with
            | false => rfl
            | true => exact absurd hb he

mutual
/-- Cleaning a good dict establishes the field invariant: every kept field is
non-empty and recursively clean. -/
def cleanOkF : (fs : JFields) → goodF fs = true → fieldsOkF (cleanF fs) = true
  | .nil => fun _ => rfl
  | .cons k v fs => fun h => by
      simp only [goodF, Bool.and_eq_true] at h
      obtain ⟨hv, hfs⟩ := h
      cases v with
      | obj gs =>
          by_cases he : isEmptyJ (.obj (cleanF gs)) = true
          · simp only [cleanF]
            rw [if_pos he]
            exact cleanOkF fs hfs
          · simp only [cleanF]
            rw [if_neg he]
            simp only [fieldsOkF, Bool.and_eq_true]
            refine ⟨⟨?_, ?_⟩, cleanOkF fs hfs⟩
            · cases hb : isEmptyJ (JSON.obj (cleanF gs)) with
              | false => rfl
              | true => exact absurd hb he
            · simp only [fieldsOkJ]
              exact cleanOkF gs (by simpa [goodJ] using hv)
      | arr xs =>
          cases hc : cleanL xs with
          | nil =>
              simp only [cleanF, hc]
              exact cleanOkF fs hfs
          | cons y ys =>
              simp only [cleanF, hc]
              simp only [fieldsOkF, Bool.and_eq_true]
              have hy : isEmptyJ y = false := cleanL_head xs y ys hc
              refine ⟨⟨?_, ?_⟩, cleanOkF fs hfs⟩
              · simp only [isEmptyJ, isEmptyL, hy, Bool.false_and, Bool.not_false]
              · simp only [fieldsOkJ]
                rw [← hc]
                exact cleanOkL xs (by simpa [goodJ] using hv)
      | null =>
          by_cases he : isEmptyJ JSON.null = true
          · simp only [cleanF]
            rw [if_pos he]
            exact cleanOkF fs hfs
          · exact absurd rfl he
      | bool b =>
          by_cases he : isEmptyJ (JSON.bool b) = true
          · simp only [cleanF]
            rw [if_pos he]
            exact cleanOkF fs hfs
          · simp only [cleanF]
            rw [if_neg he]
            simp only [fieldsOkF, Bool.and_eq_true]
            refine ⟨⟨?_, rfl⟩, cleanOkF fs hfs⟩
            cases hb : isEmptyJ (JSON.bool b) with
            | false => rfl
            | true => exact absurd hb he
      | int n =>
          by_cases he : isEmptyJ (JSON.int n) = true
          · simp only [cleanF]
            rw [if_pos he]
            exact cleanOkF fs hfs
          · simp only [cleanF]
            rw [if_neg he]
            simp only [fieldsOkF, Bool.and_eq_true]
            refine ⟨⟨?_, rfl⟩, cleanOkF fs hfs⟩
            cases hb : isEmptyJ (JSON.int n) with
            | false => rfl
            | true => exact absurd hb he
      | float l =>
          by_cases he : isEmptyJ (JSON.float l) = true
          · simp only [cleanF]
            rw [if_pos he]
            exact cleanOkF fs hfs
          · simp only [cleanF]
            rw [if_neg he]
            simp only [fieldsOkF, Bool.and_eq_true]
            refine ⟨⟨?_, rfl⟩, cleanOkF fs hfs⟩
            cases hb : isEmptyJ (JSON.float l) with
            | false => rfl
            | true => exact absurd hb he
      | str s =>
          by_cases he : isEmptyJ (JSON.str s) = true
          · simp only [cleanF]
            rw [if_pos he]
            exact cleanOkF fs hfs
          · simp only [cleanF]
            rw [if_neg he]
            simp only [fieldsOkF, Bool.and_eq_true]
            refine ⟨⟨?_, rfl⟩, cleanOkF fs hfs⟩
            cases hb : isEmptyJ (JSON.str s) with
            | false => rfl
            | true => exact absurd hb he
def cleanOkL : (xs : JList) → goodL xs = true → fieldsOkL (cleanL xs) = true
  | .nil => fun _ => rfl
  | .cons x xs => fun h => by
      simp only [goodL, Bool.and_eq_true] at h
      obtain ⟨hx, hxs⟩ := h
      cases x with
      | obj gs =>
          by_cases he : isEmptyJ (.obj (cleanF gs)) = true
          · simp only [cleanL]
            rw [if_pos he]
            exact cleanOkL xs hxs
          · simp only [cleanL]
            rw [if_neg he]
            simp only [fieldsOkL, Bool.and_eq_true]
            refine ⟨?_, cleanOkL xs hxs⟩
            simp only [fieldsOkJ]
            exact cleanOkF gs (by simpa [goodJ] using hx)
      | arr ys =>
          by_cases he : isEmptyJ (JSON.arr ys) = true
          · simp only [cleanL]
            rw [if_pos he]
            exact cleanOkL xs hxs
          · simp only [cleanL]
            rw [if_neg he]
            simp only [fieldsOkL, Bool.and_eq_true]
            exact ⟨objFreeOkJ _ (by simpa using hx), cleanOkL xs hxs⟩
      | null =>
          by_cases he : isEmptyJ JSON.null = true
          · simp only [cleanL]
            rw [if_pos he]
            exact cleanOkL xs hxs
          · exact absurd rfl he
      | bool b =>
          by_cases he : isEmptyJ (JSON.bool b) = true
          · simp only [cleanL]
            rw [if_pos he]
            exact cleanOkL xs hxs
          · simp only [cleanL]
            rw [if_neg he]
            simp only [fieldsOkL, Bool.and_eq_true]
            exact ⟨rfl, cleanOkL xs hxs⟩
      | int n =>
          by_cases he : isEmptyJ (JSON.int n) = true
          · simp only [cleanL]
            rw [if_pos he]
            exact cleanOkL xs hxs
          · simp only [cleanL]
            rw [if_neg he]
            simp only [fieldsOkL, Bool.and_eq_true]
            exact ⟨rfl, cleanOkL xs hxs⟩
      | float l =>
          by_cases he : isEmptyJ (JSON.float l) = true
          · simp only [cleanL]
            rw [if_pos he]
            exact cleanOkL xs hxs
          · simp only [cleanL]
            rw [if_neg he]
            simp only [fieldsOkL, Bool.and_eq_true]
            exact ⟨rfl, cleanOkL xs hxs⟩
      | str s =>
          by_cases he : isEmptyJ (JSON.str s) = true
          · simp only [cleanL]
            rw [if_pos he]
            exact cleanOkL xs hxs
          · simp only [cleanL]
            rw [if_neg he]
            simp only [fieldsOkL, Bool.and_eq_true]
            exact ⟨rfl, cleanOkL xs hxs⟩
end

/-- The per-item condition of `goodL`. -/
def goodItem (x : JSON) : Bool :=
  match x with
  | .arr _ => objFreeJ x
  | _ => goodJ x

def goodL_vlDeps : (vs : VList) → goodL (vlDeps vs) = true
  | .nil => rfl
  | .cons v vs => by
      simp only [vlDeps, goodL, Bool.and_eq_true]
      exact ⟨rfl, goodL_vlDeps vs⟩

def goodL_tableEntries : (vs : VList) → goodL (tableEntries vs) = true
  | .nil => rfl
  | .cons v vs => by
      simp only [tableEntries, goodL, Bool.and_eq_true]
      exact ⟨rfl, goodL_tableEntries vs⟩

def goodL_paramEntries : (vs : VList) → goodL (paramEntries vs) = true
  | .nil => rfl
  | .cons v vs => by
      simp only [paramEntries, goodL, Bool.and_eq_true]
      exact ⟨rfl, goodL_paramEntries vs⟩


/-! ## Dictionary and append lemmas, by structural recursion -/

def jlAppend_nil : (xs : JList) → xs ++ JList.nil = xs
  | .nil => rfl
  | .cons x xs => by
      show JList.cons x (xs ++ JList.nil) = JList.cons x xs
      rw [jlAppend_nil xs]

def jlAppend_assoc : (a : JList) → ∀ b c, a ++ b ++ c = a ++ (b ++ c)
  | .nil => fun _ _ => rfl
  | .cons x a => fun b c => by
      show JList.cons x (a ++ b ++ c) = JList.cons x (a ++ (b ++ c))
      rw [jlAppend_assoc a b c]

def jfAppend_nil : (fs : JFields) → fs ++ JFields.nil = fs
  | .nil => rfl
  | .cons k v fs => by
      show JFields.cons k v (fs ++ JFields.nil) = JFields.cons k v fs
      rw [jfAppend_nil fs]

def jfAppend_assoc : (a : JFields) → ∀ b c, a ++ b ++ c = a ++ (b ++ c)
  | .nil => fun _ _ => rfl
  | .cons k v a => fun b c => by
      show JFields.cons k v (a ++ b ++ c) = JFields.cons k v (a ++ (b ++ c))
      rw [jfAppend_assoc a b c]

def dictGet_append : (a : JFields) → ∀ b k,
    dictGet (a ++ b) k =
      match dictGet a k with
      | some w => some w
      | none => dictGet b k
  | .nil => fun _ _ => rfl
  | .cons k2 v a => fun b k => by
      show dictGet (JFields.cons k2 v (a ++ b)) k = _
      by_cases h : k2 = k
      · simp only [dictGet, if_pos h]
      · simp only [dictGet, if_neg h]
        exact dictGet_append a b k

def containsKey_append : (a : JFields) → ∀ b k,
    containsKey (a ++ b) k = (containsKey a k || containsKey b k)
  | .nil => fun _ _ => rfl
  | .cons k2 v a => fun b k => by
      show containsKey (JFields.cons k2 v (a ++ b)) k = _
      simp only [containsKey, containsKey_append a b k, Bool.or_assoc]

def dictSet_append : (a : JFields) → ∀ b k v,
    dictSet (a ++ b) k v =
      if containsKey a k then dictSet a k v ++ b else a ++ dictSet b k v
  | .nil => fun b k v => by
      simp only [containsKey, Bool.false_eq_true, if_false]
      rfl
  | .cons k2 w a => fun b k v => by
      show dictSet (JFields.cons k2 w (a ++ b)) k v = _
      by_cases h : k2 = k
      · simp only [dictSet, if_pos h, containsKey, h]
        simp
        rfl
      · simp only [dictSet, if_neg h, containsKey, h]
        rw [dictSet_append a b k v]
        by_cases hc : containsKey a k = true
        · simp only [hc, if_true, Bool.false_or]
          rfl
        · simp only [hc, Bool.false_or, if_false]
          simp only [Bool.false_eq_true, if_false]
          rfl

def dictSet_not_contains : (f : JFields) → ∀ k v, containsKey f k = false →
    dictSet f k v = f ++ JFields.cons k v JFields.nil
  | .nil => fun _ _ _ => rfl
  | .cons k2 w f => fun k v h => by
      have h2 : ¬(k2 = k) := by
        intro hh
        simp [containsKey, hh] at h
      have hf : containsKey f k = false := by
        simpa [containsKey, h2] using h
      show dictSet (JFields.cons k2 w f) k v = JFields.cons k2 w (f ++ _)
      simp only [dictSet, if_neg h2]
      rw [dictSet_not_contains f k v hf]

def modifyVal_append : (a : JFields) → ∀ b k g,
    modifyVal (a ++ b) k g =
      if containsKey a k then modifyVal a k g ++ b else a ++ modifyVal b k g
  | .nil => fun b k g => by
      simp only [containsKey, Bool.false_eq_true, if_false]
      rfl
  | .cons k2 w a => fun b k g => by
      show modifyVal (JFields.cons k2 w (a ++ b)) k g = _
      by_cases h : k2 = k
      · simp only [modifyVal, if_pos h, containsKey, h]
        simp
        rfl
      · simp only [modifyVal, if_neg h, containsKey, h]
        rw [modifyVal_append a b k g]
        by_cases hc : containsKey a k = true
        · simp only [hc, if_true, Bool.false_or]
          rfl
        · simp only [hc, Bool.false_or, if_false]
          simp only [Bool.false_eq_true, if_false]
          rfl

def modifyVal_not_contains : (f : JFields) → ∀ k g, containsKey f k = false →
    modifyVal f k g = f
  | .nil => fun _ _ _ => rfl
  | .cons k2 w f => fun k g h => by
      have h2 : ¬(k2 = k) := by
        intro hh
        simp [containsKey, hh] at h
      have hf : containsKey f k = false := by
        simpa [containsKey, h2] using h
      show modifyVal (JFields.cons k2 w f) k g = _
      simp only [modifyVal, if_neg h2]
      rw [modifyVal_not_contains f k g hf]

def cleanF_append : (a : JFields) → ∀ b, cleanF (a ++ b) = cleanF a ++ cleanF b
  | .nil => fun _ => rfl
  | .cons k v a => fun b => by
      cases v with
      | obj gs =>
          show cleanF (JFields.cons k (JSON.obj gs) (a ++ b)) = _
          simp only [cleanF]
          by_cases h : isEmptyJ (JSON.obj (cleanF gs)) = true
          · rw [if_pos h, if_pos h, cleanF_append a b]
          · rw [if_neg h, if_neg h, cleanF_append a b]
            rfl
      | arr xs =>
          show cleanF (JFields.cons k (JSON.arr xs) (a ++ b)) = _
          simp only [cleanF]
          cases cleanL xs with
          | nil => rw [cleanF_append a b]
          | cons y ys =>
              rw [cleanF_append a b]
              rfl
      | null =>
          show cleanF (JFields.cons k JSON.null (a ++ b)) = _
          simp only [cleanF, isEmptyJ, if_true]
          exact cleanF_append a b
      | bool c =>
          show cleanF (JFields.cons k (JSON.bool c) (a ++ b)) = _
          simp only [cleanF, isEmptyJ, Bool.false_eq_true, if_false]
          rw [cleanF_append a b]
          rfl
      | int n =>
          show cleanF (JFields.cons k (JSON.int n) (a ++ b)) = _
          simp only [cleanF, isEmptyJ, Bool.false_eq_true, if_false]
          rw [cleanF_append a b]
          rfl
      | float l =>
          show cleanF (JFields.cons k (JSON.float l) (a ++ b)) = _
          simp only [cleanF, isEmptyJ, Bool.false_eq_true, if_false]
          rw [cleanF_append a b]
          rfl
      | str s =>
          show cleanF (JFields.cons k (JSON.str s) (a ++ b)) = _
          simp only [cleanF]
          by_cases h : isEmptyJ (JSON.str s) = true
          · rw [if_pos h, if_pos h, cleanF_append a b]
          · rw [if_neg h, if_neg h, cleanF_append a b]
            rfl

def dictGet_cleanF_none : (f : JFields) → ∀ k, dictGet f k = none →
    dictGet (cleanF f) k = none
  | .nil => fun _ _ => rfl
  | .cons k2 v f => fun k h => by
      have h2 : ¬(k2 = k) := by
        intro hh
        simp [dictGet, hh] at h
      have hf : dictGet f k = none := by
        simpa [dictGet, h2] using h
      have tail := dictGet_cleanF_none f k hf
      cases v with
      | obj gs =>
          simp only [cleanF]
          by_cases he : isEmptyJ (JSON.obj (cleanF gs)) = true
          · rw [if_pos he]
            exact tail
          · rw [if_neg he]
            simp only [dictGet, if_neg h2]
            exact tail
      | arr xs =>
          simp only [cleanF]
          cases cleanL xs with
          | nil => exact tail
          | cons y ys =>
              simp only [dictGet, if_neg h2]
              exact tail
      | null =>
          simp only [cleanF, isEmptyJ, if_true]
          exact tail
      | bool c =>
          simp only [cleanF, isEmptyJ, Bool.false_eq_true, if_false, dictGet, if_neg h2]
          exact tail
      | int n =>
          simp only [cleanF, isEmptyJ, Bool.false_eq_true, if_false, dictGet, if_neg h2]
          exact tail
      | float l =>
          simp only [cleanF, isEmptyJ, Bool.false_eq_true, if_false, dictGet, if_neg h2]
          exact tail
      | str s =>
          simp only [cleanF]
          by_cases he : isEmptyJ (JSON.str s) = true
          · rw [if_pos he]
            exact tail
          · rw [if_neg he]
            simp only [dictGet, if_neg h2]
            exact tail

/-! ## Idempotence of the pruning pass (C8): proof by mutual structural
recursion over the document tree. -/

mutual
def cleanF_idem : (fs : JFields) → cleanF (cleanF fs) = cleanF fs
  | .nil => rfl
  | .cons k v fs => by
      cases v with
      | obj gs =>
          by_cases h : isEmptyJ (JSON.obj (cleanF gs)) = true
          · have e1 : cleanF (JFields.cons k (JSON.obj gs) fs) = cleanF fs := by
              simp only [cleanF]
              rw [if_pos h]
            rw [e1, cleanF_idem fs]
          · have e1 : cleanF (JFields.cons k (JSON.obj gs) fs)
                = .cons k (.obj (cleanF gs)) (cleanF fs) := by
              simp only [cleanF]
              rw [if_neg h]
            rw [e1]
            simp only [cleanF]
            rw [cleanF_idem gs, cleanF_idem fs, if_neg h]
      | arr xs =>
          simp only [cleanF]
          cases hcl : cleanL xs with
          | nil => exact cleanF_idem fs
          | cons y ys =>
              have h2 : cleanL (JList.cons y ys) = JList.cons y ys := by
                rw [← hcl, cleanL_idem xs, hcl]
              simp only [cleanF, h2, cleanF_idem fs]
      | null =>
          have e1 : cleanF (JFields.cons k JSON.null fs) = cleanF fs := by
            simp [isEmptyJ, cleanF]
          rw [e1, cleanF_idem fs]
      | bool b =>
          simp only [cleanF, isEmptyJ, Bool.false_eq_true, if_false, cleanF_idem fs]
      | int n =>
          simp only [cleanF, isEmptyJ, Bool.false_eq_true, if_false, cleanF_idem fs]
      | float l =>
          simp only [cleanF, isEmptyJ, Bool.false_eq_true, if_false, cleanF_idem fs]
      | str s =>
          by_cases h : isEmptyJ (JSON.str s) = true
          · have e1 : cleanF (JFields.cons k (JSON.str s) fs) = cleanF fs := by
              simp only [cleanF]
              rw [if_pos h]
            rw [e1, cleanF_idem fs]
          · have e1 : cleanF (JFields.cons k (JSON.str s) fs)
                = .cons k (.str s) (cleanF fs) := by
              simp only [cleanF]
              rw [if_neg h]
            rw [e1]
            simp only [cleanF]
            rw [cleanF_idem fs, if_neg h]
def cleanL_idem : (xs : JList) → cleanL (cleanL xs) = cleanL xs
  | .nil => rfl
  | .cons x xs => by
      cases x with
      | obj gs =>
          by_cases h : isEmptyJ (JSON.obj (cleanF gs)) = true
          · have e1 : cleanL (JList.cons (JSON.obj gs) xs) = cleanL xs := by
              simp only [cleanL]
              rw [if_pos h]
            rw [e1, cleanL_idem xs]
          · have e1 : cleanL (JList.cons (JSON.obj gs) xs)
                = .cons (.obj (cleanF gs)) (cleanL xs) := by
              simp only [cleanL]
              rw [if_neg h]
            rw [e1]
            simp only [cleanL]
            rw [cleanF_idem gs, cleanL_idem xs, if_neg h]
      | null =>
          have e1 : cleanL (JList.cons JSON.null xs) = cleanL xs := by
            simp [isEmptyJ, cleanL]
          rw [e1, cleanL_idem xs]
      | bool b =>
          simp only [cleanL, isEmptyJ, Bool.false_eq_true, if_false, cleanL_idem xs]
      | int n =>
          simp only [cleanL, isEmptyJ, Bool.false_eq_true, if_false, cleanL_idem xs]
      | float l =>
          simp only [cleanL, isEmptyJ, Bool.false_eq_true, if_false, cleanL_idem xs]
      | str s =>
          by_cases h : isEmptyJ (JSON.str s) = true
          · have e1 : cleanL (JList.cons (JSON.str s) xs) = cleanL xs := by
              simp only [cleanL]
              rw [if_pos h]
            rw [e1, cleanL_idem xs]
          · have e1 : cleanL (JList.cons (JSON.str s) xs)
                = .cons (.str s) (cleanL xs) := by
              simp only [cleanL]
              rw [if_neg h]
            rw [e1]
            simp only [cleanL]
            rw [cleanL_idem xs, if_neg h]
      | arr ys =>
          by_cases h : isEmptyJ (JSON.arr ys) = true
          · have e1 : cleanL (JList.cons (JSON.arr ys) xs) = cleanL xs := by
              simp only [cleanL]
              rw [if_pos h]
            rw [e1, cleanL_idem xs]
          · have e1 : cleanL (JList.cons (JSON.arr ys) xs)
                = .cons (.arr ys) (cleanL xs) := by
              simp only [cleanL]
              rw [if_neg h]
            rw [e1]
            simp only [cleanL]
            rw [cleanL_idem xs, if_neg h]
end

/-! # Theorems -/

/-! ## Every extracted annotation value is single-line (towards C2) -/

theorem valueSplit_chars (t : List Char) :
    ∀ v r, valueSplit t = some (v, r) → ∀ c ∈ v, isValChar c = true := by
  induction t with
  | nil => intro v r h; simp [valueSplit] at h
  | cons a rest ih =>
      intro v r h
      simp only [valueSplit] at h
      by_cases ha : isValChar a = true
      · rw [if_pos ha] at h
        by_cases hl : lookaheadOk rest = true
        · rw [if_pos hl] at h
          obtain ⟨hv, _⟩ := Prod.mk.injEq .. ▸ Option.some.injEq .. ▸ h
          intro c hc
          rw [← hv] at hc
          rcases List.mem_singleton.mp hc with rfl
          exact ha
        · rw [if_neg hl] at h
          cases hvs : valueSplit rest with
          | none => rw [hvs] at h; simp at h
          | some p =>
              obtain ⟨v2, r2⟩ := p
              rw [hvs] at h
              simp only [Option.some.injEq, Prod.mk.injEq] at h
              obtain ⟨hv, hr⟩ := h
              intro c hc
              rw [← hv] at hc
              rcases List.mem_cons.mp hc with rfl | hc2
              · exact ha
              · exact ih v2 r2 hvs c hc2
      · rw [if_neg ha] at h; simp at h

theorem firstValue_chars (ts : List (List Char)) :
    ∀ v r, firstValue ts = some (v, r) → ∀ c ∈ v, isValChar c = true := by
  induction ts with
  | nil => intro v r h; simp [firstValue] at h
  | cons t ts ih =>
      intro v r h
      simp only [firstValue] at h
      cases hv : valueSplit t with
      | none => rw [hv] at h; exact ih v r h
      | some p =>
          rw [hv] at h
          obtain ⟨v2, r2⟩ := p
          simp only [Option.some.injEq, Prod.mk.injEq] at h
          obtain ⟨rfl, rfl⟩ := h
          exact valueSplit_chars t _ _ hv

theorem tryAnnMatch_chars (cs : List Char) :
    ∀ k v r, tryAnnMatch cs = some (k, v, r) → ∀ c ∈ v, isValChar c = true := by
  intro k v r h
  rw [tryAnnMatch.eq_def] at h
  split at h
  · simp only [] at h
    split at h
    · simp at h
    · split at h
      · rename_i v2 r2 hf
        simp only [Option.some.injEq, Prod.mk.injEq] at h
        obtain ⟨_, hv, _⟩ := h
        rw [← hv]
        exact firstValue_chars _ v2 r2 hf
      · simp at h
  · simp at h

theorem annScan_chars :
    ∀ fuel cs kv, kv ∈ annScan fuel cs → ∀ c ∈ kv.2, isValChar c = true := by
  intro fuel
  induction fuel with
  | zero => intro cs kv h; simp [annScan] at h
  | succ f ih =>
      intro cs kv h
      cases cs with
      | nil => simp [annScan] at h
      | cons a rest =>
          rw [annScan] at h
          cases hm : tryAnnMatch (a :: rest) with
          | none => rw [hm] at h; exact ih rest kv h
          | some t =>
              obtain ⟨k, v, r⟩ := t
              rw [hm] at h
              rcases List.mem_cons.mp h with rfl | h2
              · exact tryAnnMatch_chars _ k v r hm
              · exact ih r kv h2

/-- C2 (amended): a parsed annotation value never spans physical lines: in
every comment region, every raw value the matcher extracts contains no
newline (and no carriage return and no `@`), because the value class of the
pattern excludes them; the value thus also terminates at end of line. -/
theorem claim2_values_single_line (region : List Char) :
    (annMatchesIn region).all (fun kv => !(kv.2.contains '\n')) = true := by
  rw [List.all_eq_true]
  intro kv hkv
  have h := annScan_chars region.length region kv hkv
  cases hcon : kv.2.contains '\n' with
  | false => rfl
  | true =>
      exfalso
      have hm : '\n' ∈ kv.2 := List.elem_iff.mp hcon
      have := h '\n' hm
      simp [isValChar] at this

/-- C2 (counterexample): in a block comment whose annotation value is
followed by a continuation line, the parsed value stops at the end of the
line even though no `@`, `--` or `*/` intervenes, contradicting the claim
that it extends to the next such terminator across lines. -/
theorem claim2_counterexample :
    lookupAnn (parseContent "/* @usage: first line text\n continuation line\n@other: x */")
        "usage" = some (Value.str "first line text") ∧
      Value.str "first line text" ≠ Value.str "first line text\n continuation line" := by
  exact ⟨rfl, by decide⟩

/-! ## C8: pruning is idempotent -/

/-- C8: `_remove_empty_properties` is idempotent: pruning an already pruned
document yields the identical document. -/
theorem claim8_prune_idempotent (d : JSON) : cleanJ (cleanJ d) = cleanJ d := by
  cases d with
  | obj fs =>
      simp only [cleanJ]
      rw [cleanF_idem fs]
  | null => rfl
  | bool b => rfl
  | int n => rfl
  | float l => rfl
  | str s => rfl
  | arr xs => rfl

/-! ## C1: sqlDialect content-type negotiation (code bug) -/

/-- C1: the code sets the attachment content type to
`application/<dialect>+sql` and never reads `sqlDialectVersion`; the
specified (and repository-test-expected) forms
`application/sql; dialect=hive` and
`application/sql; dialect=hive; version=3.1.2` are not produced. -/
theorem claim1_dialect_content_type :
    (∃ d, buildLibraryFromContent "-- @sqlDialect: hive\nSELECT 1;"
        [("sqlDialect", Value.str "hive")]
        "sql-library" "query.sql" "2024-01-01T00:00:00Z" "2024-01-01T00:00:00Z"
        = .ok d ∧ firstContentType d = some "application/hive+sql") ∧
    (∃ d, buildLibraryFromContent "-- @sqlDialect: hive\n-- @sqlDialectVersion: 3.1.2\nSELECT 1;"
        [("sqlDialect", Value.str "hive"), ("sqlDialectVersion", Value.str "3.1.2")]
        "sql-library" "query.sql" "2024-01-01T00:00:00Z" "2024-01-01T00:00:00Z"
        = .ok d ∧ firstContentType d = some "application/hive+sql") ∧
    "application/hive+sql" ≠ "application/sql; dialect=hive" ∧
    "application/hive+sql" ≠ "application/sql; dialect=hive; version=3.1.2" := by
  refine ⟨⟨_, rfl, rfl⟩, ⟨_, rfl, rfl⟩, by decide, by decide⟩

/-! ## C5: the coercion rule chain matches the implementation -/

theorem boolCond_iff (x a b c d : List Char) :
    ((x = a || x = b || x = c || x = d) = true) ↔ x ∈ [a, b, c, d] := by
  simp
  tauto

theorem stringMkNil : String.mk ([] : List Char) = "" := rfl

theorem specCoerceF_eq (fuel : Nat) : ∀ cs, specCoerceF fuel cs = convertValueF fuel cs := by
  induction fuel with
  | zero => intro cs; rfl
  | succ f ih =>
      intro cs
      simp only [specCoerceF, convertValueF, ruleBool]
      by_cases hbt : lowerL (stripL cs) ∈ ["true".data, "yes".data, "on".data, "1".data]
      · rw [if_pos hbt, if_pos ((boolCond_iff _ _ _ _ _).mpr hbt)]
      · rw [if_neg hbt, if_neg (fun h => hbt ((boolCond_iff _ _ _ _ _).mp h))]
        by_cases hbf : lowerL (stripL cs) ∈ ["false".data, "no".data, "off".data, "0".data]
        · rw [if_pos hbf, if_pos ((boolCond_iff _ _ _ _ _).mpr hbf)]
        · rw [if_neg hbf, if_neg (fun h => hbf ((boolCond_iff _ _ _ _ _).mp h))]
          simp only [ruleNumeric]
          by_cases hnd :
              (!(stripL cs).contains '.' && !(lowerL (stripL cs)).contains 'e') = true
          · rw [if_pos hnd, if_pos hnd]
            cases hip : pyIntParse (stripL cs) with
            | some n => simp
            | none =>
                by_cases hcm : (stripL cs).contains ',' = true
                · have hmem : ',' ∈ stripL cs := List.elem_iff.mp hcm
                  simp [hmem, ih]
                · simp only [Option.map_none', hcm, Bool.false_eq_true, if_false,
                    ruleQuote]
                  cases hv : stripL cs with
                  | nil => simp
                  | cons c rest =>
                      by_cases hq : ((c = '"' && (c :: rest).getLast? = some '"')
                          || (c = squote && (c :: rest).getLast? = some squote)) = true
                      · simp [hq]
                      · simp [hq]
          · rw [if_neg hnd, if_neg hnd]
            by_cases hfl : pyFloatOk (stripL cs) = true
            · rw [if_pos hfl, if_pos hfl]
            · rw [if_neg hfl, if_neg hfl]
              by_cases hcm : (stripL cs).contains ',' = true
              · have hmem : ',' ∈ stripL cs := List.elem_iff.mp hcm
                simp [hmem, ih]
              · simp only [hcm, Bool.false_eq_true, if_false, ruleQuote]
                cases hv : stripL cs with
                | nil => simp
                | cons c rest =>
                    by_cases hq : ((c = '"' && (c :: rest).getLast? = some '"')
                        || (c = squote && (c :: rest).getLast? = some squote)) = true
                    · simp [hq]
                    · simp [hq]

/-- C5: the implementation's coercion equals the specified rule chain (strict
precedence, first match wins) on every raw value string; in particular `"1"`
coerces to boolean true, not integer 1, and `"0"` to boolean false. -/
theorem claim5_coercion_precedence :
    (∀ s : String, specCoerce s = convertValue s) ∧
      convertValue "1" = Value.bool true ∧ convertValue "0" = Value.bool false :=
  ⟨fun s => specCoerceF_eq _ s.data, rfl, rfl⟩

/-! ## C10: parse_file error contract -/

/-- C10: `parse_file` fails with the NotFound condition exactly on absent
paths; on an existing path whose lowercased suffix is not `.sql`/`.ddl` it
fails with the InvalidInput condition; otherwise it returns the parse of the
content (direct content parsing is a total function). -/
theorem claim10_parse_file_contract (fs : List (String × String)) (path : String) :
    (fsLookup fs path = none →
      parseFile fs path = .error "FileNotFoundError: SQL file not found") ∧
    (∀ content, fsLookup fs path = some content →
      ¬(lowerL (pySuffix path).data = ".sql".data ∨ lowerL (pySuffix path).data = ".ddl".data) →
      parseFile fs path = .error "ValueError: Expected SQL file") ∧
    (∀ content, fsLookup fs path = some content →
      (lowerL (pySuffix path).data = ".sql".data ∨ lowerL (pySuffix path).data = ".ddl".data) →
      parseFile fs path = .ok (parseContent content)) := by
  refine ⟨fun h => ?_, fun content h hbad => ?_, fun content h hgood => ?_⟩
  · simp only [parseFile, h]
  · simp only [parseFile, h]
    rw [if_pos]
    simp only [Bool.not_eq_true', Bool.not_eq_false]
    by_cases h1 : lowerL (pySuffix path).data = ".sql".data
    · exact absurd (Or.inl h1) hbad
    · by_cases h2 : lowerL (pySuffix path).data = ".ddl".data
      · exact absurd (Or.inr h2) hbad
      · simp [h1, h2]
  · simp only [parseFile, h]
    rw [if_neg]
    simp only [Bool.not_eq_true, Bool.not_eq_false]
    rcases hgood with h1 | h1 <;> simp [h1]

/-- Witness for C10 at a concrete storage map: a missing path, a non-SQL
extension and a well-formed SQL file. -/
theorem claim10_witness :
    parseFile [("a/x.sql", "-- @k: v"), ("a/y.txt", "z")] "missing"
        = .error "FileNotFoundError: SQL file not found" ∧
      parseFile [("a/x.sql", "-- @k: v"), ("a/y.txt", "z")] "a/y.txt"
        = .error "ValueError: Expected SQL file" ∧
      parseFile [("a/x.sql", "-- @k: v"), ("a/y.txt", "z")] "a/x.sql"
        = .ok [("k", Value.str "v")] := by
  refine ⟨(claim10_parse_file_contract [("a/x.sql", "-- @k: v"), ("a/y.txt", "z")]
      "missing").1 rfl,
    (claim10_parse_file_contract [("a/x.sql", "-- @k: v"), ("a/y.txt", "z")]
      "a/y.txt").2.1 "z" rfl (by decide),
    ?_⟩
  have h := (claim10_parse_file_contract [("a/x.sql", "-- @k: v"), ("a/y.txt", "z")]
    "a/x.sql").2.2 "-- @k: v" rfl (by decide)
  rw [h]
  rfl

/-! ## C6: cross-region duplicate-key merging -/

theorem lookupAnn_append_single (acc : List (String × Value)) (k2 k : String) (v : Value) :
    lookupAnn (acc ++ [(k2, v)]) k =
      match lookupAnn acc k with
      | some w => some w
      | none => if k2 = k then some v else none := by
  induction acc with
  | nil => rfl
  | cons p rest ih =>
      obtain ⟨k3, w⟩ := p
      simp only [List.cons_append, lookupAnn]
      by_cases h : k3 = k
      · rw [if_pos h, if_pos h]
      · rw [if_neg h, if_neg h]
        exact ih

theorem lookupAnn_updateAnn (acc : List (String × Value)) (k2 k : String) (w : Value)
    (ex : Value) (hp : lookupAnn acc k2 = some ex) :
    lookupAnn (updateAnn acc k2 w) k = if k2 = k then some w else lookupAnn acc k := by
  induction acc with
  | nil => simp [lookupAnn] at hp
  | cons p rest ih =>
      obtain ⟨k3, u⟩ := p
      by_cases h32 : k3 = k2
      · have hupd : updateAnn ((k3, u) :: rest) k2 w = (k2, w) :: rest := by
          simp only [updateAnn, if_pos h32]
        rw [hupd]
        by_cases hk : k2 = k
        · simp only [lookupAnn, if_pos hk]
        · have h3k : ¬(k3 = k) := fun hh => hk (h32 ▸ hh)
          simp only [lookupAnn, if_neg hk, if_neg h3k]
      · have hupd : updateAnn ((k3, u) :: rest) k2 w = (k3, u) :: updateAnn rest k2 w := by
          simp only [updateAnn, if_neg h32]
        have hp2 : lookupAnn rest k2 = some ex := by
          simpa only [lookupAnn, if_neg h32] using hp
        rw [hupd]
        by_cases h3 : k3 = k
        · have hn : ¬(k2 = k) := fun hh => h32 (h3 ▸ hh.symm ▸ rfl)
          simp only [lookupAnn, if_pos h3, if_neg hn]
        · simp only [lookupAnn, if_neg h3]
          rw [ih hp2]

theorem lookupAnn_mergeAnn (acc : List (String × Value)) (k2 k : String) (v : Value) :
    lookupAnn (mergeAnn acc k2 v) k =
      if k2 = k then
        (match lookupAnn acc k with
         | none => some v
         | some ex => some (.list (toVL ex ++ toVL v)))
      else lookupAnn acc k := by
  unfold mergeAnn
  cases hl : lookupAnn acc k2 with
  | none =>
      rw [lookupAnn_append_single]
      by_cases hk : k2 = k
      · subst hk
        rw [hl]
      · cases lookupAnn acc k <;> simp [hk]
  | some ex =>
      rw [lookupAnn_updateAnn acc k2 k _ ex hl]
      by_cases hk : k2 = k
      · subst hk
        rw [hl]
      · simp [hk]

theorem lookupAnn_none_iff (m : List (String × Value)) (k : String) :
    lookupAnn m k = none ↔ k ∉ annKeys m := by
  induction m with
  | nil => simp [lookupAnn, annKeys]
  | cons p rest ih =>
      obtain ⟨k2, v⟩ := p
      by_cases h : k2 = k
      · simp [lookupAnn, annKeys, h]
      · simp only [lookupAnn, if_neg h, annKeys, List.map_cons, List.mem_cons]
        rw [ih]
        have hks : ¬ k = k2 := fun hh => h hh.symm
        simp [annKeys, hks]

theorem lookupAnn_mergeRegion (m : List (String × Value)) (acc : List (String × Value))
    (k : String) (hnd : (annKeys m).Nodup) :
    lookupAnn (mergeRegion acc m) k =
      match lookupAnn m k with
      | none => lookupAnn acc k
      | some v =>
          match lookupAnn acc k with
          | none => some v
          | some ex => some (.list (toVL ex ++ toVL v)) := by
  induction m generalizing acc with
  | nil => rfl
  | cons p rest ih =>
      obtain ⟨k2, v2⟩ := p
      have hnd2 : (annKeys rest).Nodup := by
        have : (k2 :: annKeys rest).Nodup := hnd
        exact this.of_cons
      have hstep : mergeRegion acc ((k2, v2) :: rest)
          = mergeRegion (mergeAnn acc k2 v2) rest := rfl
      rw [hstep, ih (mergeAnn acc k2 v2) hnd2]
      by_cases hk : k2 = k
      · subst hk
        have hmem : k2 ∉ annKeys rest := by
          have : (k2 :: annKeys rest).Nodup := hnd
          exact (List.nodup_cons.mp this).1
        have hrest : lookupAnn rest k2 = none := (lookupAnn_none_iff rest k2).mpr hmem
        rw [hrest]
        simp only [lookupAnn, if_pos rfl]
        rw [lookupAnn_mergeAnn]
        simp
      · have hfst : lookupAnn ((k2, v2) :: rest) k = lookupAnn rest k := by
          simp only [lookupAnn, if_neg hk]
        rw [hfst, lookupAnn_mergeAnn]
        rw [if_neg hk]

theorem lookupAnn_foldMerge (maps : List (List (String × Value)))
    (acc : List (String × Value)) (k : String)
    (h : ∀ m ∈ maps, (annKeys m).Nodup) :
    lookupAnn (maps.foldl mergeRegion acc) k =
      combineOcc (lookupAnn acc k) (maps.filterMap (fun m => lookupAnn m k)) := by
  induction maps generalizing acc with
  | nil => rfl
  | cons m rest ih =>
      simp only [List.foldl_cons, List.filterMap_cons]
      rw [ih (mergeRegion acc m) (fun m2 hm2 => h m2 (List.mem_cons_of_mem _ hm2))]
      cases hm : lookupAnn m k with
      | none =>
          rw [lookupAnn_mergeRegion m acc k (h m (List.mem_cons_self _ _))]
          rw [hm]
      | some v =>
          rw [lookupAnn_mergeRegion m acc k (h m (List.mem_cons_self _ _))]
          rw [hm]
          cases lookupAnn acc k <;> simp [combineOcc]

theorem annKeys_updateAnn (m : List (String × Value)) (k : String) (v : Value)
    (hp : (lookupAnn m k).isSome) : annKeys (updateAnn m k v) = annKeys m := by
  induction m with
  | nil => simp [lookupAnn] at hp
  | cons p rest ih =>
      obtain ⟨k2, w⟩ := p
      by_cases h : k2 = k
      · simp only [updateAnn, if_pos h, annKeys, List.map_cons]
        rw [h]
      · have hp2 : (lookupAnn rest k).isSome := by
          simpa only [lookupAnn, if_neg h] using hp
        simp only [updateAnn, if_neg h, annKeys, List.map_cons]
        have := ih hp2
        simp only [annKeys] at this
        rw [this]

theorem annKeys_insert (m : List (String × Value)) (k : String) (v : Value) :
    annKeys (insertAnnRegion m k v)
      = if (lookupAnn m k).isSome then annKeys m else annKeys m ++ [k] := by
  unfold insertAnnRegion
  cases hl : lookupAnn m k with
  | none => simp [annKeys]
  | some ex =>
      have hp : (lookupAnn m k).isSome := by rw [hl]; rfl
      cases ex <;> simp [annKeys_updateAnn m k _ hp, hl]

theorem foldInsert_nodup {α : Type} (f : α → String) (g : α → Value) (L : List α) :
    ∀ acc : List (String × Value), (annKeys acc).Nodup →
      (annKeys (L.foldl
        (fun m kv => insertAnnRegion m (f kv) (g kv)) acc)).Nodup := by
  induction L with
  | nil => intro acc h; exact h
  | cons kv rest ih =>
      intro acc h
      simp only [List.foldl_cons]
      refine ih _ ?_
      rw [annKeys_insert]
      cases hl : (lookupAnn acc (f kv)).isSome with
      | true => simpa using h
      | false =>
          simp only [Bool.false_eq_true, if_false]
          have hmem : f kv ∉ annKeys acc := by
            rw [← lookupAnn_none_iff]
            cases hx : lookupAnn acc (f kv)
            · rfl
            · rw [hx] at hl; simp at hl
          simp [List.nodup_append, h, hmem]

theorem parseAnns_keys_nodup (r : List Char) :
    (annKeys (parseAnnsFromText r)).Nodup := by
  unfold parseAnnsFromText
  exact foldInsert_nodup (fun kv : List Char × List Char => String.mk (stripL kv.1))
    (fun kv : List Char × List Char => convertValueL (stripL kv.2)) _ [] (by simp [annKeys])

theorem combineOcc_some (occ : List Value) :
    ∀ ex : Value, occ ≠ [] →
      combineOcc (some ex) occ = some (.list (toVL ex ++ flatVL occ)) := by
  induction occ with
  | nil => intro ex h; exact absurd rfl h
  | cons v rest ih =>
      intro ex _
      cases rest with
      | nil =>
          show combineOcc (some (.list (toVL ex ++ toVL v))) [] = some (.list (toVL ex ++ flatVL [v]))
          rw [show flatVL [v] = toVL v ++ VList.nil from rfl]
          rw [vlAppend_nil (toVL v)]
          rfl
      | cons w ws =>
          show combineOcc (some (.list (toVL ex ++ toVL v))) (w :: ws) = _
          rw [ih (Value.list (toVL ex ++ toVL v)) (by simp)]
          show some (Value.list (toVL ex ++ toVL v ++ flatVL (w :: ws)))
              = some (Value.list (toVL ex ++ (toVL v ++ flatVL (w :: ws))))
          rw [vlAppend_assoc (toVL ex) (toVL v) (flatVL (w :: ws))]

theorem combineOcc_none (occ : List Value) : combineOcc none occ = mergeSpec occ := by
  cases occ with
  | nil => rfl
  | cons v rest =>
      cases rest with
      | nil => rfl
      | cons w ws =>
          show combineOcc (some v) (w :: ws) = _
          rw [combineOcc_some (w :: ws) v (by simp)]
          rfl

/-- C6: for every source text and key, `parse_content` returns exactly the
specified merge of the per-region occurrences, the regions being all line
comment regions followed by all block comment regions (the scan order of
`_extract_comments`); a key found in one region keeps its native shape, a
key found in several maps to the ordered concatenation of every wrapped
occurrence. -/
theorem claim6_duplicate_key_merge (s k : String) :
    lookupAnn (parseContent s) k = mergeSpec (regionOccurrences s k) := by
  have hpc : parseContent s
      = ((extractComments s).map parseAnnsFromText).foldl mergeRegion [] := by
    unfold parseContent mergeRegion
    rw [List.foldl_map]
  rw [hpc, lookupAnn_foldMerge _ _ _ ?hnd]
  case hnd =>
    intro m hm
    obtain ⟨r, _, rfl⟩ := List.mem_map.mp hm
    exact parseAnns_keys_nodup r
  show combineOcc none _ = _
  rw [combineOcc_none]
  rfl

/-! ## Builder normalization: operations on the decomposed document -/

theorem containsKey_segOpt (k2 : String) (o : Option JSON) (k : String) :
    containsKey (segOpt k2 o) k = ((k2 = k : Bool) && o.isSome) := by
  cases o with
  | none => simp [segOpt, containsKey]
  | some v => simp [segOpt, containsKey]

theorem dictGet_segOpt (k2 : String) (o : Option JSON) (k : String) :
    dictGet (segOpt k2 o) k = if k2 = k then o else none := by
  cases o with
  | none => simp [segOpt, dictGet]
  | some v =>
      by_cases h : k2 = k
      · simp [segOpt, dictGet, h]
      · simp [segOpt, dictGet, h]

theorem dictSet_deco (idv tm : String) (a2 : JFields) (ct d64 fn tc : String)
    (b : JFields) (k : String) (v : JSON)
    (h1 : ¬("resourceType" = k)) (h2 : ¬("id" = k)) (h3 : ¬("meta" = k))
    (h4 : ¬("content" = k)) (hm : containsKey a2 k = false)
    (hb : containsKey b k = false) :
    dictSet (deco idv tm a2 ct d64 fn tc b) k v
      = deco idv tm a2 ct d64 fn tc (b ++ JFields.cons k v JFields.nil) := by
  unfold deco
  simp only [dictSet, if_neg h1, if_neg h2, if_neg h3]
  rw [dictSet_append a2 _ k v]
  simp only [hm, Bool.false_eq_true, if_false]
  simp only [dictSet, if_neg h4]
  rw [dictSet_not_contains b k v hb]

theorem dictSet_deco_mid (idv tm : String) (a2 : JFields) (ct d64 fn tc : String)
    (b : JFields) (k : String) (v : JSON)
    (h1 : ¬("resourceType" = k)) (h2 : ¬("id" = k)) (h3 : ¬("meta" = k))
    (hm : containsKey a2 k = true) :
    dictSet (deco idv tm a2 ct d64 fn tc b) k v
      = deco idv tm (dictSet a2 k v) ct d64 fn tc b := by
  unfold deco
  simp only [dictSet, if_neg h1, if_neg h2, if_neg h3]
  rw [dictSet_append a2 _ k v]
  simp only [hm, if_true]

theorem modifyVal_deco (idv tm : String) (a2 : JFields) (ct d64 fn tc : String)
    (b : JFields) (k : String) (g : JSON → JSON)
    (h1 : ¬("resourceType" = k)) (h2 : ¬("id" = k)) (h3 : ¬("meta" = k))
    (h4 : ¬("content" = k)) (hm : containsKey a2 k = false) :
    modifyVal (deco idv tm a2 ct d64 fn tc b) k g
      = deco idv tm a2 ct d64 fn tc (modifyVal b k g) := by
  unfold deco
  simp only [modifyVal, if_neg h1, if_neg h2, if_neg h3]
  rw [modifyVal_append a2 _ k g]
  simp only [hm, Bool.false_eq_true, if_false]
  simp only [modifyVal, if_neg h4]

theorem setCT_contentJ (ct2 ct d64 fn tc : String) :
    setCTinContent ct2 (contentJ ct d64 fn tc) = contentJ ct2 d64 fn tc := rfl

theorem modifyVal_deco_content (idv tm : String) (a2 : JFields) (ct d64 fn tc : String)
    (b : JFields) (ct2 : String) (hm : containsKey a2 "content" = false) :
    modifyVal (deco idv tm a2 ct d64 fn tc b) "content" (setCTinContent ct2)
      = deco idv tm a2 ct2 d64 fn tc b := by
  unfold deco
  simp only [modifyVal, if_neg (by decide : ¬("resourceType" = "content")),
    if_neg (by decide : ¬("id" = "content")), if_neg (by decide : ¬("meta" = "content"))]
  rw [modifyVal_append a2 _ "content" _]
  simp only [hm, Bool.false_eq_true, if_false]
  simp only [modifyVal, if_pos rfl, setCT_contentJ]
  simp

theorem containsKey_deco (idv tm : String) (a2 : JFields) (ct d64 fn tc : String)
    (b : JFields) (k : String)
    (h1 : ¬("resourceType" = k)) (h2 : ¬("id" = k)) (h3 : ¬("meta" = k))
    (h4 : ¬("content" = k)) :
    containsKey (deco idv tm a2 ct d64 fn tc b) k
      = (containsKey a2 k || containsKey b k) := by
  unfold deco
  simp only [containsKey, h1, h2, h3, containsKey_append a2 _ k]
  simp [h1, h2, h3, h4]

theorem dictGet_deco (idv tm : String) (a2 : JFields) (ct d64 fn tc : String)
    (b : JFields) (k : String)
    (h1 : ¬("resourceType" = k)) (h2 : ¬("id" = k)) (h3 : ¬("meta" = k))
    (h4 : ¬("content" = k)) :
    dictGet (deco idv tm a2 ct d64 fn tc b) k
      = (match dictGet a2 k with
         | some w => some w
         | none => dictGet b k) := by
  unfold deco
  simp only [dictGet, if_neg h1, if_neg h2, if_neg h3]
  rw [dictGet_append a2 _ k]
  cases dictGet a2 k with
  | some w => rfl
  | none => simp only [dictGet, if_neg h4]

theorem applySegF_deco (idv tm : String) (a2 : JFields)
    (ct d64 fn tc : String) (b : JFields) (k : String) (o : Option JSON)
    (h1 : ¬("resourceType" = k)) (h2 : ¬("id" = k)) (h3 : ¬("meta" = k))
    (h4 : ¬("content" = k)) (hm : containsKey a2 k = false)
    (hb : containsKey b k = false) :
    applySegF (deco idv tm a2 ct d64 fn tc b) k o
      = deco idv tm a2 ct d64 fn tc (b ++ segOpt k o) := by
  cases o with
  | none =>
      show deco idv tm a2 ct d64 fn tc b = _
      rw [show segOpt k (none : Option JSON) = JFields.nil from rfl, jfAppend_nil b]
  | some v => exact dictSet_deco idv tm a2 ct d64 fn tc b k v h1 h2 h3 h4 hm hb

/-- Stepping a monadic fold through a succeeding step. -/
theorem foldlM_step {α β : Type} (f : β → α → Except String β) (b b2 : β) (p : α)
    (ps : List α) (h : f b p = .ok b2) :
    List.foldlM f b (p :: ps) = List.foldlM f b2 ps := by
  show f b p >>= (fun s => List.foldlM f s ps) = _
  rw [h]
  rfl

/-- Stepping a monadic fold through a failing step. -/
theorem foldlM_error {α β : Type} (f : β → α → Except String β) (b : β) (p : α)
    (ps : List α) (e : String) (h : f b p = .error e) :
    List.foldlM f b (p :: ps) = .error e := by
  show f b p >>= (fun s => List.foldlM f s ps) = _
  rw [h]
  rfl


/-! ## Normalizing the mapping loop -/

/-- A mapping-loop step on a key outside the specially handled set: the field
is set exactly when the annotation value is a string. -/
theorem mappingStep_plain (ann : List (String × Value)) (f : JFields) (k : String)
    (hs1 : ¬(k = "experimental")) (hs2 : ¬(k = "date")) (hs3 : ¬(k = "author"))
    (hs4 : ¬(k = "contact")) (hs5 : ¬(k = "identifier")) (hs6 : ¬(k = "jurisdiction")) :
    mappingStep ann f (k, k) = .ok (applySegF f k (strSeg ann k)) := by
  unfold mappingStep strSeg
  simp only []
  cases hlk : lookupAnn ann k with
  | none => rfl
  | some v =>
      cases v <;>
        simp [applySegF, isStrV, isBoolV, isListV, strOfV, hs1, hs2, hs3, hs4, hs5, hs6]

/-- The experimental step of the mapping loop. -/
theorem mappingStep_experimental (ann : List (String × Value)) (f : JFields) :
    mappingStep ann f ("experimental", "experimental")
      = .ok (applySegF f "experimental" (expSeg ann)) := by
  unfold mappingStep expSeg
  simp only []
  cases hlk : lookupAnn ann "experimental" with
  | none => rfl
  | some v =>
      cases v <;> simp [applySegF, isBoolV, isStrV, isListV, strOfV, valueToJSON]

/-- The date step of the mapping loop. -/
theorem mappingStep_date (ann : List (String × Value)) (f : JFields) :
    mappingStep ann f ("date", "date") = .ok (applySegF f "date" (dateSeg ann)) := by
  unfold mappingStep dateSeg
  simp only []
  cases hlk : lookupAnn ann "date" with
  | none => rfl
  | some v =>
      cases v <;> simp [applySegF, isBoolV, isStrV, isListV, strOfV]

/-- The author step of the mapping loop. -/
theorem mappingStep_author (ann : List (String × Value)) (f : JFields) :
    mappingStep ann f ("author", "author")
      = .ok (applySegF f "author" (contactSeg ann "author")) := by
  unfold mappingStep contactSeg
  simp only []
  cases hlk : lookupAnn ann "author" with
  | none => rfl
  | some v =>
      cases v <;> simp [applySegF, isBoolV, isStrV, isListV, strOfV]

/-- The contact step of the mapping loop. -/
theorem mappingStep_contact (ann : List (String × Value)) (f : JFields) :
    mappingStep ann f ("contact", "contact")
      = .ok (applySegF f "contact" (contactSeg ann "contact")) := by
  unfold mappingStep contactSeg
  simp only []
  cases hlk : lookupAnn ann "contact" with
  | none => rfl
  | some v =>
      cases v <;> simp [applySegF, isBoolV, isStrV, isListV, strOfV]

/-- The identifier step of the mapping loop. -/
theorem mappingStep_identifier (ann : List (String × Value)) (f : JFields) :
    mappingStep ann f ("identifier", "identifier")
      = .ok (applySegF f "identifier" (identSeg ann)) := by
  unfold mappingStep identSeg
  simp only []
  cases hlk : lookupAnn ann "identifier" with
  | none => rfl
  | some v =>
      cases v with
      | str s =>
          by_cases hns : pyStrip s = "" <;>
            simp [applySegF, isBoolV, isStrV, strOfV, hns]
      | bool b => simp [applySegF, isBoolV, isStrV, isListV]
      | int n => simp [applySegF, isBoolV, isStrV, isListV]
      | float l => simp [applySegF, isBoolV, isStrV, isListV]
      | list vs => simp [applySegF, isBoolV, isStrV, isListV]

/-- The jurisdiction step of the mapping loop, in terms of `jurisdictionSeg`. -/
theorem mappingStep_jurisdiction (ann : List (String × Value)) (f : JFields) :
    mappingStep ann f ("jurisdiction", "jurisdiction")
      = (match jurisdictionSeg ann with
         | .error e => .error e
         | .ok o => .ok (applySegF f "jurisdiction" o)) := by
  unfold mappingStep jurisdictionSeg
  simp only []
  cases hlk : lookupAnn ann "jurisdiction" with
  | none => rfl
  | some v =>
      cases v with
      | str s =>
          cases hfj : formatJurisdiction (.str s) with
          | error e =>
              simp [applySegF, isBoolV, isStrV, isListV, hfj, Bind.bind, Except.bind]
          | ok js =>
              cases js with
              | nil => simp [applySegF, isBoolV, isStrV, isListV, hfj, Bind.bind, Except.bind]
              | cons x xs =>
                  simp [applySegF, isBoolV, isStrV, isListV, hfj, Bind.bind, Except.bind]
      | list vs =>
          cases hfj : formatJurisdiction (.list vs) with
          | error e =>
              simp [applySegF, isBoolV, isStrV, isListV, hfj, Bind.bind, Except.bind]
          | ok js =>
              cases js with
              | nil => simp [applySegF, isBoolV, isStrV, isListV, hfj, Bind.bind, Except.bind]
              | cons x xs =>
                  simp [applySegF, isBoolV, isStrV, isListV, hfj, Bind.bind, Except.bind]
      | bool b => simp [applySegF, isBoolV, isStrV, isListV]
      | int n => simp [applySegF, isBoolV, isStrV, isListV]
      | float l => simp [applySegF, isBoolV, isStrV, isListV]

/-- Setting a string status in the base dict is a no-op: the base already
holds exactly that value. -/
theorem applySegF_status (ann : List (String × Value)) (idv tm ct d64 fn tc : String)
    (b : JFields) :
    applySegF (deco idv tm (mid0 ann) ct d64 fn tc b) "status" (strSeg ann "status")
      = deco idv tm (mid0 ann) ct d64 fn tc b := by
  unfold strSeg
  cases hlk : lookupAnn ann "status" with
  | none => rfl
  | some v =>
      cases v with
      | str s =>
          show dictSet (deco idv tm (mid0 ann) ct d64 fn tc b) "status" (.str s)
            = deco idv tm (mid0 ann) ct d64 fn tc b
          rw [dictSet_deco_mid idv tm (mid0 ann) ct d64 fn tc b "status" (.str s)
            (by decide) (by decide) (by decide) (by simp [mid0, containsKey])]
          have hst : dictSet (mid0 ann) "status" (JSON.str s) = mid0 ann := by
            simp [mid0, dictSet, getAnnValue, hlk, valueToJSON]
          rw [hst]
      | bool b2 => rfl
      | int n => rfl
      | float l => rfl
      | list vs => rfl

/-- Setting a string type in the base dict turns `mid0` into `midF`; without
a string type annotation the two segments are already equal. -/
theorem applySegF_type (ann : List (String × Value)) (idv tm ct d64 fn tc : String)
    (b : JFields) :
    applySegF (deco idv tm (mid0 ann) ct d64 fn tc b) "type" (strSeg ann "type")
      = deco idv tm (midF ann) ct d64 fn tc b := by
  unfold strSeg
  cases hlk : lookupAnn ann "type" with
  | none =>
      show deco idv tm (mid0 ann) ct d64 fn tc b = _
      simp [mid0, midF, hlk]
  | some v =>
      cases v with
      | str s =>
          show dictSet (deco idv tm (mid0 ann) ct d64 fn tc b) "type" (.str s)
            = deco idv tm (midF ann) ct d64 fn tc b
          rw [dictSet_deco_mid idv tm (mid0 ann) ct d64 fn tc b "type" (.str s)
            (by decide) (by decide) (by decide) (by simp [mid0, containsKey])]
          have ht : dictSet (mid0 ann) "type" (JSON.str s) = midF ann := by
            simp [mid0, midF, dictSet, hlk]
          rw [ht]
      | bool b2 =>
          show deco idv tm (mid0 ann) ct d64 fn tc b = _
          simp [mid0, midF, hlk]
      | int n =>
          show deco idv tm (mid0 ann) ct d64 fn tc b = _
          simp [mid0, midF, hlk]
      | float l =>
          show deco idv tm (mid0 ann) ct d64 fn tc b = _
          simp [mid0, midF, hlk]
      | list vs =>
          show deco idv tm (mid0 ann) ct d64 fn tc b = _
          simp [mid0, midF, hlk]

/-- The mapping loop on an arbitrary dict, unfolded into nested optional
field applications. -/
theorem applyMappings_unfold (ann : List (String × Value)) (f : JFields) :
    applyMappings ann f
      = (match jurisdictionSeg ann with
         | .error e => .error e
         | .ok jopt => .ok (bigApply ann jopt f)) := by
  unfold applyMappings mappingPairs
  rw [foldlM_step _ _ _ _ _ (mappingStep_plain ann _ "title" (by decide) (by decide) (by decide) (by decide) (by decide) (by decide))]
  rw [foldlM_step _ _ _ _ _ (mappingStep_plain ann _ "name" (by decide) (by decide) (by decide) (by decide) (by decide) (by decide))]
  rw [foldlM_step _ _ _ _ _ (mappingStep_plain ann _ "description" (by decide) (by decide) (by decide) (by decide) (by decide) (by decide))]
  rw [foldlM_step _ _ _ _ _ (mappingStep_plain ann _ "version" (by decide) (by decide) (by decide) (by decide) (by decide) (by decide))]
  rw [foldlM_step _ _ _ _ _ (mappingStep_plain ann _ "status" (by decide) (by decide) (by decide) (by decide) (by decide) (by decide))]
  rw [foldlM_step _ _ _ _ _ (mappingStep_author ann _)]
  rw [foldlM_step _ _ _ _ _ (mappingStep_plain ann _ "publisher" (by decide) (by decide) (by decide) (by decide) (by decide) (by decide))]
  rw [foldlM_step _ _ _ _ _ (mappingStep_contact ann _)]
  rw [foldlM_step _ _ _ _ _ (mappingStep_plain ann _ "copyright" (by decide) (by decide) (by decide) (by decide) (by decide) (by decide))]
  rw [foldlM_step _ _ _ _ _ (mappingStep_plain ann _ "purpose" (by decide) (by decide) (by decide) (by decide) (by decide) (by decide))]
  rw [foldlM_step _ _ _ _ _ (mappingStep_plain ann _ "usage" (by decide) (by decide) (by decide) (by decide) (by decide) (by decide))]
  rw [foldlM_step _ _ _ _ _ (mappingStep_plain ann _ "url" (by decide) (by decide) (by decide) (by decide) (by decide) (by decide))]
  rw [foldlM_step _ _ _ _ _ (mappingStep_identifier ann _)]
  rw [foldlM_step _ _ _ _ _ (mappingStep_date ann _)]
  rw [foldlM_step _ _ _ _ _ (mappingStep_plain ann _ "type" (by decide) (by decide) (by decide) (by decide) (by decide) (by decide))]
  rw [foldlM_step _ _ _ _ _ (mappingStep_plain ann _ "subject" (by decide) (by decide) (by decide) (by decide) (by decide) (by decide))]
  rw [foldlM_step _ _ _ _ _ (mappingStep_experimental ann _)]
  cases hj : jurisdictionSeg ann with
  | error e =>
      have hje : ∀ g : JFields, mappingStep ann g ("jurisdiction", "jurisdiction")
          = .error e := by
        intro g
        rw [mappingStep_jurisdiction, hj]
      rw [foldlM_error _ _ _ _ e (hje _)]
  | ok jopt =>
      have hjs : ∀ g : JFields, mappingStep ann g ("jurisdiction", "jurisdiction")
          = .ok (applySegF g "jurisdiction" jopt) := by
        intro g
        rw [mappingStep_jurisdiction, hj]
      rw [foldlM_step _ _ _ _ _ (hjs _)]
      rw [foldlM_step _ _ _ _ _ (mappingStep_plain ann _ "approvalDate" (by decide) (by decide) (by decide) (by decide) (by decide) (by decide))]
      rw [foldlM_step _ _ _ _ _ (mappingStep_plain ann _ "lastReviewDate" (by decide) (by decide) (by decide) (by decide) (by decide) (by decide))]
      rw [foldlM_step _ _ _ _ _ (mappingStep_plain ann _ "effectivePeriod" (by decide) (by decide) (by decide) (by decide) (by decide) (by decide))]
      rfl

set_option maxHeartbeats 2000000 in
/-- On the base dict, the unfolded mapping loop appends exactly the
`postMapped` fields and finalizes the status/type segment. -/
theorem bigApply_deco (ann : List (String × Value)) (jopt : Option JSON)
    (idv tm d64 fn tc : String) :
    bigApply ann jopt (deco idv tm (mid0 ann) "application/sql" d64 fn tc JFields.nil)
      = deco idv tm (midF ann) "application/sql" d64 fn tc (postMapped ann jopt) := by
  unfold bigApply
  rw [applySegF_deco idv tm (mid0 ann) "application/sql" d64 fn tc
    (JFields.nil) "title" (strSeg ann "title") (by decide) (by decide) (by decide) (by decide)
    (by simp [mid0, containsKey])
    (by simp [containsKey_append, containsKey_segOpt, containsKey])]
  rw [applySegF_deco idv tm (mid0 ann) "application/sql" d64 fn tc
    (JFields.nil ++ segOpt "title" (strSeg ann "title")) "name" (strSeg ann "name") (by decide) (by decide) (by decide) (by decide)
    (by simp [mid0, containsKey])
    (by simp [containsKey_append, containsKey_segOpt, containsKey])]
  rw [applySegF_deco idv tm (mid0 ann) "application/sql" d64 fn tc
    (JFields.nil ++ segOpt "title" (strSeg ann "title") ++ segOpt "name" (strSeg ann "name")) "description" (strSeg ann "description") (by decide) (by decide) (by decide) (by decide)
    (by simp [mid0, containsKey])
    (by simp [containsKey_append, containsKey_segOpt, containsKey])]
  rw [applySegF_deco idv tm (mid0 ann) "application/sql" d64 fn tc
    (JFields.nil ++ segOpt "title" (strSeg ann "title") ++ segOpt "name" (strSeg ann "name") ++ segOpt "description" (strSeg ann "description")) "version" (strSeg ann "version") (by decide) (by decide) (by decide) (by decide)
    (by simp [mid0, containsKey])
    (by simp [containsKey_append, containsKey_segOpt, containsKey])]
  rw [applySegF_status ann idv tm "application/sql" d64 fn tc]
  rw [applySegF_deco idv tm (mid0 ann) "application/sql" d64 fn tc
    (JFields.nil ++ segOpt "title" (strSeg ann "title") ++ segOpt "name" (strSeg ann "name") ++ segOpt "description" (strSeg ann "description") ++ segOpt "version" (strSeg ann "version")) "author" (contactSeg ann "author") (by decide) (by decide) (by decide) (by decide)
    (by simp [mid0, containsKey])
    (by simp [containsKey_append, containsKey_segOpt, containsKey])]
  rw [applySegF_deco idv tm (mid0 ann) "application/sql" d64 fn tc
    (JFields.nil ++ segOpt "title" (strSeg ann "title") ++ segOpt "name" (strSeg ann "name") ++ segOpt "description" (strSeg ann "description") ++ segOpt "version" (strSeg ann "version") ++ segOpt "author" (contactSeg ann "author")) "publisher" (strSeg ann "publisher") (by decide) (by decide) (by decide) (by decide)
    (by simp [mid0, containsKey])
    (by simp [containsKey_append, containsKey_segOpt, containsKey])]
  rw [applySegF_deco idv tm (mid0 ann) "application/sql" d64 fn tc
    (JFields.nil ++ segOpt "title" (strSeg ann "title") ++ segOpt "name" (strSeg ann "name") ++ segOpt "description" (strSeg ann "description") ++ segOpt "version" (strSeg ann "version") ++ segOpt "author" (contactSeg ann "author") ++ segOpt "publisher" (strSeg ann "publisher")) "contact" (contactSeg ann "contact") (by decide) (by decide) (by decide) (by decide)
    (by simp [mid0, containsKey])
    (by simp [containsKey_append, containsKey_segOpt, containsKey])]
  rw [applySegF_deco idv tm (mid0 ann) "application/sql" d64 fn tc
    (JFields.nil ++ segOpt "title" (strSeg ann "title") ++ segOpt "name" (strSeg ann "name") ++ segOpt "description" (strSeg ann "description") ++ segOpt "version" (strSeg ann "version") ++ segOpt "author" (contactSeg ann "author") ++ segOpt "publisher" (strSeg ann "publisher") ++ segOpt "contact" (contactSeg ann "contact")) "copyright" (strSeg ann "copyright") (by decide) (by decide) (by decide) (by decide)
    (by simp [mid0, containsKey])
    (by simp [containsKey_append, containsKey_segOpt, containsKey])]
  rw [applySegF_deco idv tm (mid0 ann) "application/sql" d64 fn tc
    (JFields.nil ++ segOpt "title" (strSeg ann "title") ++ segOpt "name" (strSeg ann "name") ++ segOpt "description" (strSeg ann "description") ++ segOpt "version" (strSeg ann "version") ++ segOpt "author" (contactSeg ann "author") ++ segOpt "publisher" (strSeg ann "publisher") ++ segOpt "contact" (contactSeg ann "contact") ++ segOpt "copyright" (strSeg ann "copyright")) "purpose" (strSeg ann "purpose") (by decide) (by decide) (by decide) (by decide)
    (by simp [mid0, containsKey])
    (by simp [containsKey_append, containsKey_segOpt, containsKey])]
  rw [applySegF_deco idv tm (mid0 ann) "application/sql" d64 fn tc
    (JFields.nil ++ segOpt "title" (strSeg ann "title") ++ segOpt "name" (strSeg ann "name") ++ segOpt "description" (strSeg ann "description") ++ segOpt "version" (strSeg ann "version") ++ segOpt "author" (contactSeg ann "author") ++ segOpt "publisher" (strSeg ann "publisher") ++ segOpt "contact" (contactSeg ann "contact") ++ segOpt "copyright" (strSeg ann "copyright") ++ segOpt "purpose" (strSeg ann "purpose")) "usage" (strSeg ann "usage") (by decide) (by decide) (by decide) (by decide)
    (by simp [mid0, containsKey])
    (by simp [containsKey_append, containsKey_segOpt, containsKey])]
  rw [applySegF_deco idv tm (mid0 ann) "application/sql" d64 fn tc
    (JFields.nil ++ segOpt "title" (strSeg ann "title") ++ segOpt "name" (strSeg ann "name") ++ segOpt "description" (strSeg ann "description") ++ segOpt "version" (strSeg ann "version") ++ segOpt "author" (contactSeg ann "author") ++ segOpt "publisher" (strSeg ann "publisher") ++ segOpt "contact" (contactSeg ann "contact") ++ segOpt "copyright" (strSeg ann "copyright") ++ segOpt "purpose" (strSeg ann "purpose") ++ segOpt "usage" (strSeg ann "usage")) "url" (strSeg ann "url") (by decide) (by decide) (by decide) (by decide)
    (by simp [mid0, containsKey])
    (by simp [containsKey_append, containsKey_segOpt, containsKey])]
  rw [applySegF_deco idv tm (mid0 ann) "application/sql" d64 fn tc
    (JFields.nil ++ segOpt "title" (strSeg ann "title") ++ segOpt "name" (strSeg ann "name") ++ segOpt "description" (strSeg ann "description") ++ segOpt "version" (strSeg ann "version") ++ segOpt "author" (contactSeg ann "author") ++ segOpt "publisher" (strSeg ann "publisher") ++ segOpt "contact" (contactSeg ann "contact") ++ segOpt "copyright" (strSeg ann "copyright") ++ segOpt "purpose" (strSeg ann "purpose") ++ segOpt "usage" (strSeg ann "usage") ++ segOpt "url" (strSeg ann "url")) "identifier" (identSeg ann) (by decide) (by decide) (by decide) (by decide)
    (by simp [mid0, containsKey])
    (by simp [containsKey_append, containsKey_segOpt, containsKey])]
  rw [applySegF_deco idv tm (mid0 ann) "application/sql" d64 fn tc
    (JFields.nil ++ segOpt "title" (strSeg ann "title") ++ segOpt "name" (strSeg ann "name") ++ segOpt "description" (strSeg ann "description") ++ segOpt "version" (strSeg ann "version") ++ segOpt "author" (contactSeg ann "author") ++ segOpt "publisher" (strSeg ann "publisher") ++ segOpt "contact" (contactSeg ann "contact") ++ segOpt "copyright" (strSeg ann "copyright") ++ segOpt "purpose" (strSeg ann "purpose") ++ segOpt "usage" (strSeg ann "usage") ++ segOpt "url" (strSeg ann "url") ++ segOpt "identifier" (identSeg ann)) "date" (dateSeg ann) (by decide) (by decide) (by decide) (by decide)
    (by simp [mid0, containsKey])
    (by simp [containsKey_append, containsKey_segOpt, containsKey])]
  rw [applySegF_type ann idv tm "application/sql" d64 fn tc]
  rw [applySegF_deco idv tm (midF ann) "application/sql" d64 fn tc
    (JFields.nil ++ segOpt "title" (strSeg ann "title") ++ segOpt "name" (strSeg ann "name") ++ segOpt "description" (strSeg ann "description") ++ segOpt "version" (strSeg ann "version") ++ segOpt "author" (contactSeg ann "author") ++ segOpt "publisher" (strSeg ann "publisher") ++ segOpt "contact" (contactSeg ann "contact") ++ segOpt "copyright" (strSeg ann "copyright") ++ segOpt "purpose" (strSeg ann "purpose") ++ segOpt "usage" (strSeg ann "usage") ++ segOpt "url" (strSeg ann "url") ++ segOpt "identifier" (identSeg ann) ++ segOpt "date" (dateSeg ann)) "subject" (strSeg ann "subject") (by decide) (by decide) (by decide) (by decide)
    (by simp [midF, containsKey])
    (by simp [containsKey_append, containsKey_segOpt, containsKey])]
  rw [applySegF_deco idv tm (midF ann) "application/sql" d64 fn tc
    (JFields.nil ++ segOpt "title" (strSeg ann "title") ++ segOpt "name" (strSeg ann "name") ++ segOpt "description" (strSeg ann "description") ++ segOpt "version" (strSeg ann "version") ++ segOpt "author" (contactSeg ann "author") ++ segOpt "publisher" (strSeg ann "publisher") ++ segOpt "contact" (contactSeg ann "contact") ++ segOpt "copyright" (strSeg ann "copyright") ++ segOpt "purpose" (strSeg ann "purpose") ++ segOpt "usage" (strSeg ann "usage") ++ segOpt "url" (strSeg ann "url") ++ segOpt "identifier" (identSeg ann) ++ segOpt "date" (dateSeg ann) ++ segOpt "subject" (strSeg ann "subject")) "experimental" (expSeg ann) (by decide) (by decide) (by decide) (by decide)
    (by simp [midF, containsKey])
    (by simp [containsKey_append, containsKey_segOpt, containsKey])]
  rw [applySegF_deco idv tm (midF ann) "application/sql" d64 fn tc
    (JFields.nil ++ segOpt "title" (strSeg ann "title") ++ segOpt "name" (strSeg ann "name") ++ segOpt "description" (strSeg ann "description") ++ segOpt "version" (strSeg ann "version") ++ segOpt "author" (contactSeg ann "author") ++ segOpt "publisher" (strSeg ann "publisher") ++ segOpt "contact" (contactSeg ann "contact") ++ segOpt "copyright" (strSeg ann "copyright") ++ segOpt "purpose" (strSeg ann "purpose") ++ segOpt "usage" (strSeg ann "usage") ++ segOpt "url" (strSeg ann "url") ++ segOpt "identifier" (identSeg ann) ++ segOpt "date" (dateSeg ann) ++ segOpt "subject" (strSeg ann "subject") ++ segOpt "experimental" (expSeg ann)) "jurisdiction" jopt (by decide) (by decide) (by decide) (by decide)
    (by simp [midF, containsKey])
    (by simp [containsKey_append, containsKey_segOpt, containsKey])]
  rw [applySegF_deco idv tm (midF ann) "application/sql" d64 fn tc
    (JFields.nil ++ segOpt "title" (strSeg ann "title") ++ segOpt "name" (strSeg ann "name") ++ segOpt "description" (strSeg ann "description") ++ segOpt "version" (strSeg ann "version") ++ segOpt "author" (contactSeg ann "author") ++ segOpt "publisher" (strSeg ann "publisher") ++ segOpt "contact" (contactSeg ann "contact") ++ segOpt "copyright" (strSeg ann "copyright") ++ segOpt "purpose" (strSeg ann "purpose") ++ segOpt "usage" (strSeg ann "usage") ++ segOpt "url" (strSeg ann "url") ++ segOpt "identifier" (identSeg ann) ++ segOpt "date" (dateSeg ann) ++ segOpt "subject" (strSeg ann "subject") ++ segOpt "experimental" (expSeg ann) ++ segOpt "jurisdiction" jopt) "approvalDate" (strSeg ann "approvalDate") (by decide) (by decide) (by decide) (by decide)
    (by simp [midF, containsKey])
    (by simp [containsKey_append, containsKey_segOpt, containsKey])]
  rw [applySegF_deco idv tm (midF ann) "application/sql" d64 fn tc
    (JFields.nil ++ segOpt "title" (strSeg ann "title") ++ segOpt "name" (strSeg ann "name") ++ segOpt "description" (strSeg ann "description") ++ segOpt "version" (strSeg ann "version") ++ segOpt "author" (contactSeg ann "author") ++ segOpt "publisher" (strSeg ann "publisher") ++ segOpt "contact" (contactSeg ann "contact") ++ segOpt "copyright" (strSeg ann "copyright") ++ segOpt "purpose" (strSeg ann "purpose") ++ segOpt "usage" (strSeg ann "usage") ++ segOpt "url" (strSeg ann "url") ++ segOpt "identifier" (identSeg ann) ++ segOpt "date" (dateSeg ann) ++ segOpt "subject" (strSeg ann "subject") ++ segOpt "experimental" (expSeg ann) ++ segOpt "jurisdiction" jopt ++ segOpt "approvalDate" (strSeg ann "approvalDate")) "lastReviewDate" (strSeg ann "lastReviewDate") (by decide) (by decide) (by decide) (by decide)
    (by simp [midF, containsKey])
    (by simp [containsKey_append, containsKey_segOpt, containsKey])]
  rw [applySegF_deco idv tm (midF ann) "application/sql" d64 fn tc
    (JFields.nil ++ segOpt "title" (strSeg ann "title") ++ segOpt "name" (strSeg ann "name") ++ segOpt "description" (strSeg ann "description") ++ segOpt "version" (strSeg ann "version") ++ segOpt "author" (contactSeg ann "author") ++ segOpt "publisher" (strSeg ann "publisher") ++ segOpt "contact" (contactSeg ann "contact") ++ segOpt "copyright" (strSeg ann "copyright") ++ segOpt "purpose" (strSeg ann "purpose") ++ segOpt "usage" (strSeg ann "usage") ++ segOpt "url" (strSeg ann "url") ++ segOpt "identifier" (identSeg ann) ++ segOpt "date" (dateSeg ann) ++ segOpt "subject" (strSeg ann "subject") ++ segOpt "experimental" (expSeg ann) ++ segOpt "jurisdiction" jopt ++ segOpt "approvalDate" (strSeg ann "approvalDate") ++ segOpt "lastReviewDate" (strSeg ann "lastReviewDate")) "effectivePeriod" (strSeg ann "effectivePeriod") (by decide) (by decide) (by decide) (by decide)
    (by simp [midF, containsKey])
    (by simp [containsKey_append, containsKey_segOpt, containsKey])]
  rfl


/-! ## Normalizing extensions, metadata, dialect and name steps -/

theorem jlAppend_nil_left (xs : JList) : JList.nil ++ xs = xs := rfl

theorem jfAppend_nil_left (fs : JFields) : JFields.nil ++ fs = fs := rfl

theorem containsKey_raOptF (o : Option JList) (k : String)
    (h : ¬("relatedArtifact" = k)) : containsKey (raOptF o) k = false := by
  cases o <;> simp [raOptF, containsKey, h]

theorem containsKey_extSeg (ann : List (String × Value)) (k : String)
    (h : ¬("extension" = k)) : containsKey (extSeg ann) k = false := by
  unfold extSeg
  cases extensionsOf ann <;> simp [containsKey, h]

theorem dictGet_extSeg (ann : List (String × Value)) (k : String)
    (h : ¬("extension" = k)) : dictGet (extSeg ann) k = none := by
  unfold extSeg
  cases extensionsOf ann <;> simp [dictGet, h]

theorem containsKey_raSeg (ann : List (String × Value)) (k : String)
    (h : ¬("relatedArtifact" = k)) : containsKey (raSeg ann) k = false := by
  unfold raSeg
  split <;> simp [containsKey, h]

theorem dictGet_raSeg (ann : List (String × Value)) (k : String)
    (h : ¬("relatedArtifact" = k)) : dictGet (raSeg ann) k = none := by
  unfold raSeg
  split <;> simp [dictGet, h]

theorem containsKey_paramSeg (ann : List (String × Value)) (k : String)
    (h : ¬("parameter" = k)) : containsKey (paramSeg ann) k = false := by
  unfold paramSeg
  cases hP : lookupAnn ann "parameters" with
  | none => simp [containsKey]
  | some w => cases w <;> simp [containsKey, h]

theorem dictGet_paramSeg (ann : List (String × Value)) (k : String)
    (h : ¬("parameter" = k)) : dictGet (paramSeg ann) k = none := by
  unfold paramSeg
  cases hP : lookupAnn ann "parameters" with
  | none => simp [dictGet]
  | some w => cases w <;> simp [dictGet, h]

theorem strSeg_str (ann : List (String × Value)) (k : String) (j : JSON)
    (h : strSeg ann k = some j) : ∃ t, j = JSON.str t := by
  unfold strSeg at h
  cases hlk : lookupAnn ann k with
  | none => rw [hlk] at h; exact Option.noConfusion h
  | some v =>
      rw [hlk] at h
      cases v with
      | str s =>
          refine ⟨s, ?_⟩
          injection h with h2
          exact h2.symm
      | bool b => exact Option.noConfusion h
      | int n => exact Option.noConfusion h
      | float l => exact Option.noConfusion h
      | list vs => exact Option.noConfusion h

theorem bindOk {α β : Type} (x : α) (k : α → Except String β) :
    (Except.ok x >>= k) = k x := rfl

theorem extStep_deco (ann : List (String × Value)) (idv tm : String) (a2 : JFields)
    (ct d64 fn tc : String) (B : JFields)
    (hm : containsKey a2 "extension" = false) (hB : containsKey B "extension" = false) :
    extStep ann (deco idv tm a2 ct d64 fn tc B)
      = deco idv tm a2 ct d64 fn tc (B ++ extSeg ann) := by
  unfold extStep extSeg
  cases hE : extensionsOf ann with
  | nil =>
      simp only []
      rw [jfAppend_nil]
  | cons x xs =>
      simp only []
      rw [dictSet_deco idv tm a2 ct d64 fn tc B "extension" _
        (by decide) (by decide) (by decide) (by decide) hm hB]

theorem appendRelated_opt (idv tm : String) (a2 : JFields) (ct d64 fn tc : String)
    (B : JFields) (o : Option JList) (es : JList)
    (hm1 : containsKey a2 "relatedArtifact" = false)
    (hB1 : containsKey B "relatedArtifact" = false) :
    appendRelated (deco idv tm a2 ct d64 fn tc (B ++ raOptF o)) es
      = deco idv tm a2 ct d64 fn tc (B ++ raOptF (raApp o es)) := by
  cases o with
  | none =>
      unfold appendRelated
      rw [show raOptF none = JFields.nil from rfl, jfAppend_nil]
      rw [containsKey_deco _ _ _ _ _ _ _ _ _ (by decide) (by decide) (by decide) (by decide)]
      rw [hm1, hB1]
      simp only [Bool.or_self, Bool.false_eq_true, if_false]
      exact dictSet_deco idv tm a2 ct d64 fn tc B "relatedArtifact" (.arr es)
        (by decide) (by decide) (by decide) (by decide) hm1 hB1
  | some xs =>
      unfold appendRelated
      rw [containsKey_deco _ _ _ _ _ _ _ _ _ (by decide) (by decide) (by decide) (by decide)]
      rw [hm1, containsKey_append, hB1,
        show containsKey (raOptF (some xs)) "relatedArtifact" = true from rfl]
      simp only [Bool.false_or]
      simp only [if_true]
      rw [modifyVal_deco _ _ _ _ _ _ _ _ _ _ (by decide) (by decide) (by decide) (by decide) hm1]
      rw [modifyVal_append B _ "relatedArtifact" _, hB1]
      simp only [Bool.false_eq_true, if_false]
      simp [modifyVal, raApp, raOptF]

set_option maxHeartbeats 4000000 in
theorem addMetadata_deco (ann : List (String × Value)) (idv tm : String) (a2 : JFields)
    (ct d64 fn tc : String) (B : JFields)
    (hm1 : containsKey a2 "relatedArtifact" = false)
    (hm2 : containsKey a2 "parameter" = false)
    (hB1 : containsKey B "relatedArtifact" = false)
    (hB2 : containsKey B "parameter" = false) :
    addMetadata ann (deco idv tm a2 ct d64 fn tc B)
      = deco idv tm a2 ct d64 fn tc (B ++ raSeg ann ++ paramSeg ann) := by
  have hbP : ∀ o : Option JList, containsKey (B ++ raOptF o) "parameter" = false := by
    intro o
    cases o <;> simp [containsKey_append, hB2, raOptF, containsKey]
  have e0 : deco idv tm a2 ct d64 fn tc B
      = deco idv tm a2 ct d64 fn tc (B ++ raOptF none) := by
    rw [show raOptF none = JFields.nil from rfl, jfAppend_nil]
  unfold addMetadata
  simp only []
  rw [show (match lookupAnn ann "tables" with
           | some v => some v
           | none => lookupAnn ann "dependencies") = tablesOrDeps ann from rfl]
  rw [e0]
  cases hRD : lookupAnn ann "relatedDependency" with
  | none =>
      simp only []
      by_cases hDB : ((lookupAnn ann "database").isSome || (lookupAnn ann "schema").isSome) = true
      · simp only [if_pos hDB]
        rw [appendRelated_opt idv tm a2 ct d64 fn tc B _ _ hm1 hB1]
        cases hTD : tablesOrDeps ann with
        | none =>
            simp only []
            cases hP : lookupAnn ann "parameters" with
            | none =>
                simp only []
                simp [raSeg, raCreated, raEntriesAll, paramSeg, dbDisplay, raOptF, raApp, hRD, hDB, hTD, hP, jfAppend_nil, jlAppend_nil, jfAppend_nil_left, jlAppend_nil_left]
            | some w2 =>
                cases w2 with
                | list vs2 =>
                    simp only []
                    rw [dictSet_deco idv tm a2 ct d64 fn tc _ "parameter" _
                      (by decide) (by decide) (by decide) (by decide) hm2 (hbP _)]
                    simp [raSeg, raCreated, raEntriesAll, paramSeg, dbDisplay, raOptF, raApp, hRD, hDB, hTD, hP, jfAppend_nil, jlAppend_nil, jfAppend_nil_left, jlAppend_nil_left]
                | bool b3 =>
                    simp only []
                    simp [raSeg, raCreated, raEntriesAll, paramSeg, dbDisplay, raOptF, raApp, hRD, hDB, hTD, hP, jfAppend_nil, jlAppend_nil, jfAppend_nil_left, jlAppend_nil_left]
                | int n3 =>
                    simp only []
                    simp [raSeg, raCreated, raEntriesAll, paramSeg, dbDisplay, raOptF, raApp, hRD, hDB, hTD, hP, jfAppend_nil, jlAppend_nil, jfAppend_nil_left, jlAppend_nil_left]
                | float l3 =>
                    simp only []
                    simp [raSeg, raCreated, raEntriesAll, paramSeg, dbDisplay, raOptF, raApp, hRD, hDB, hTD, hP, jfAppend_nil, jlAppend_nil, jfAppend_nil_left, jlAppend_nil_left]
                | str s3 =>
                    simp only []
                    simp [raSeg, raCreated, raEntriesAll, paramSeg, dbDisplay, raOptF, raApp, hRD, hDB, hTD, hP, jfAppend_nil, jlAppend_nil, jfAppend_nil_left, jlAppend_nil_left]
        | some w =>
            cases w with
            | list vs =>
                simp only []
                rw [appendRelated_opt idv tm a2 ct d64 fn tc B _ _ hm1 hB1]
                cases hP : lookupAnn ann "parameters" with
                | none =>
                    simp only []
                    simp [raSeg, raCreated, raEntriesAll, paramSeg, dbDisplay, raOptF, raApp, hRD, hDB, hTD, hP, jfAppend_nil, jlAppend_nil, jfAppend_nil_left, jlAppend_nil_left]
                | some w2 =>
                    cases w2 with
                    | list vs2 =>
                        simp only []
                        rw [dictSet_deco idv tm a2 ct d64 fn tc _ "parameter" _
                          (by decide) (by decide) (by decide) (by decide) hm2 (hbP _)]
                        simp [raSeg, raCreated, raEntriesAll, paramSeg, dbDisplay, raOptF, raApp, hRD, hDB, hTD, hP, jfAppend_nil, jlAppend_nil, jfAppend_nil_left, jlAppend_nil_left]
                    | bool b3 =>
                        simp only []
                        simp [raSeg, raCreated, raEntriesAll, paramSeg, dbDisplay, raOptF, raApp, hRD, hDB, hTD, hP, jfAppend_nil, jlAppend_nil, jfAppend_nil_left, jlAppend_nil_left]
                    | int n3 =>
                        simp only []
                        simp [raSeg, raCreated, raEntriesAll, paramSeg, dbDisplay, raOptF, raApp, hRD, hDB, hTD, hP, jfAppend_nil, jlAppend_nil, jfAppend_nil_left, jlAppend_nil_left]
                    | float l3 =>
                        simp only []
                        simp [raSeg, raCreated, raEntriesAll, paramSeg, dbDisplay, raOptF, raApp, hRD, hDB, hTD, hP, jfAppend_nil, jlAppend_nil, jfAppend_nil_left, jlAppend_nil_left]
                    | str s3 =>
                        simp only []
                        simp [raSeg, raCreated, raEntriesAll, paramSeg, dbDisplay, raOptF, raApp, hRD, hDB, hTD, hP, jfAppend_nil, jlAppend_nil, jfAppend_nil_left, jlAppend_nil_left]
            | bool b2 =>
                simp only []
                cases hP : lookupAnn ann "parameters" with
                | none =>
                    simp only []
                    simp [raSeg, raCreated, raEntriesAll, paramSeg, dbDisplay, raOptF, raApp, hRD, hDB, hTD, hP, jfAppend_nil, jlAppend_nil, jfAppend_nil_left, jlAppend_nil_left]
                | some w2 =>
                    cases w2 with
                    | list vs2 =>
                        simp only []
                        rw [dictSet_deco idv tm a2 ct d64 fn tc _ "parameter" _
                          (by decide) (by decide) (by decide) (by decide) hm2 (hbP _)]
                        simp [raSeg, raCreated, raEntriesAll, paramSeg, dbDisplay, raOptF, raApp, hRD, hDB, hTD, hP, jfAppend_nil, jlAppend_nil, jfAppend_nil_left, jlAppend_nil_left]
                    | bool b3 =>
                        simp only []
                        simp [raSeg, raCreated, raEntriesAll, paramSeg, dbDisplay, raOptF, raApp, hRD, hDB, hTD, hP, jfAppend_nil, jlAppend_nil, jfAppend_nil_left, jlAppend_nil_left]
                    | int n3 =>
                        simp only []
                        simp [raSeg, raCreated, raEntriesAll, paramSeg, dbDisplay, raOptF, raApp, hRD, hDB, hTD, hP, jfAppend_nil, jlAppend_nil, jfAppend_nil_left, jlAppend_nil_left]
                    | float l3 =>
                        simp only []
                        simp [raSeg, raCreated, raEntriesAll, paramSeg, dbDisplay, raOptF, raApp, hRD, hDB, hTD, hP, jfAppend_nil, jlAppend_nil, jfAppend_nil_left, jlAppend_nil_left]
                    | str s3 =>
                        simp only []
                        simp [raSeg, raCreated, raEntriesAll, paramSeg, dbDisplay, raOptF, raApp, hRD, hDB, hTD, hP, jfAppend_nil, jlAppend_nil, jfAppend_nil_left, jlAppend_nil_left]
            | int n2 =>
                simp only []
                cases hP : lookupAnn ann "parameters" with
                | none =>
                    simp only []
                    simp [raSeg, raCreated, raEntriesAll, paramSeg, dbDisplay, raOptF, raApp, hRD, hDB, hTD, hP, jfAppend_nil, jlAppend_nil, jfAppend_nil_left, jlAppend_nil_left]
                | some w2 =>
                    cases w2 with
                    | list vs2 =>
                        simp only []
                        rw [dictSet_deco idv tm a2 ct d64 fn tc _ "parameter" _
                          (by decide) (by decide) (by decide) (by decide) hm2 (hbP _)]
                        simp [raSeg, raCreated, raEntriesAll, paramSeg, dbDisplay, raOptF, raApp, hRD, hDB, hTD, hP, jfAppend_nil, jlAppend_nil, jfAppend_nil_left, jlAppend_nil_left]
                    | bool b3 =>
                        simp only []
                        simp [raSeg, raCreated, raEntriesAll, paramSeg, dbDisplay, raOptF, raApp, hRD, hDB, hTD, hP, jfAppend_nil, jlAppend_nil, jfAppend_nil_left, jlAppend_nil_left]
                    | int n3 =>
                        simp only []
                        simp [raSeg, raCreated, raEntriesAll, paramSeg, dbDisplay, raOptF, raApp, hRD, hDB, hTD, hP, jfAppend_nil, jlAppend_nil, jfAppend_nil_left, jlAppend_nil_left]
                    | float l3 =>
                        simp only []
                        simp [raSeg, raCreated, raEntriesAll, paramSeg, dbDisplay, raOptF, raApp, hRD, hDB, hTD, hP, jfAppend_nil, jlAppend_nil, jfAppend_nil_left, jlAppend_nil_left]
                    | str s3 =>
                        simp only []
                        simp [raSeg, raCreated, raEntriesAll, paramSeg, dbDisplay, raOptF, raApp, hRD, hDB, hTD, hP, jfAppend_nil, jlAppend_nil, jfAppend_nil_left, jlAppend_nil_left]
            | float l2 =>
                simp only []
                cases hP : lookupAnn ann "parameters" with
                | none =>
                    simp only []
                    simp [raSeg, raCreated, raEntriesAll, paramSeg, dbDisplay, raOptF, raApp, hRD, hDB, hTD, hP, jfAppend_nil, jlAppend_nil, jfAppend_nil_left, jlAppend_nil_left]
                | some w2 =>
                    cases w2 with
                    | list vs2 =>
                        simp only []
                        rw [dictSet_deco idv tm a2 ct d64 fn tc _ "parameter" _
                          (by decide) (by decide) (by decide) (by decide) hm2 (hbP _)]
                        simp [raSeg, raCreated, raEntriesAll, paramSeg, dbDisplay, raOptF, raApp, hRD, hDB, hTD, hP, jfAppend_nil, jlAppend_nil, jfAppend_nil_left, jlAppend_nil_left]
                    | bool b3 =>
                        simp only []
                        simp [raSeg, raCreated, raEntriesAll, paramSeg, dbDisplay, raOptF, raApp, hRD, hDB, hTD, hP, jfAppend_nil, jlAppend_nil, jfAppend_nil_left, jlAppend_nil_left]
                    | int n3 =>
                        simp only []
                        simp [raSeg, raCreated, raEntriesAll, paramSeg, dbDisplay, raOptF, raApp, hRD, hDB, hTD, hP, jfAppend_nil, jlAppend_nil, jfAppend_nil_left, jlAppend_nil_left]
                    | float l3 =>
                        simp only []
                        simp [raSeg, raCreated, raEntriesAll, paramSeg, dbDisplay, raOptF, raApp, hRD, hDB, hTD, hP, jfAppend_nil, jlAppend_nil, jfAppend_nil_left, jlAppend_nil_left]
                    | str s3 =>
                        simp only []
                        simp [raSeg, raCreated, raEntriesAll, paramSeg, dbDisplay, raOptF, raApp, hRD, hDB, hTD, hP, jfAppend_nil, jlAppend_nil, jfAppend_nil_left, jlAppend_nil_left]
            | str s2 =>
                simp only []
                cases hP : lookupAnn ann "parameters" with
                | none =>
                    simp only []
                    simp [raSeg, raCreated, raEntriesAll, paramSeg, dbDisplay, raOptF, raApp, hRD, hDB, hTD, hP, jfAppend_nil, jlAppend_nil, jfAppend_nil_left, jlAppend_nil_left]
                | some w2 =>
                    cases w2 with
                    | list vs2 =>
                        simp only []
                        rw [dictSet_deco idv tm a2 ct d64 fn tc _ "parameter" _
                          (by decide) (by decide) (by decide) (by decide) hm2 (hbP _)]
                        simp [raSeg, raCreated, raEntriesAll, paramSeg, dbDisplay, raOptF, raApp, hRD, hDB, hTD, hP, jfAppend_nil, jlAppend_nil, jfAppend_nil_left, jlAppend_nil_left]
                    | bool b3 =>
                        simp only []
                        simp [raSeg, raCreated, raEntriesAll, paramSeg, dbDisplay, raOptF, raApp, hRD, hDB, hTD, hP, jfAppend_nil, jlAppend_nil, jfAppend_nil_left, jlAppend_nil_left]
                    | int n3 =>
                        simp only []
                        simp [raSeg, raCreated, raEntriesAll, paramSeg, dbDisplay, raOptF, raApp, hRD, hDB, hTD, hP, jfAppend_nil, jlAppend_nil, jfAppend_nil_left, jlAppend_nil_left]
                    | float l3 =>
                        simp only []
                        simp [raSeg, raCreated, raEntriesAll, paramSeg, dbDisplay, raOptF, raApp, hRD, hDB, hTD, hP, jfAppend_nil, jlAppend_nil, jfAppend_nil_left, jlAppend_nil_left]
                    | str s3 =>
                        simp only []
                        simp [raSeg, raCreated, raEntriesAll, paramSeg, dbDisplay, raOptF, raApp, hRD, hDB, hTD, hP, jfAppend_nil, jlAppend_nil, jfAppend_nil_left, jlAppend_nil_left]
      · simp only [if_neg hDB]
        have hDB2 : ((lookupAnn ann "database").isSome || (lookupAnn ann "schema").isSome) = false := by
          cases h2 : ((lookupAnn ann "database").isSome || (lookupAnn ann "schema").isSome) with
          | false => rfl
          | true => exact absurd h2 hDB
        cases hTD : tablesOrDeps ann with
        | none =>
            simp only []
            cases hP : lookupAnn ann "parameters" with
            | none =>
                simp only []
                simp [raSeg, raCreated, raEntriesAll, paramSeg, dbDisplay, raOptF, raApp, hRD, hDB2, hTD, hP, jfAppend_nil, jlAppend_nil, jfAppend_nil_left, jlAppend_nil_left]
            | some w2 =>
                cases w2 with
                | list vs2 =>
                    simp only []
                    rw [dictSet_deco idv tm a2 ct d64 fn tc _ "parameter" _
                      (by decide) (by decide) (by decide) (by decide) hm2 (hbP _)]
                    simp [raSeg, raCreated, raEntriesAll, paramSeg, dbDisplay, raOptF, raApp, hRD, hDB2, hTD, hP, jfAppend_nil, jlAppend_nil, jfAppend_nil_left, jlAppend_nil_left]
                | bool b3 =>
                    simp only []
                    simp [raSeg, raCreated, raEntriesAll, paramSeg, dbDisplay, raOptF, raApp, hRD, hDB2, hTD, hP, jfAppend_nil, jlAppend_nil, jfAppend_nil_left, jlAppend_nil_left]
                | int n3 =>
                    simp only []
                    simp [raSeg, raCreated, raEntriesAll, paramSeg, dbDisplay, raOptF, raApp, hRD, hDB2, hTD, hP, jfAppend_nil, jlAppend_nil, jfAppend_nil_left, jlAppend_nil_left]
                | float l3 =>
                    simp only []
                    simp [raSeg, raCreated, raEntriesAll, paramSeg, dbDisplay, raOptF, raApp, hRD, hDB2, hTD, hP, jfAppend_nil, jlAppend_nil, jfAppend_nil_left, jlAppend_nil_left]
                | str s3 =>
                    simp only []
                    simp [raSeg, raCreated, raEntriesAll, paramSeg, dbDisplay, raOptF, raApp, hRD, hDB2, hTD, hP, jfAppend_nil, jlAppend_nil, jfAppend_nil_left, jlAppend_nil_left]
        | some w =>
            cases w with
            | list vs =>
                simp only []
                rw [appendRelated_opt idv tm a2 ct d64 fn tc B _ _ hm1 hB1]
                cases hP : lookupAnn ann "parameters" with
                | none =>
                    simp only []
                    simp [raSeg, raCreated, raEntriesAll, paramSeg, dbDisplay, raOptF, raApp, hRD, hDB2, hTD, hP, jfAppend_nil, jlAppend_nil, jfAppend_nil_left, jlAppend_nil_left]
                | some w2 =>
                    cases w2 with
                    | list vs2 =>
                        simp only []
                        rw [dictSet_deco idv tm a2 ct d64 fn tc _ "parameter" _
                          (by decide) (by decide) (by decide) (by decide) hm2 (hbP _)]
                        simp [raSeg, raCreated, raEntriesAll, paramSeg, dbDisplay, raOptF, raApp, hRD, hDB2, hTD, hP, jfAppend_nil, jlAppend_nil, jfAppend_nil_left, jlAppend_nil_left]
                    | bool b3 =>
                        simp only []
                        simp [raSeg, raCreated, raEntriesAll, paramSeg, dbDisplay, raOptF, raApp, hRD, hDB2, hTD, hP, jfAppend_nil, jlAppend_nil, jfAppend_nil_left, jlAppend_nil_left]
                    | int n3 =>
                        simp only []
                        simp [raSeg, raCreated, raEntriesAll, paramSeg, dbDisplay, raOptF, raApp, hRD, hDB2, hTD, hP, jfAppend_nil, jlAppend_nil, jfAppend_nil_left, jlAppend_nil_left]
                    | float l3 =>
                        simp only []
                        simp [raSeg, raCreated, raEntriesAll, paramSeg, dbDisplay, raOptF, raApp, hRD, hDB2, hTD, hP, jfAppend_nil, jlAppend_nil, jfAppend_nil_left, jlAppend_nil_left]
                    | str s3 =>
                        simp only []
                        simp [raSeg, raCreated, raEntriesAll, paramSeg, dbDisplay, raOptF, raApp, hRD, hDB2, hTD, hP, jfAppend_nil, jlAppend_nil, jfAppend_nil_left, jlAppend_nil_left]
            | bool b2 =>
                simp only []
                cases hP : lookupAnn ann "parameters" with
                | none =>
                    simp only []
                    simp [raSeg, raCreated, raEntriesAll, paramSeg, dbDisplay, raOptF, raApp, hRD, hDB2, hTD, hP, jfAppend_nil, jlAppend_nil, jfAppend_nil_left, jlAppend_nil_left]
                | some w2 =>
                    cases w2 with
                    | list vs2 =>
                        simp only []
                        rw [dictSet_deco idv tm a2 ct d64 fn tc _ "parameter" _
                          (by decide) (by decide) (by decide) (by decide) hm2 (hbP _)]
                        simp [raSeg, raCreated, raEntriesAll, paramSeg, dbDisplay, raOptF, raApp, hRD, hDB2, hTD, hP, jfAppend_nil, jlAppend_nil, jfAppend_nil_left, jlAppend_nil_left]
                    | bool b3 =>
                        simp only []
                        simp [raSeg, raCreated, raEntriesAll, paramSeg, dbDisplay, raOptF, raApp, hRD, hDB2, hTD, hP, jfAppend_nil, jlAppend_nil, jfAppend_nil_left, jlAppend_nil_left]
                    | int n3 =>
                        simp only []
                        simp [raSeg, raCreated, raEntriesAll, paramSeg, dbDisplay, raOptF, raApp, hRD, hDB2, hTD, hP, jfAppend_nil, jlAppend_nil, jfAppend_nil_left, jlAppend_nil_left]
                    | float l3 =>
                        simp only []
                        simp [raSeg, raCreated, raEntriesAll, paramSeg, dbDisplay, raOptF, raApp, hRD, hDB2, hTD, hP, jfAppend_nil, jlAppend_nil, jfAppend_nil_left, jlAppend_nil_left]
                    | str s3 =>
                        simp only []
                        simp [raSeg, raCreated, raEntriesAll, paramSeg, dbDisplay, raOptF, raApp, hRD, hDB2, hTD, hP, jfAppend_nil, jlAppend_nil, jfAppend_nil_left, jlAppend_nil_left]
            | int n2 =>
                simp only []
                cases hP : lookupAnn ann "parameters" with
                | none =>
                    simp only []
                    simp [raSeg, raCreated, raEntriesAll, paramSeg, dbDisplay, raOptF, raApp, hRD, hDB2, hTD, hP, jfAppend_nil, jlAppend_nil, jfAppend_nil_left, jlAppend_nil_left]
                | some w2 =>
                    cases w2 with
                    | list vs2 =>
                        simp only []
                        rw [dictSet_deco idv tm a2 ct d64 fn tc _ "parameter" _
                          (by decide) (by decide) (by decide) (by decide) hm2 (hbP _)]
                        simp [raSeg, raCreated, raEntriesAll, paramSeg, dbDisplay, raOptF, raApp, hRD, hDB2, hTD, hP, jfAppend_nil, jlAppend_nil, jfAppend_nil_left, jlAppend_nil_left]
                    | bool b3 =>
                        simp only []
                        simp [raSeg, raCreated, raEntriesAll, paramSeg, dbDisplay, raOptF, raApp, hRD, hDB2, hTD, hP, jfAppend_nil, jlAppend_nil, jfAppend_nil_left, jlAppend_nil_left]
                    | int n3 =>
                        simp only []
                        simp [raSeg, raCreated, raEntriesAll, paramSeg, dbDisplay, raOptF, raApp, hRD, hDB2, hTD, hP, jfAppend_nil, jlAppend_nil, jfAppend_nil_left, jlAppend_nil_left]
                    | float l3 =>
                        simp only []
                        simp [raSeg, raCreated, raEntriesAll, paramSeg, dbDisplay, raOptF, raApp, hRD, hDB2, hTD, hP, jfAppend_nil, jlAppend_nil, jfAppend_nil_left, jlAppend_nil_left]
                    | str s3 =>
                        simp only []
                        simp [raSeg, raCreated, raEntriesAll, paramSeg, dbDisplay, raOptF, raApp, hRD, hDB2, hTD, hP, jfAppend_nil, jlAppend_nil, jfAppend_nil_left, jlAppend_nil_left]
            | float l2 =>
                simp only []
                cases hP : lookupAnn ann "parameters" with
                | none =>
                    simp only []
                    simp [raSeg, raCreated, raEntriesAll, paramSeg, dbDisplay, raOptF, raApp, hRD, hDB2, hTD, hP, jfAppend_nil, jlAppend_nil, jfAppend_nil_left, jlAppend_nil_left]
                | some w2 =>
                    cases w2 with
                    | list vs2 =>
                        simp only []
                        rw [dictSet_deco idv tm a2 ct d64 fn tc _ "parameter" _
                          (by decide) (by decide) (by decide) (by decide) hm2 (hbP _)]
                        simp [raSeg, raCreated, raEntriesAll, paramSeg, dbDisplay, raOptF, raApp, hRD, hDB2, hTD, hP, jfAppend_nil, jlAppend_nil, jfAppend_nil_left, jlAppend_nil_left]
                    | bool b3 =>
                        simp only []
                        simp [raSeg, raCreated, raEntriesAll, paramSeg, dbDisplay, raOptF, raApp, hRD, hDB2, hTD, hP, jfAppend_nil, jlAppend_nil, jfAppend_nil_left, jlAppend_nil_left]
                    | int n3 =>
                        simp only []
                        simp [raSeg, raCreated, raEntriesAll, paramSeg, dbDisplay, raOptF, raApp, hRD, hDB2, hTD, hP, jfAppend_nil, jlAppend_nil, jfAppend_nil_left, jlAppend_nil_left]
                    | float l3 =>
                        simp only []
                        simp [raSeg, raCreated, raEntriesAll, paramSeg, dbDisplay, raOptF, raApp, hRD, hDB2, hTD, hP, jfAppend_nil, jlAppend_nil, jfAppend_nil_left, jlAppend_nil_left]
                    | str s3 =>
                        simp only []
                        simp [raSeg, raCreated, raEntriesAll, paramSeg, dbDisplay, raOptF, raApp, hRD, hDB2, hTD, hP, jfAppend_nil, jlAppend_nil, jfAppend_nil_left, jlAppend_nil_left]
            | str s2 =>
                simp only []
                cases hP : lookupAnn ann "parameters" with
                | none =>
                    simp only []
                    simp [raSeg, raCreated, raEntriesAll, paramSeg, dbDisplay, raOptF, raApp, hRD, hDB2, hTD, hP, jfAppend_nil, jlAppend_nil, jfAppend_nil_left, jlAppend_nil_left]
                | some w2 =>
                    cases w2 with
                    | list vs2 =>
                        simp only []
                        rw [dictSet_deco idv tm a2 ct d64 fn tc _ "parameter" _
                          (by decide) (by decide) (by decide) (by decide) hm2 (hbP _)]
                        simp [raSeg, raCreated, raEntriesAll, paramSeg, dbDisplay, raOptF, raApp, hRD, hDB2, hTD, hP, jfAppend_nil, jlAppend_nil, jfAppend_nil_left, jlAppend_nil_left]
                    | bool b3 =>
                        simp only []
                        simp [raSeg, raCreated, raEntriesAll, paramSeg, dbDisplay, raOptF, raApp, hRD, hDB2, hTD, hP, jfAppend_nil, jlAppend_nil, jfAppend_nil_left, jlAppend_nil_left]
                    | int n3 =>
                        simp only []
                        simp [raSeg, raCreated, raEntriesAll, paramSeg, dbDisplay, raOptF, raApp, hRD, hDB2, hTD, hP, jfAppend_nil, jlAppend_nil, jfAppend_nil_left, jlAppend_nil_left]
                    | float l3 =>
                        simp only []
                        simp [raSeg, raCreated, raEntriesAll, paramSeg, dbDisplay, raOptF, raApp, hRD, hDB2, hTD, hP, jfAppend_nil, jlAppend_nil, jfAppend_nil_left, jlAppend_nil_left]
                    | str s3 =>
                        simp only []
                        simp [raSeg, raCreated, raEntriesAll, paramSeg, dbDisplay, raOptF, raApp, hRD, hDB2, hTD, hP, jfAppend_nil, jlAppend_nil, jfAppend_nil_left, jlAppend_nil_left]
  | some v =>
      simp only []
      rw [appendRelated_opt idv tm a2 ct d64 fn tc B _ _ hm1 hB1]
      by_cases hDB : ((lookupAnn ann "database").isSome || (lookupAnn ann "schema").isSome) = true
      · simp only [if_pos hDB]
        rw [appendRelated_opt idv tm a2 ct d64 fn tc B _ _ hm1 hB1]
        cases hTD : tablesOrDeps ann with
        | none =>
            simp only []
            cases hP : lookupAnn ann "parameters" with
            | none =>
                simp only []
                simp [raSeg, raCreated, raEntriesAll, paramSeg, dbDisplay, raOptF, raApp, hRD, hDB, hTD, hP, jfAppend_nil, jlAppend_nil, jfAppend_nil_left, jlAppend_nil_left]
            | some w2 =>
                cases w2 with
                | list vs2 =>
                    simp only []
                    rw [dictSet_deco idv tm a2 ct d64 fn tc _ "parameter" _
                      (by decide) (by decide) (by decide) (by decide) hm2 (hbP _)]
                    simp [raSeg, raCreated, raEntriesAll, paramSeg, dbDisplay, raOptF, raApp, hRD, hDB, hTD, hP, jfAppend_nil, jlAppend_nil, jfAppend_nil_left, jlAppend_nil_left]
                | bool b3 =>
                    simp only []
                    simp [raSeg, raCreated, raEntriesAll, paramSeg, dbDisplay, raOptF, raApp, hRD, hDB, hTD, hP, jfAppend_nil, jlAppend_nil, jfAppend_nil_left, jlAppend_nil_left]
                | int n3 =>
                    simp only []
                    simp [raSeg, raCreated, raEntriesAll, paramSeg, dbDisplay, raOptF, raApp, hRD, hDB, hTD, hP, jfAppend_nil, jlAppend_nil, jfAppend_nil_left, jlAppend_nil_left]
                | float l3 =>
                    simp only []
                    simp [raSeg, raCreated, raEntriesAll, paramSeg, dbDisplay, raOptF, raApp, hRD, hDB, hTD, hP, jfAppend_nil, jlAppend_nil, jfAppend_nil_left, jlAppend_nil_left]
                | str s3 =>
                    simp only []
                    simp [raSeg, raCreated, raEntriesAll, paramSeg, dbDisplay, raOptF, raApp, hRD, hDB, hTD, hP, jfAppend_nil, jlAppend_nil, jfAppend_nil_left, jlAppend_nil_left]
        | some w =>
            cases w with
            | list vs =>
                simp only []
                rw [appendRelated_opt idv tm a2 ct d64 fn tc B _ _ hm1 hB1]
                cases hP : lookupAnn ann "parameters" with
                | none =>
                    simp only []
                    simp [raSeg, raCreated, raEntriesAll, paramSeg, dbDisplay, raOptF, raApp, hRD, hDB, hTD, hP, jfAppend_nil, jlAppend_nil, jfAppend_nil_left, jlAppend_nil_left]
                | some w2 =>
                    cases w2 with
                    | list vs2 =>
                        simp only []
                        rw [dictSet_deco idv tm a2 ct d64 fn tc _ "parameter" _
                          (by decide) (by decide) (by decide) (by decide) hm2 (hbP _)]
                        simp [raSeg, raCreated, raEntriesAll, paramSeg, dbDisplay, raOptF, raApp, hRD, hDB, hTD, hP, jfAppend_nil, jlAppend_nil, jfAppend_nil_left, jlAppend_nil_left]
                    | bool b3 =>
                        simp only []
                        simp [raSeg, raCreated, raEntriesAll, paramSeg, dbDisplay, raOptF, raApp, hRD, hDB, hTD, hP, jfAppend_nil, jlAppend_nil, jfAppend_nil_left, jlAppend_nil_left]
                    | int n3 =>
                        simp only []
                        simp [raSeg, raCreated, raEntriesAll, paramSeg, dbDisplay, raOptF, raApp, hRD, hDB, hTD, hP, jfAppend_nil, jlAppend_nil, jfAppend_nil_left, jlAppend_nil_left]
                    | float l3 =>
                        simp only []
                        simp [raSeg, raCreated, raEntriesAll, paramSeg, dbDisplay, raOptF, raApp, hRD, hDB, hTD, hP, jfAppend_nil, jlAppend_nil, jfAppend_nil_left, jlAppend_nil_left]
                    | str s3 =>
                        simp only []
                        simp [raSeg, raCreated, raEntriesAll, paramSeg, dbDisplay, raOptF, raApp, hRD, hDB, hTD, hP, jfAppend_nil, jlAppend_nil, jfAppend_nil_left, jlAppend_nil_left]
            | bool b2 =>
                simp only []
                cases hP : lookupAnn ann "parameters" with
                | none =>
                    simp only []
                    simp [raSeg, raCreated, raEntriesAll, paramSeg, dbDisplay, raOptF, raApp, hRD, hDB, hTD, hP, jfAppend_nil, jlAppend_nil, jfAppend_nil_left, jlAppend_nil_left]
                | some w2 =>
                    cases w2 with
                    | list vs2 =>
                        simp only []
                        rw [dictSet_deco idv tm a2 ct d64 fn tc _ "parameter" _
                          (by decide) (by decide) (by decide) (by decide) hm2 (hbP _)]
                        simp [raSeg, raCreated, raEntriesAll, paramSeg, dbDisplay, raOptF, raApp, hRD, hDB, hTD, hP, jfAppend_nil, jlAppend_nil, jfAppend_nil_left, jlAppend_nil_left]
                    | bool b3 =>
                        simp only []
                        simp [raSeg, raCreated, raEntriesAll, paramSeg, dbDisplay, raOptF, raApp, hRD, hDB, hTD, hP, jfAppend_nil, jlAppend_nil, jfAppend_nil_left, jlAppend_nil_left]
                    | int n3 =>
                        simp only []
                        simp [raSeg, raCreated, raEntriesAll, paramSeg, dbDisplay, raOptF, raApp, hRD, hDB, hTD, hP, jfAppend_nil, jlAppend_nil, jfAppend_nil_left, jlAppend_nil_left]
                    | float l3 =>
                        simp only []
                        simp [raSeg, raCreated, raEntriesAll, paramSeg, dbDisplay, raOptF, raApp, hRD, hDB, hTD, hP, jfAppend_nil, jlAppend_nil, jfAppend_nil_left, jlAppend_nil_left]
                    | str s3 =>
                        simp only []
                        simp [raSeg, raCreated, raEntriesAll, paramSeg, dbDisplay, raOptF, raApp, hRD, hDB, hTD, hP, jfAppend_nil, jlAppend_nil, jfAppend_nil_left, jlAppend_nil_left]
            | int n2 =>
                simp only []
                cases hP : lookupAnn ann "parameters" with
                | none =>
                    simp only []
                    simp [raSeg, raCreated, raEntriesAll, paramSeg, dbDisplay, raOptF, raApp, hRD, hDB, hTD, hP, jfAppend_nil, jlAppend_nil, jfAppend_nil_left, jlAppend_nil_left]
                | some w2 =>
                    cases w2 with
                    | list vs2 =>
                        simp only []
                        rw [dictSet_deco idv tm a2 ct d64 fn tc _ "parameter" _
                          (by decide) (by decide) (by decide) (by decide) hm2 (hbP _)]
                        simp [raSeg, raCreated, raEntriesAll, paramSeg, dbDisplay, raOptF, raApp, hRD, hDB, hTD, hP, jfAppend_nil, jlAppend_nil, jfAppend_nil_left, jlAppend_nil_left]
                    | bool b3 =>
                        simp only []
                        simp [raSeg, raCreated, raEntriesAll, paramSeg, dbDisplay, raOptF, raApp, hRD, hDB, hTD, hP, jfAppend_nil, jlAppend_nil, jfAppend_nil_left, jlAppend_nil_left]
                    | int n3 =>
                        simp only []
                        simp [raSeg, raCreated, raEntriesAll, paramSeg, dbDisplay, raOptF, raApp, hRD, hDB, hTD, hP, jfAppend_nil, jlAppend_nil, jfAppend_nil_left, jlAppend_nil_left]
                    | float l3 =>
                        simp only []
                        simp [raSeg, raCreated, raEntriesAll, paramSeg, dbDisplay, raOptF, raApp, hRD, hDB, hTD, hP, jfAppend_nil, jlAppend_nil, jfAppend_nil_left, jlAppend_nil_left]
                    | str s3 =>
                        simp only []
                        simp [raSeg, raCreated, raEntriesAll, paramSeg, dbDisplay, raOptF, raApp, hRD, hDB, hTD, hP, jfAppend_nil, jlAppend_nil, jfAppend_nil_left, jlAppend_nil_left]
            | float l2 =>
                simp only []
                cases hP : lookupAnn ann "parameters" with
                | none =>
                    simp only []
                    simp [raSeg, raCreated, raEntriesAll, paramSeg, dbDisplay, raOptF, raApp, hRD, hDB, hTD, hP, jfAppend_nil, jlAppend_nil, jfAppend_nil_left, jlAppend_nil_left]
                | some w2 =>
                    cases w2 with
                    | list vs2 =>
                        simp only []
                        rw [dictSet_deco idv tm a2 ct d64 fn tc _ "parameter" _
                          (by decide) (by decide) (by decide) (by decide) hm2 (hbP _)]
                        simp [raSeg, raCreated, raEntriesAll, paramSeg, dbDisplay, raOptF, raApp, hRD, hDB, hTD, hP, jfAppend_nil, jlAppend_nil, jfAppend_nil_left, jlAppend_nil_left]
                    | bool b3 =>
                        simp only []
                        simp [raSeg, raCreated, raEntriesAll, paramSeg, dbDisplay, raOptF, raApp, hRD, hDB, hTD, hP, jfAppend_nil, jlAppend_nil, jfAppend_nil_left, jlAppend_nil_left]
                    | int n3 =>
                        simp only []
                        simp [raSeg, raCreated, raEntriesAll, paramSeg, dbDisplay, raOptF, raApp, hRD, hDB, hTD, hP, jfAppend_nil, jlAppend_nil, jfAppend_nil_left, jlAppend_nil_left]
                    | float l3 =>
                        simp only []
                        simp [raSeg, raCreated, raEntriesAll, paramSeg, dbDisplay, raOptF, raApp, hRD, hDB, hTD, hP, jfAppend_nil, jlAppend_nil, jfAppend_nil_left, jlAppend_nil_left]
                    | str s3 =>
                        simp only []
                        simp [raSeg, raCreated, raEntriesAll, paramSeg, dbDisplay, raOptF, raApp, hRD, hDB, hTD, hP, jfAppend_nil, jlAppend_nil, jfAppend_nil_left, jlAppend_nil_left]
            | str s2 =>
                simp only []
                cases hP : lookupAnn ann "parameters" with
                | none =>
                    simp only []
                    simp [raSeg, raCreated, raEntriesAll, paramSeg, dbDisplay, raOptF, raApp, hRD, hDB, hTD, hP, jfAppend_nil, jlAppend_nil, jfAppend_nil_left, jlAppend_nil_left]
                | some w2 =>
                    cases w2 with
                    | list vs2 =>
                        simp only []
                        rw [dictSet_deco idv tm a2 ct d64 fn tc _ "parameter" _
                          (by decide) (by decide) (by decide) (by decide) hm2 (hbP _)]
                        simp [raSeg, raCreated, raEntriesAll, paramSeg, dbDisplay, raOptF, raApp, hRD, hDB, hTD, hP, jfAppend_nil, jlAppend_nil, jfAppend_nil_left, jlAppend_nil_left]
                    | bool b3 =>
                        simp only []
                        simp [raSeg, raCreated, raEntriesAll, paramSeg, dbDisplay, raOptF, raApp, hRD, hDB, hTD, hP, jfAppend_nil, jlAppend_nil, jfAppend_nil_left, jlAppend_nil_left]
                    | int n3 =>
                        simp only []
                        simp [raSeg, raCreated, raEntriesAll, paramSeg, dbDisplay, raOptF, raApp, hRD, hDB, hTD, hP, jfAppend_nil, jlAppend_nil, jfAppend_nil_left, jlAppend_nil_left]
                    | float l3 =>
                        simp only []
                        simp [raSeg, raCreated, raEntriesAll, paramSeg, dbDisplay, raOptF, raApp, hRD, hDB, hTD, hP, jfAppend_nil, jlAppend_nil, jfAppend_nil_left, jlAppend_nil_left]
                    | str s3 =>
                        simp only []
                        simp [raSeg, raCreated, raEntriesAll, paramSeg, dbDisplay, raOptF, raApp, hRD, hDB, hTD, hP, jfAppend_nil, jlAppend_nil, jfAppend_nil_left, jlAppend_nil_left]
      · simp only [if_neg hDB]
        have hDB2 : ((lookupAnn ann "database").isSome || (lookupAnn ann "schema").isSome) = false := by
          cases h2 : ((lookupAnn ann "database").isSome || (lookupAnn ann "schema").isSome) with
          | false => rfl
          | true => exact absurd h2 hDB
        cases hTD : tablesOrDeps ann with
        | none =>
            simp only []
            cases hP : lookupAnn ann "parameters" with
            | none =>
                simp only []
                simp [raSeg, raCreated, raEntriesAll, paramSeg, dbDisplay, raOptF, raApp, hRD, hDB2, hTD, hP, jfAppend_nil, jlAppend_nil, jfAppend_nil_left, jlAppend_nil_left]
            | some w2 =>
                cases w2 with
                | list vs2 =>
                    simp only []
                    rw [dictSet_deco idv tm a2 ct d64 fn tc _ "parameter" _
                      (by decide) (by decide) (by decide) (by decide) hm2 (hbP _)]
                    simp [raSeg, raCreated, raEntriesAll, paramSeg, dbDisplay, raOptF, raApp, hRD, hDB2, hTD, hP, jfAppend_nil, jlAppend_nil, jfAppend_nil_left, jlAppend_nil_left]
                | bool b3 =>
                    simp only []
                    simp [raSeg, raCreated, raEntriesAll, paramSeg, dbDisplay, raOptF, raApp, hRD, hDB2, hTD, hP, jfAppend_nil, jlAppend_nil, jfAppend_nil_left, jlAppend_nil_left]
                | int n3 =>
                    simp only []
                    simp [raSeg, raCreated, raEntriesAll, paramSeg, dbDisplay, raOptF, raApp, hRD, hDB2, hTD, hP, jfAppend_nil, jlAppend_nil, jfAppend_nil_left, jlAppend_nil_left]
                | float l3 =>
                    simp only []
                    simp [raSeg, raCreated, raEntriesAll, paramSeg, dbDisplay, raOptF, raApp, hRD, hDB2, hTD, hP, jfAppend_nil, jlAppend_nil, jfAppend_nil_left, jlAppend_nil_left]
                | str s3 =>
                    simp only []
                    simp [raSeg, raCreated, raEntriesAll, paramSeg, dbDisplay, raOptF, raApp, hRD, hDB2, hTD, hP, jfAppend_nil, jlAppend_nil, jfAppend_nil_left, jlAppend_nil_left]
        | some w =>
            cases w with
            | list vs =>
                simp only []
                rw [appendRelated_opt idv tm a2 ct d64 fn tc B _ _ hm1 hB1]
                cases hP : lookupAnn ann "parameters" with
                | none =>
                    simp only []
                    simp [raSeg, raCreated, raEntriesAll, paramSeg, dbDisplay, raOptF, raApp, hRD, hDB2, hTD, hP, jfAppend_nil, jlAppend_nil, jfAppend_nil_left, jlAppend_nil_left]
                | some w2 =>
                    cases w2 with
                    | list vs2 =>
                        simp only []
                        rw [dictSet_deco idv tm a2 ct d64 fn tc _ "parameter" _
                          (by decide) (by decide) (by decide) (by decide) hm2 (hbP _)]
                        simp [raSeg, raCreated, raEntriesAll, paramSeg, dbDisplay, raOptF, raApp, hRD, hDB2, hTD, hP, jfAppend_nil, jlAppend_nil, jfAppend_nil_left, jlAppend_nil_left]
                    | bool b3 =>
                        simp only []
                        simp [raSeg, raCreated, raEntriesAll, paramSeg, dbDisplay, raOptF, raApp, hRD, hDB2, hTD, hP, jfAppend_nil, jlAppend_nil, jfAppend_nil_left, jlAppend_nil_left]
                    | int n3 =>
                        simp only []
                        simp [raSeg, raCreated, raEntriesAll, paramSeg, dbDisplay, raOptF, raApp, hRD, hDB2, hTD, hP, jfAppend_nil, jlAppend_nil, jfAppend_nil_left, jlAppend_nil_left]
                    | float l3 =>
                        simp only []
                        simp [raSeg, raCreated, raEntriesAll, paramSeg, dbDisplay, raOptF, raApp, hRD, hDB2, hTD, hP, jfAppend_nil, jlAppend_nil, jfAppend_nil_left, jlAppend_nil_left]
                    | str s3 =>
                        simp only []
                        simp [raSeg, raCreated, raEntriesAll, paramSeg, dbDisplay, raOptF, raApp, hRD, hDB2, hTD, hP, jfAppend_nil, jlAppend_nil, jfAppend_nil_left, jlAppend_nil_left]
            | bool b2 =>
                simp only []
                cases hP : lookupAnn ann "parameters" with
                | none =>
                    simp only []
                    simp [raSeg, raCreated, raEntriesAll, paramSeg, dbDisplay, raOptF, raApp, hRD, hDB2, hTD, hP, jfAppend_nil, jlAppend_nil, jfAppend_nil_left, jlAppend_nil_left]
                | some w2 =>
                    cases w2 with
                    | list vs2 =>
                        simp only []
                        rw [dictSet_deco idv tm a2 ct d64 fn tc _ "parameter" _
                          (by decide) (by decide) (by decide) (by decide) hm2 (hbP _)]
                        simp [raSeg, raCreated, raEntriesAll, paramSeg, dbDisplay, raOptF, raApp, hRD, hDB2, hTD, hP, jfAppend_nil, jlAppend_nil, jfAppend_nil_left, jlAppend_nil_left]
                    | bool b3 =>
                        simp only []
                        simp [raSeg, raCreated, raEntriesAll, paramSeg, dbDisplay, raOptF, raApp, hRD, hDB2, hTD, hP, jfAppend_nil, jlAppend_nil, jfAppend_nil_left, jlAppend_nil_left]
                    | int n3 =>
                        simp only []
                        simp [raSeg, raCreated, raEntriesAll, paramSeg, dbDisplay, raOptF, raApp, hRD, hDB2, hTD, hP, jfAppend_nil, jlAppend_nil, jfAppend_nil_left, jlAppend_nil_left]
                    | float l3 =>
                        simp only []
                        simp [raSeg, raCreated, raEntriesAll, paramSeg, dbDisplay, raOptF, raApp, hRD, hDB2, hTD, hP, jfAppend_nil, jlAppend_nil, jfAppend_nil_left, jlAppend_nil_left]
                    | str s3 =>
                        simp only []
                        simp [raSeg, raCreated, raEntriesAll, paramSeg, dbDisplay, raOptF, raApp, hRD, hDB2, hTD, hP, jfAppend_nil, jlAppend_nil, jfAppend_nil_left, jlAppend_nil_left]
            | int n2 =>
                simp only []
                cases hP : lookupAnn ann "parameters" with
                | none =>
                    simp only []
                    simp [raSeg, raCreated, raEntriesAll, paramSeg, dbDisplay, raOptF, raApp, hRD, hDB2, hTD, hP, jfAppend_nil, jlAppend_nil, jfAppend_nil_left, jlAppend_nil_left]
                | some w2 =>
                    cases w2 with
                    | list vs2 =>
                        simp only []
                        rw [dictSet_deco idv tm a2 ct d64 fn tc _ "parameter" _
                          (by decide) (by decide) (by decide) (by decide) hm2 (hbP _)]
                        simp [raSeg, raCreated, raEntriesAll, paramSeg, dbDisplay, raOptF, raApp, hRD, hDB2, hTD, hP, jfAppend_nil, jlAppend_nil, jfAppend_nil_left, jlAppend_nil_left]
                    | bool b3 =>
                        simp only []
                        simp [raSeg, raCreated, raEntriesAll, paramSeg, dbDisplay, raOptF, raApp, hRD, hDB2, hTD, hP, jfAppend_nil, jlAppend_nil, jfAppend_nil_left, jlAppend_nil_left]
                    | int n3 =>
                        simp only []
                        simp [raSeg, raCreated, raEntriesAll, paramSeg, dbDisplay, raOptF, raApp, hRD, hDB2, hTD, hP, jfAppend_nil, jlAppend_nil, jfAppend_nil_left, jlAppend_nil_left]
                    | float l3 =>
                        simp only []
                        simp [raSeg, raCreated, raEntriesAll, paramSeg, dbDisplay, raOptF, raApp, hRD, hDB2, hTD, hP, jfAppend_nil, jlAppend_nil, jfAppend_nil_left, jlAppend_nil_left]
                    | str s3 =>
                        simp only []
                        simp [raSeg, raCreated, raEntriesAll, paramSeg, dbDisplay, raOptF, raApp, hRD, hDB2, hTD, hP, jfAppend_nil, jlAppend_nil, jfAppend_nil_left, jlAppend_nil_left]
            | float l2 =>
                simp only []
                cases hP : lookupAnn ann "parameters" with
                | none =>
                    simp only []
                    simp [raSeg, raCreated, raEntriesAll, paramSeg, dbDisplay, raOptF, raApp, hRD, hDB2, hTD, hP, jfAppend_nil, jlAppend_nil, jfAppend_nil_left, jlAppend_nil_left]
                | some w2 =>
                    cases w2 with
                    | list vs2 =>
                        simp only []
                        rw [dictSet_deco idv tm a2 ct d64 fn tc _ "parameter" _
                          (by decide) (by decide) (by decide) (by decide) hm2 (hbP _)]
                        simp [raSeg, raCreated, raEntriesAll, paramSeg, dbDisplay, raOptF, raApp, hRD, hDB2, hTD, hP, jfAppend_nil, jlAppend_nil, jfAppend_nil_left, jlAppend_nil_left]
                    | bool b3 =>
                        simp only []
                        simp [raSeg, raCreated, raEntriesAll, paramSeg, dbDisplay, raOptF, raApp, hRD, hDB2, hTD, hP, jfAppend_nil, jlAppend_nil, jfAppend_nil_left, jlAppend_nil_left]
                    | int n3 =>
                        simp only []
                        simp [raSeg, raCreated, raEntriesAll, paramSeg, dbDisplay, raOptF, raApp, hRD, hDB2, hTD, hP, jfAppend_nil, jlAppend_nil, jfAppend_nil_left, jlAppend_nil_left]
                    | float l3 =>
                        simp only []
                        simp [raSeg, raCreated, raEntriesAll, paramSeg, dbDisplay, raOptF, raApp, hRD, hDB2, hTD, hP, jfAppend_nil, jlAppend_nil, jfAppend_nil_left, jlAppend_nil_left]
                    | str s3 =>
                        simp only []
                        simp [raSeg, raCreated, raEntriesAll, paramSeg, dbDisplay, raOptF, raApp, hRD, hDB2, hTD, hP, jfAppend_nil, jlAppend_nil, jfAppend_nil_left, jlAppend_nil_left]
            | str s2 =>
                simp only []
                cases hP : lookupAnn ann "parameters" with
                | none =>
                    simp only []
                    simp [raSeg, raCreated, raEntriesAll, paramSeg, dbDisplay, raOptF, raApp, hRD, hDB2, hTD, hP, jfAppend_nil, jlAppend_nil, jfAppend_nil_left, jlAppend_nil_left]
                | some w2 =>
                    cases w2 with
                    | list vs2 =>
                        simp only []
                        rw [dictSet_deco idv tm a2 ct d64 fn tc _ "parameter" _
                          (by decide) (by decide) (by decide) (by decide) hm2 (hbP _)]
                        simp [raSeg, raCreated, raEntriesAll, paramSeg, dbDisplay, raOptF, raApp, hRD, hDB2, hTD, hP, jfAppend_nil, jlAppend_nil, jfAppend_nil_left, jlAppend_nil_left]
                    | bool b3 =>
                        simp only []
                        simp [raSeg, raCreated, raEntriesAll, paramSeg, dbDisplay, raOptF, raApp, hRD, hDB2, hTD, hP, jfAppend_nil, jlAppend_nil, jfAppend_nil_left, jlAppend_nil_left]
                    | int n3 =>
                        simp only []
                        simp [raSeg, raCreated, raEntriesAll, paramSeg, dbDisplay, raOptF, raApp, hRD, hDB2, hTD, hP, jfAppend_nil, jlAppend_nil, jfAppend_nil_left, jlAppend_nil_left]
                    | float l3 =>
                        simp only []
                        simp [raSeg, raCreated, raEntriesAll, paramSeg, dbDisplay, raOptF, raApp, hRD, hDB2, hTD, hP, jfAppend_nil, jlAppend_nil, jfAppend_nil_left, jlAppend_nil_left]
                    | str s3 =>
                        simp only []
                        simp [raSeg, raCreated, raEntriesAll, paramSeg, dbDisplay, raOptF, raApp, hRD, hDB2, hTD, hP, jfAppend_nil, jlAppend_nil, jfAppend_nil_left, jlAppend_nil_left]

theorem dialectStep_deco (ann : List (String × Value)) (idv tm : String) (a2 : JFields)
    (d64 fn tc : String) (B : JFields) (hm : containsKey a2 "content" = false) :
    dialectStep ann (deco idv tm a2 "application/sql" d64 fn tc B)
      = (match dialectRes ann with
         | .error e => .error e
         | .ok ct2 => .ok (deco idv tm a2 ct2 d64 fn tc B)) := by
  unfold dialectStep dialectRes
  cases hlk : lookupAnn ann "sqlDialect" with
  | none => rfl
  | some v =>
      by_cases hv : valueTruthy v = true
      · simp only [if_pos hv]
        cases v with
        | str s =>
            simp only []
            rw [modifyVal_deco_content idv tm a2 "application/sql" d64 fn tc B _ hm]
        | bool b => rfl
        | int n => rfl
        | float l => rfl
        | list vs => rfl
      · simp only [if_neg hv]

theorem containsKey_P_name (ann : List (String × Value)) (jopt : Option JSON) :
    containsKey (postMapped ann jopt ++ extSeg ann ++ raSeg ann ++ paramSeg ann) "name"
      = (strSeg ann "name").isSome := by
  simp [postMapped, containsKey_append, containsKey_segOpt,
    containsKey_extSeg, containsKey_raSeg, containsKey_paramSeg]

theorem containsKey_P_title (ann : List (String × Value)) (jopt : Option JSON) :
    containsKey (postMapped ann jopt ++ extSeg ann ++ raSeg ann ++ paramSeg ann) "title"
      = (strSeg ann "title").isSome := by
  simp [postMapped, containsKey_append, containsKey_segOpt,
    containsKey_extSeg, containsKey_raSeg, containsKey_paramSeg]

theorem dictGet_P_title (ann : List (String × Value)) (jopt : Option JSON) :
    dictGet (postMapped ann jopt ++ extSeg ann ++ raSeg ann ++ paramSeg ann) "title"
      = strSeg ann "title" := by
  cases hT : strSeg ann "title" with
  | none =>
      simp [postMapped, dictGet_append, dictGet_segOpt, dictGet_extSeg, dictGet_raSeg,
        dictGet_paramSeg, hT]
  | some j =>
      simp [postMapped, dictGet_append, dictGet_segOpt, dictGet_extSeg, dictGet_raSeg,
        dictGet_paramSeg, hT]

theorem nameStep_deco (ann : List (String × Value)) (jopt : Option JSON)
    (idv tm ct d64 fn tc : String) :
    nameStep (deco idv tm (midF ann) ct d64 fn tc
        (postMapped ann jopt ++ extSeg ann ++ raSeg ann ++ paramSeg ann))
      = deco idv tm (midF ann) ct d64 fn tc
          (postMapped ann jopt ++ extSeg ann ++ raSeg ann ++ paramSeg ann ++ nameSeg ann) := by
  have hckn : containsKey (deco idv tm (midF ann) ct d64 fn tc
      (postMapped ann jopt ++ extSeg ann ++ raSeg ann ++ paramSeg ann)) "name"
      = (strSeg ann "name").isSome := by
    rw [containsKey_deco _ _ _ _ _ _ _ _ _ (by decide) (by decide) (by decide) (by decide)]
    rw [containsKey_P_name]
    simp [midF, containsKey]
  have hckt : containsKey (deco idv tm (midF ann) ct d64 fn tc
      (postMapped ann jopt ++ extSeg ann ++ raSeg ann ++ paramSeg ann)) "title"
      = (strSeg ann "title").isSome := by
    rw [containsKey_deco _ _ _ _ _ _ _ _ _ (by decide) (by decide) (by decide) (by decide)]
    rw [containsKey_P_title]
    simp [midF, containsKey]
  have hdgt : dictGet (deco idv tm (midF ann) ct d64 fn tc
      (postMapped ann jopt ++ extSeg ann ++ raSeg ann ++ paramSeg ann)) "title"
      = strSeg ann "title" := by
    rw [dictGet_deco _ _ _ _ _ _ _ _ _ (by decide) (by decide) (by decide) (by decide)]
    rw [show dictGet (midF ann) "title" = none from by simp [midF, dictGet]]
    exact dictGet_P_title ann jopt
  unfold nameStep
  rw [hckn, hckt, hdgt]
  cases hN : strSeg ann "name" with
  | some jn =>
      simp [nameSeg, hN, jfAppend_nil]
  | none =>
      cases hT : strSeg ann "title" with
      | none => simp [nameSeg, hN, hT, jfAppend_nil]
      | some j =>
          obtain ⟨t, rfl⟩ := strSeg_str ann "title" j hT
          simp only [Option.isSome_none, Option.isSome_some, Bool.not_false, Bool.true_and]
          simp only [if_true]
          rw [dictSet_deco idv tm (midF ann) ct d64 fn tc _ "name" _
            (by decide) (by decide) (by decide) (by decide)
            (by simp [midF, containsKey])
            (by rw [containsKey_P_name, hN]; rfl)]
          simp [nameSeg, hN, hT]

theorem baseFields_deco (ann : List (String × Value)) (d64 idv fn tm tc : String) :
    baseFields ann d64 idv fn tm tc
      = deco idv tm (mid0 ann) "application/sql" d64 fn tc JFields.nil := rfl

set_option maxHeartbeats 2000000 in
/-- The assembled document in normal form: `build_library_from_content` is the
cleaned decomposition with the final content type and all appended fields, the
two failure cases being the jurisdiction and sqlDialect AttributeErrors. -/
theorem build_eq (sqlContent : String) (ann : List (String × Value))
    (libraryId filename tm tc : String) :
    buildLibraryFromContent sqlContent ann libraryId filename tm tc
      = (match jurisdictionSeg ann, dialectRes ann with
         | .error e, _ => .error e
         | .ok _, .error e => .error e
         | .ok jopt, .ok ct2 =>
             .ok (cleanJ (.obj (deco libraryId tm (midF ann) ct2
               (base64OfString sqlContent) filename tc (postAll ann jopt))))) := by
  unfold buildLibraryFromContent
  simp only []
  rw [baseFields_deco]
  rw [applyMappings_unfold]
  cases hj : jurisdictionSeg ann with
  | error e => rfl
  | ok jopt =>
      show Except.bind (dialectStep ann (addMetadata ann (extStep ann
          (bigApply ann jopt (deco libraryId tm (mid0 ann) "application/sql"
            (base64OfString sqlContent) filename tc JFields.nil)))))
          (fun f4 => Except.ok (cleanJ (JSON.obj (nameStep f4)))) = _
      rw [bigApply_deco]
      rw [extStep_deco ann libraryId tm (midF ann) "application/sql"
        (base64OfString sqlContent) filename tc (postMapped ann jopt)
        (by simp [midF, containsKey])
        (by simp [postMapped, containsKey_append, containsKey_segOpt])]
      rw [addMetadata_deco ann libraryId tm (midF ann) "application/sql"
        (base64OfString sqlContent) filename tc (postMapped ann jopt ++ extSeg ann)
        (by simp [midF, containsKey])
        (by simp [midF, containsKey])
        (by simp [containsKey_append, postMapped, containsKey_segOpt, containsKey_extSeg])
        (by simp [containsKey_append, postMapped, containsKey_segOpt, containsKey_extSeg])]
      rw [dialectStep_deco ann libraryId tm (midF ann)
        (base64OfString sqlContent) filename tc
        (postMapped ann jopt ++ extSeg ann ++ raSeg ann ++ paramSeg ann)
        (by simp [midF, containsKey])]
      cases hd : dialectRes ann with
      | error e => rfl
      | ok ct2 =>
          show Except.ok (cleanJ (JSON.obj (nameStep (deco libraryId tm (midF ann) ct2
            (base64OfString sqlContent) filename tc
            (postMapped ann jopt ++ extSeg ann ++ raSeg ann ++ paramSeg ann))))) = _
          rw [nameStep_deco]
          rfl

/-! ## Claim C4: totality and failure of the builder -/

theorem jurisdictionSeg_ok (ann : List (String × Value))
    (h2 : (match lookupAnn ann "jurisdiction" with
           | some (.list vs) => jurOkV vs
           | _ => true) = true) :
    ∃ o, jurisdictionSeg ann = .ok o := by
  unfold jurisdictionSeg
  cases hlk : lookupAnn ann "jurisdiction" with
  | none => exact ⟨none, rfl⟩
  | some v =>
      rw [hlk] at h2
      cases v with
      | list vs =>
          simp only [] at h2
          obtain ⟨cs, hcs⟩ := jurCodes_ok vs h2
          have hfj : formatJurisdiction (Value.list vs)
              = .ok (JList.ofList ((cs.filter (fun j => j ≠ "")).map jurisdictionConcept)) := by
            show (jurisdictionCodesOfVL vs >>= fun codes =>
              Except.ok (JList.ofList ((codes.filter (fun j => j ≠ "")).map jurisdictionConcept)))
                = _
            rw [hcs]
            rfl
          simp only []
          rw [if_pos (show (isStrV (Value.list vs) || isListV (Value.list vs)) = true from rfl)]
          rw [hfj]
          cases hr : JList.ofList ((cs.filter (fun j => j ≠ "")).map jurisdictionConcept) with
          | nil => exact ⟨none, rfl⟩
          | cons x xs => exact ⟨some (.arr (.cons x xs)), rfl⟩
      | str s =>
          simp only []
          rw [if_pos (show (isStrV (Value.str s) || isListV (Value.str s)) = true from rfl)]
          have hfj : formatJurisdiction (Value.str s)
              = .ok (JList.ofList (((jurisdictionCodesOfStr s).filter
                  (fun j => j ≠ "")).map jurisdictionConcept)) := rfl
          rw [hfj]
          cases hr : JList.ofList (((jurisdictionCodesOfStr s).filter
              (fun j => j ≠ "")).map jurisdictionConcept) with
          | nil => exact ⟨none, rfl⟩
          | cons x xs => exact ⟨some (.arr (.cons x xs)), rfl⟩
      | bool b => simp only []; rw [if_neg (by simp [isStrV, isListV])]; exact ⟨none, rfl⟩
      | int n => simp only []; rw [if_neg (by simp [isStrV, isListV])]; exact ⟨none, rfl⟩
      | float l => simp only []; rw [if_neg (by simp [isStrV, isListV])]; exact ⟨none, rfl⟩

theorem dialectRes_ok (ann : List (String × Value))
    (h1 : (match lookupAnn ann "sqlDialect" with
           | some v => isStrV v || !valueTruthy v
           | none => true) = true) :
    ∃ ct2, dialectRes ann = .ok ct2 := by
  unfold dialectRes
  cases hlk : lookupAnn ann "sqlDialect" with
  | none => exact ⟨"application/sql", rfl⟩
  | some v =>
      rw [hlk] at h1
      simp only [] at h1 ⊢
      by_cases hv : valueTruthy v = true
      · rw [if_pos hv]
        cases v with
        | str s => exact ⟨_, rfl⟩
        | bool b =>
            simp only [isStrV, Bool.false_or, hv] at h1
            exact absurd h1 (by decide)
        | int n =>
            simp only [isStrV, Bool.false_or, hv] at h1
            exact absurd h1 (by decide)
        | float l =>
            simp only [isStrV, Bool.false_or, hv] at h1
            exact absurd h1 (by decide)
        | list ws =>
            simp only [isStrV, Bool.false_or, hv] at h1
            exact absurd h1 (by decide)
      · rw [if_neg hv]
        exact ⟨"application/sql", rfl⟩

/-- C4 (corrected): the builder returns normally whenever the annotation map
passes the no-raise guard: sqlDialect absent, falsy or a string, and any
jurisdiction list free of truthy non-string entries.  (The original claim of
unconditional totality is refuted by `claim4_counterexample`.) -/
theorem claim4_builder_total (sqlContent : String) (ann : List (String × Value))
    (libraryId filename tm tc : String) (h : annNoRaise ann = true) :
    ∃ d, buildLibraryFromContent sqlContent ann libraryId filename tm tc = .ok d := by
  rw [build_eq]
  simp only [annNoRaise, Bool.and_eq_true] at h
  obtain ⟨h1, h2⟩ := h
  obtain ⟨o, ho⟩ := jurisdictionSeg_ok ann h2
  obtain ⟨ct2, hct⟩ := dialectRes_ok ann h1
  rw [ho, hct]
  exact ⟨_, rfl⟩

/-- C4 counterexample: two sqlDialect annotations merge to a list value, on
which the builder's `.strip()` raises an AttributeError instead of degrading
to an omitted field. -/
theorem claim4_counterexample :
    buildParsingAnns "-- @sqlDialect: a\n-- @sqlDialect: b" "lib1" "q.sql" "t1" "t2"
      = .error "AttributeError: strip on non-string sqlDialect" := by
  rfl

theorem claim4_witness :
    annNoRaise [("sqlDialect", Value.str "Hive"),
      ("jurisdiction", Value.list (VList.cons (Value.str "US") VList.nil))] = true
    ∧ ∃ d, buildLibraryFromContent "SELECT 1"
        [("sqlDialect", Value.str "Hive"),
         ("jurisdiction", Value.list (VList.cons (Value.str "US") VList.nil))]
        "L1" "f.sql" "t1" "t2" = .ok d :=
  ⟨by rfl,
   claim4_builder_total "SELECT 1"
     [("sqlDialect", Value.str "Hive"),
      ("jurisdiction", Value.list (VList.cons (Value.str "US") VList.nil))]
     "L1" "f.sql" "t1" "t2" (by rfl)⟩

/-! ## Claim C9: name derivation -/

theorem dictGet_cleanF_skip (k2 k : String) (v : JSON) (fs : JFields) (h : ¬(k2 = k)) :
    dictGet (cleanF (.cons k2 v fs)) k = dictGet (cleanF fs) k := by
  cases v with
  | obj gs =>
      by_cases he : isEmptyJ (.obj (cleanF gs)) = true <;> simp [cleanF, he, dictGet, h]
  | arr xs =>
      cases hc : cleanL xs with
      | nil => simp [cleanF, hc]
      | cons y ys => simp [cleanF, hc, dictGet, h]
  | null => by_cases he : isEmptyJ JSON.null = true <;> simp [cleanF, he, dictGet, h]
  | bool b => by_cases he : isEmptyJ (JSON.bool b) = true <;> simp [cleanF, he, dictGet, h]
  | int n => by_cases he : isEmptyJ (JSON.int n) = true <;> simp [cleanF, he, dictGet, h]
  | float l => by_cases he : isEmptyJ (JSON.float l) = true <;> simp [cleanF, he, dictGet, h]
  | str s => by_cases he : isEmptyJ (JSON.str s) = true <;> simp [cleanF, he, dictGet, h]

theorem cleanF_nil : cleanF JFields.nil = JFields.nil := rfl

theorem dictGet_cleanF_segOpt (k2 : String) (o : Option JSON) (k : String)
    (h : ¬(k2 = k)) : dictGet (cleanF (segOpt k2 o)) k = none := by
  cases o with
  | none => rfl
  | some v =>
      rw [show segOpt k2 (some v) = JFields.cons k2 v JFields.nil from rfl]
      rw [dictGet_cleanF_skip k2 k v JFields.nil h]
      rfl

theorem dictGet_cleanF_extSeg (ann : List (String × Value)) (k : String)
    (h : ¬("extension" = k)) : dictGet (cleanF (extSeg ann)) k = none := by
  unfold extSeg
  cases extensionsOf ann with
  | nil => rfl
  | cons x xs =>
      rw [dictGet_cleanF_skip _ _ _ _ h]
      rfl

theorem dictGet_cleanF_raSeg (ann : List (String × Value)) (k : String)
    (h : ¬("relatedArtifact" = k)) : dictGet (cleanF (raSeg ann)) k = none := by
  unfold raSeg
  split
  · rw [dictGet_cleanF_skip _ _ _ _ h]
    rfl
  · rfl

theorem dictGet_cleanF_paramSeg (ann : List (String × Value)) (k : String)
    (h : ¬("parameter" = k)) : dictGet (cleanF (paramSeg ann)) k = none := by
  unfold paramSeg
  cases hP : lookupAnn ann "parameters" with
  | none => rfl
  | some w =>
      cases w with
      | list vs =>
          simp only []
          rw [dictGet_cleanF_skip _ _ _ _ h]
          rfl
      | bool b => rfl
      | int n => rfl
      | float l => rfl
      | str s => rfl

theorem dictGet_cleanF_strCons (k : String) (s : String) (fs : JFields) :
    dictGet (cleanF (.cons k (.str s) fs)) k
      = (if pyStrip s = "" then dictGet (cleanF fs) k else some (.str s)) := by
  by_cases hemp : pyStrip s = "" <;> simp [cleanF, isEmptyJ, hemp, dictGet]

theorem topField_cleanObj (fs : JFields) (k : String) :
    topField (cleanJ (.obj fs)) k = dictGet (cleanF fs) k := rfl

theorem dictGet_cleanF_appendR (X Y : JFields) (k : String)
    (h : dictGet (cleanF Y) k = none) :
    dictGet (cleanF (X ++ Y)) k = dictGet (cleanF X) k := by
  rw [cleanF_append, dictGet_append, h]
  cases dictGet (cleanF X) k <;> rfl

theorem dictGet_cleanF_appendL (X Y : JFields) (k : String)
    (h : dictGet (cleanF X) k = none) :
    dictGet (cleanF (X ++ Y)) k = dictGet (cleanF Y) k := by
  rw [cleanF_append, dictGet_append, h]

theorem dictGet_cleanF_postAll_name (ann : List (String × Value)) (jopt : Option JSON) :
    dictGet (cleanF (postAll ann jopt)) "name"
      = (match strSeg ann "name" with
         | some (.str s) => if pyStrip s = "" then none else some (.str s)
         | _ =>
            match strSeg ann "title" with
            | some (.str t) =>
                if pyStrip (camelCaseTitle t) = "" then none
                else some (.str (camelCaseTitle t))
            | _ => none) := by
  unfold postAll
  cases hS : strSeg ann "name" with
  | some j =>
      obtain ⟨s, rfl⟩ := strSeg_str ann "name" j hS
      rw [dictGet_cleanF_appendR _ _ _ (by simp [nameSeg, hS, cleanF_nil, dictGet])]
      rw [dictGet_cleanF_appendR _ _ _ (dictGet_cleanF_paramSeg ann _ (by decide))]
      rw [dictGet_cleanF_appendR _ _ _ (dictGet_cleanF_raSeg ann _ (by decide))]
      rw [dictGet_cleanF_appendR _ _ _ (dictGet_cleanF_extSeg ann _ (by decide))]
      unfold postMapped
      rw [dictGet_cleanF_appendR _ _ _ (dictGet_cleanF_segOpt "effectivePeriod" _ "name" (by decide))]
      rw [dictGet_cleanF_appendR _ _ _ (dictGet_cleanF_segOpt "lastReviewDate" _ "name" (by decide))]
      rw [dictGet_cleanF_appendR _ _ _ (dictGet_cleanF_segOpt "approvalDate" _ "name" (by decide))]
      rw [dictGet_cleanF_appendR _ _ _ (dictGet_cleanF_segOpt "jurisdiction" _ "name" (by decide))]
      rw [dictGet_cleanF_appendR _ _ _ (dictGet_cleanF_segOpt "experimental" _ "name" (by decide))]
      rw [dictGet_cleanF_appendR _ _ _ (dictGet_cleanF_segOpt "subject" _ "name" (by decide))]
      rw [dictGet_cleanF_appendR _ _ _ (dictGet_cleanF_segOpt "date" _ "name" (by decide))]
      rw [dictGet_cleanF_appendR _ _ _ (dictGet_cleanF_segOpt "identifier" _ "name" (by decide))]
      rw [dictGet_cleanF_appendR _ _ _ (dictGet_cleanF_segOpt "url" _ "name" (by decide))]
      rw [dictGet_cleanF_appendR _ _ _ (dictGet_cleanF_segOpt "usage" _ "name" (by decide))]
      rw [dictGet_cleanF_appendR _ _ _ (dictGet_cleanF_segOpt "purpose" _ "name" (by decide))]
      rw [dictGet_cleanF_appendR _ _ _ (dictGet_cleanF_segOpt "copyright" _ "name" (by decide))]
      rw [dictGet_cleanF_appendR _ _ _ (dictGet_cleanF_segOpt "contact" _ "name" (by decide))]
      rw [dictGet_cleanF_appendR _ _ _ (dictGet_cleanF_segOpt "publisher" _ "name" (by decide))]
      rw [dictGet_cleanF_appendR _ _ _ (dictGet_cleanF_segOpt "author" _ "name" (by decide))]
      rw [dictGet_cleanF_appendR _ _ _ (dictGet_cleanF_segOpt "version" _ "name" (by decide))]
      rw [dictGet_cleanF_appendR _ _ _ (dictGet_cleanF_segOpt "description" _ "name" (by decide))]
      rw [dictGet_cleanF_appendL _ _ _ (dictGet_cleanF_segOpt "title" _ "name" (by decide))]
      rw [hS]
      rw [show segOpt "name" (some (JSON.str s)) = JFields.cons "name" (JSON.str s) JFields.nil from rfl]
      rw [dictGet_cleanF_strCons, cleanF_nil]
      by_cases hemp : pyStrip s = "" <;> simp [hemp, dictGet]
  | none =>
      have hX : dictGet (cleanF (postMapped ann jopt ++ extSeg ann ++ raSeg ann
          ++ paramSeg ann)) "name" = none := by
        rw [dictGet_cleanF_appendR _ _ _ (dictGet_cleanF_paramSeg ann _ (by decide))]
        rw [dictGet_cleanF_appendR _ _ _ (dictGet_cleanF_raSeg ann _ (by decide))]
        rw [dictGet_cleanF_appendR _ _ _ (dictGet_cleanF_extSeg ann _ (by decide))]
        unfold postMapped
        rw [dictGet_cleanF_appendR _ _ _ (dictGet_cleanF_segOpt "effectivePeriod" _ "name" (by decide))]
        rw [dictGet_cleanF_appendR _ _ _ (dictGet_cleanF_segOpt "lastReviewDate" _ "name" (by decide))]
        rw [dictGet_cleanF_appendR _ _ _ (dictGet_cleanF_segOpt "approvalDate" _ "name" (by decide))]
        rw [dictGet_cleanF_appendR _ _ _ (dictGet_cleanF_segOpt "jurisdiction" _ "name" (by decide))]
        rw [dictGet_cleanF_appendR _ _ _ (dictGet_cleanF_segOpt "experimental" _ "name" (by decide))]
        rw [dictGet_cleanF_appendR _ _ _ (dictGet_cleanF_segOpt "subject" _ "name" (by decide))]
        rw [dictGet_cleanF_appendR _ _ _ (dictGet_cleanF_segOpt "date" _ "name" (by decide))]
        rw [dictGet_cleanF_appendR _ _ _ (dictGet_cleanF_segOpt "identifier" _ "name" (by decide))]
        rw [dictGet_cleanF_appendR _ _ _ (dictGet_cleanF_segOpt "url" _ "name" (by decide))]
        rw [dictGet_cleanF_appendR _ _ _ (dictGet_cleanF_segOpt "usage" _ "name" (by decide))]
        rw [dictGet_cleanF_appendR _ _ _ (dictGet_cleanF_segOpt "purpose" _ "name" (by decide))]
        rw [dictGet_cleanF_appendR _ _ _ (dictGet_cleanF_segOpt "copyright" _ "name" (by decide))]
        rw [dictGet_cleanF_appendR _ _ _ (dictGet_cleanF_segOpt "contact" _ "name" (by decide))]
        rw [dictGet_cleanF_appendR _ _ _ (dictGet_cleanF_segOpt "publisher" _ "name" (by decide))]
        rw [dictGet_cleanF_appendR _ _ _ (dictGet_cleanF_segOpt "author" _ "name" (by decide))]
        rw [dictGet_cleanF_appendR _ _ _ (dictGet_cleanF_segOpt "version" _ "name" (by decide))]
        rw [dictGet_cleanF_appendR _ _ _ (dictGet_cleanF_segOpt "description" _ "name" (by decide))]
        rw [dictGet_cleanF_appendL _ _ _ (dictGet_cleanF_segOpt "title" _ "name" (by decide))]
        rw [hS]
        rfl
      rw [dictGet_cleanF_appendL _ _ _ hX]
      cases hT : strSeg ann "title" with
      | none => simp [nameSeg, hS, hT, cleanF_nil, dictGet]
      | some j =>
          obtain ⟨t, rfl⟩ := strSeg_str ann "title" j hT
          rw [show nameSeg ann = JFields.cons "name" (JSON.str (camelCaseTitle t)) JFields.nil from by
            simp [nameSeg, hS, hT]]
          rw [dictGet_cleanF_strCons, cleanF_nil]
          by_cases hde : pyStrip (camelCaseTitle t) = "" <;> simp [hde, dictGet, hT]

set_option maxHeartbeats 1000000 in
/-- C9 (corrected): only a string-valued name annotation suppresses
derivation.  On a successful build, the output's top-level name is: the name
annotation's string value when the mapping set one (pruned when blank);
otherwise the camel-cased title when a string title annotation exists (pruned
when blank); otherwise absent.  A non-string name annotation does not
suppress derivation (see the counterexample). -/
theorem claim9_name_derivation (sqlContent : String) (ann : List (String × Value))
    (libraryId filename tm tc : String) (d : JSON)
    (hb : buildLibraryFromContent sqlContent ann libraryId filename tm tc = .ok d) :
    topField d "name"
      = (match strSeg ann "name" with
         | some (.str s) => if pyStrip s = "" then none else some (.str s)
         | _ =>
            match strSeg ann "title" with
            | some (.str t) =>
                if pyStrip (camelCaseTitle t) = "" then none
                else some (.str (camelCaseTitle t))
            | _ => none) := by
  rw [build_eq] at hb
  cases hj : jurisdictionSeg ann <;> rw [hj] at hb
  case error e => simp at hb
  case ok jopt =>
  cases hd : dialectRes ann <;> rw [hd] at hb
  case error e => simp at hb
  case ok ct2 =>
  simp only [Except.ok.injEq] at hb
  subst hb
  rw [topField_cleanObj]
  unfold deco
  rw [dictGet_cleanF_skip _ _ _ _ (by decide), dictGet_cleanF_skip _ _ _ _ (by decide),
    dictGet_cleanF_skip _ _ _ _ (by decide)]
  rw [cleanF_append, dictGet_append]
  rw [show dictGet (cleanF (midF ann)) "name" = none from by
    unfold midF
    rw [dictGet_cleanF_skip _ _ _ _ (by decide), dictGet_cleanF_skip _ _ _ _ (by decide)]
    rfl]
  simp only []
  rw [dictGet_cleanF_skip _ _ _ _ (by decide)]
  exact dictGet_cleanF_postAll_name ann jopt

/-- C9 counterexample: a non-string name annotation (int 123) does not
suppress derivation; with title "Ab Cd" the output still derives name
"AbCd". -/
theorem claim9_counterexample :
    ∃ d, buildLibraryFromContent "SELECT 1"
        [("name", Value.int 123), ("title", Value.str "Ab Cd")]
        "L1" "f.sql" "t1" "t2" = .ok d
      ∧ topField d "name" = some (.str "AbCd") :=
  ⟨_, rfl, rfl⟩

theorem claim9_witness : topField
    (match buildLibraryFromContent "SELECT 1"
        [("title", Value.str "Sql-On-Fhir Integration Library")]
        "L1" "f.sql" "t1" "t2" with
     | .ok d => d
     | .error _ => JSON.null) "name" = some (.str "SqlOnFhirIntegrationLibrary") := by
  have h := claim9_name_derivation "SELECT 1"
    [("title", Value.str "Sql-On-Fhir Integration Library")]
    "L1" "f.sql" "t1" "t2"
    (match buildLibraryFromContent "SELECT 1"
        [("title", Value.str "Sql-On-Fhir Integration Library")]
        "L1" "f.sql" "t1" "t2" with
     | .ok d => d
     | .error _ => JSON.null)
    (by rfl)
  rw [h]
  rfl

/-! ## Claim C3: determinism modulo timestamps -/

theorem stripL_id_of_ends (cs : List Char) (c1 c2 : Char) (t1 t2 : List Char)
    (h1 : cs = c1 :: t1) (h2 : cs.reverse = c2 :: t2)
    (hc1 : isPySpace c1 = false) (hc2 : isPySpace c2 = false) :
    stripL cs = cs := by
  unfold stripL
  rw [h1, List.dropWhile_cons, hc1]
  simp only [Bool.false_eq_true, if_false]
  rw [← h1, h2, List.dropWhile_cons, hc2]
  simp only [Bool.false_eq_true, if_false]
  rw [← h2, List.reverse_reverse]

theorem pyStrip_app_nonblank (X : String) :
    ¬(pyStrip ("application/" ++ X ++ "+sql") = "") := by
  intro h
  have hcons : ("application/" ++ X ++ "+sql").data
      = 'a' :: ("pplication/".data ++ X.data ++ "+sql".data) := by
    rw [String.data_append, String.data_append]
    rfl
  have hrev : (("application/" ++ X ++ "+sql").data).reverse
      = 'l' :: ("qs+".data ++ ("application/" ++ X).data.reverse) := by
    rw [String.data_append]
    rw [List.reverse_append]
    rfl
  have hs := stripL_id_of_ends _ 'a' 'l' _ _ hcons hrev (by decide) (by decide)
  unfold pyStrip at h
  rw [hs, hcons] at h
  exact List.noConfusion (congrArg String.data h)

theorem dialectRes_nonblank (ann : List (String × Value)) (ct2 : String)
    (h : dialectRes ann = .ok ct2) : ¬(pyStrip ct2 = "") := by
  unfold dialectRes at h
  cases hlk : lookupAnn ann "sqlDialect" <;> rw [hlk] at h
  case none =>
      injection h with h2
      rw [← h2]
      decide
  case some v =>
      simp only [] at h
      by_cases hv : valueTruthy v = true
      · rw [if_pos hv] at h
        cases v with
        | str s =>
            injection h with h2
            rw [← h2]
            exact pyStrip_app_nonblank _
        | bool b => exact Except.noConfusion h
        | int n => exact Except.noConfusion h
        | float l => exact Except.noConfusion h
        | list vs => exact Except.noConfusion h
      · rw [if_neg hv] at h
        injection h with h2
        rw [← h2]
        decide

theorem stripClean_cons_eq (k : String) (v : JSON) (fs1 fs2 : JFields)
    (h : stripFields (cleanF fs1) = stripFields (cleanF fs2)) :
    stripFields (cleanF (.cons k v fs1)) = stripFields (cleanF (.cons k v fs2)) := by
  cases v with
  | obj gs =>
      by_cases he : isEmptyJ (.obj (cleanF gs)) = true <;>
        simp [cleanF, he, stripFields, h]
  | arr xs =>
      cases hc : cleanL xs with
      | nil => simp [cleanF, hc, h]
      | cons y ys => simp [cleanF, hc, stripFields, h]
  | null => by_cases he : isEmptyJ JSON.null = true <;> simp [cleanF, he, stripFields, h]
  | bool b => by_cases he : isEmptyJ (JSON.bool b) = true <;> simp [cleanF, he, stripFields, h]
  | int n => by_cases he : isEmptyJ (JSON.int n) = true <;> simp [cleanF, he, stripFields, h]
  | float l => by_cases he : isEmptyJ (JSON.float l) = true <;> simp [cleanF, he, stripFields, h]
  | str s => by_cases he : isEmptyJ (JSON.str s) = true <;> simp [cleanF, he, stripFields, h]

theorem stripClean_meta (tm tm2 : String) (fs1 fs2 : JFields)
    (h : stripFields (cleanF fs1) = stripFields (cleanF fs2)) :
    stripFields (cleanF (.cons "meta" (metaObj tm) fs1))
      = stripFields (cleanF (.cons "meta" (metaObj tm2) fs2)) := by
  have hv1 : isEmptyJ (JSON.str "1") = false := by decide
  by_cases h1 : pyStrip tm = "" <;> by_cases h2 : pyStrip tm2 = "" <;>
    simp [metaObj, cleanF, isEmptyJ, isEmptyF, hv1, h1, h2, stripFields, stripField,
      removeKey, h]

theorem attStrip (ct d64 fn tc : String) :
    removeKey (cleanF (attachFields ct d64 fn tc)) "creation"
      = cleanF (.cons "contentType" (.str ct) (.cons "data" (.str d64)
          (.cons "title" (.str fn) .nil))) := by
  by_cases h1 : pyStrip ct = "" <;> by_cases h2 : pyStrip d64 = "" <;>
    by_cases h3 : pyStrip fn = "" <;> by_cases h4 : pyStrip tc = "" <;>
      simp [attachFields, JFields.ofList, cleanF, isEmptyJ, removeKey, h1, h2, h3, h4]

theorem cleanAtt_nonempty (ct d64 fn tc : String) (hct : ¬(pyStrip ct = "")) :
    isEmptyF (cleanF (attachFields ct d64 fn tc)) = false := by
  simp [attachFields, JFields.ofList, cleanF, isEmptyJ, isEmptyF, hct]

theorem stripClean_content (ct d64 fn tc tc2 : String) (b1 b2 : JFields)
    (hct : ¬(pyStrip ct = ""))
    (h : stripFields (cleanF b1) = stripFields (cleanF b2)) :
    stripFields (cleanF (.cons "content" (contentJ ct d64 fn tc) b1))
      = stripFields (cleanF (.cons "content" (contentJ ct d64 fn tc2) b2)) := by
  have hne : ∀ tcx, isEmptyJ (JSON.obj (cleanF (attachFields ct d64 fn tcx))) = false := by
    intro tcx
    simp only [isEmptyJ]
    exact cleanAtt_nonempty ct d64 fn tcx hct
  have hcl : ∀ tcx, cleanL (JList.cons (.obj (attachFields ct d64 fn tcx)) .nil)
      = JList.cons (.obj (cleanF (attachFields ct d64 fn tcx))) .nil := by
    intro tcx
    simp only [cleanL]
    rw [hne tcx]
    simp
  have hstep : ∀ tcx bx, cleanF (.cons "content" (contentJ ct d64 fn tcx) bx)
      = .cons "content" (.arr (JList.cons (.obj (cleanF (attachFields ct d64 fn tcx))) .nil))
          (cleanF bx) := by
    intro tcx bx
    simp only [contentJ, cleanF]
    rw [hcl tcx]
    simp [cleanF, attachFields, JFields.ofList]
  rw [hstep tc b1, hstep tc2 b2]
  simp only [stripFields]
  rw [h]
  simp [stripField, stripItems, stripAtt, attStrip]

theorem stripClean_deco (idv tm tm2 : String) (a2 : JFields)
    (ct d64 fn tc tc2 : String) (b : JFields) (hct : ¬(pyStrip ct = "")) :
    stripTimestamps (cleanJ (.obj (deco idv tm a2 ct d64 fn tc b)))
      = stripTimestamps (cleanJ (.obj (deco idv tm2 a2 ct d64 fn tc2 b))) := by
  show JSON.obj (stripFields (cleanF (deco idv tm a2 ct d64 fn tc b)))
      = JSON.obj (stripFields (cleanF (deco idv tm2 a2 ct d64 fn tc2 b)))
  refine congrArg JSON.obj ?_
  unfold deco
  apply stripClean_cons_eq
  apply stripClean_cons_eq
  apply stripClean_meta
  rw [cleanF_append, cleanF_append, stripFields_append, stripFields_append]
  rw [stripClean_content ct d64 fn tc tc2 b b hct rfl]

/-- C3 (corrected): the builder is deterministic in its explicit inputs up to
the two clock readings: for a fixed (sql_content, annotations, library_id,
filename), any two successful invocations agree after erasing
`meta.lastUpdated` and the attachment `creation` timestamps.  (Bit-for-bit
determinism is refuted by `claim3_counterexample`: the clock is an implicit
input.) -/
theorem claim3_deterministic_mod_timestamps (sqlContent : String)
    (ann : List (String × Value)) (libraryId filename tm tc tm2 tc2 : String)
    (d d2 : JSON)
    (h1 : buildLibraryFromContent sqlContent ann libraryId filename tm tc = .ok d)
    (h2 : buildLibraryFromContent sqlContent ann libraryId filename tm2 tc2 = .ok d2) :
    stripTimestamps d = stripTimestamps d2 := by
  rw [build_eq] at h1 h2
  cases hj : jurisdictionSeg ann <;> rw [hj] at h1 h2
  case error e => simp at h1
  case ok jopt =>
  cases hd : dialectRes ann <;> rw [hd] at h1 h2
  case error e => simp at h1
  case ok ct2 =>
  simp only [Except.ok.injEq] at h1 h2
  subst h1
  subst h2
  exact stripClean_deco libraryId tm tm2 (midF ann) ct2 (base64OfString sqlContent)
    filename tc tc2 (postAll ann jopt) (dialectRes_nonblank ann ct2 hd)

/-- C3 counterexample: the builder reads the clock, so two invocations on
identical explicit inputs with different clock readings return different
documents. -/
theorem claim3_counterexample :
    ∃ d d2, buildLibraryFromContent "SELECT 1" [] "L1" "f.sql" "t1" "tc1" = .ok d
      ∧ buildLibraryFromContent "SELECT 1" [] "L1" "f.sql" "t2" "tc2" = .ok d2
      ∧ d ≠ d2 := by
  refine ⟨_, _, rfl, rfl, ?_⟩
  decide

theorem claim3_witness :
    ∃ d d2, buildLibraryFromContent "SELECT 1" [] "L1" "f.sql" "t1" "tc1" = .ok d
      ∧ buildLibraryFromContent "SELECT 1" [] "L1" "f.sql" "t2" "tc2" = .ok d2
      ∧ stripTimestamps d = stripTimestamps d2 := by
  refine ⟨_, _, rfl, rfl, ?_⟩
  exact claim3_deterministic_mod_timestamps "SELECT 1" [] "L1" "f.sql"
    "t1" "tc1" "t2" "tc2" _ _ rfl rfl

/-! ## Claim C7: the output invariant -/

theorem goodL_cons (x : JSON) (xs : JList) :
    goodL (JList.cons x xs) = (goodItem x && goodL xs) := by
  cases x <;> rfl

theorem extEntry_goodItem (k : String) (v : Value) (x : JSON)
    (h : extEntry k v = some x) : goodItem x = true := by
  cases v with
  | bool b => injection h with h2; subst h2; rfl
  | int n => injection h with h2; subst h2; rfl
  | float l => injection h with h2; subst h2; rfl
  | str s => injection h with h2; subst h2; rfl
  | list vs =>
      cases vs with
      | nil => exact Option.noConfusion h
      | cons w ws => injection h with h2; subst h2; rfl

theorem goodL_extensionsOf (ann : List (String × Value)) :
    goodL (extensionsOf ann) = true := by
  unfold extensionsOf
  induction ann with
  | nil => rfl
  | cons kv rest ih =>
      simp only [List.filterMap_cons]
      by_cases hcond : (!(standardKeys.contains kv.1)
          && (pyStrip (pyStr kv.2) ≠ "" : Bool)) = true
      · rw [if_pos hcond]
        cases hx : extEntry kv.1 kv.2 with
        | none => exact ih
        | some x =>
            simp only [JList.ofList, goodL_cons]
            rw [extEntry_goodItem kv.1 kv.2 x hx, ih]
            rfl
      · rw [if_neg hcond]
        exact ih

theorem goodL_concepts (cs : List String) :
    goodL (JList.ofList (cs.map jurisdictionConcept)) = true := by
  induction cs with
  | nil => rfl
  | cons c cs ih =>
      simp only [List.map_cons, JList.ofList, goodL_cons, Bool.and_eq_true]
      exact ⟨rfl, ih⟩

theorem formatJur_shape (v : Value) (js : JList) (h : formatJurisdiction v = .ok js) :
    ∃ cs : List String, js = JList.ofList (cs.map jurisdictionConcept) := by
  unfold formatJurisdiction at h
  cases v with
  | str s =>
      injection h with h2
      exact ⟨(jurisdictionCodesOfStr s).filter (fun j => j ≠ ""), h2.symm⟩
  | list vs =>
      cases hcs : jurisdictionCodesOfVL vs with
      | error e =>
          have h2 : (jurisdictionCodesOfVL vs >>= fun codes =>
              Except.ok (JList.ofList ((codes.filter (fun j => j ≠ "")).map
                jurisdictionConcept))) = Except.ok js := h
          rw [hcs] at h2
          simp [Bind.bind, Except.bind] at h2
      | ok cs =>
          have h2 : (jurisdictionCodesOfVL vs >>= fun codes =>
              Except.ok (JList.ofList ((codes.filter (fun j => j ≠ "")).map
                jurisdictionConcept))) = Except.ok js := h
          rw [hcs] at h2
          injection h2 with h3
          exact ⟨cs.filter (fun j => j ≠ ""), h3.symm⟩
  | bool b => injection h with h2; exact ⟨[], h2.symm⟩
  | int n => injection h with h2; exact ⟨[], h2.symm⟩
  | float l => injection h with h2; exact ⟨[], h2.symm⟩

theorem joptGood (ann : List (String × Value)) (jopt : Option JSON)
    (h : jurisdictionSeg ann = .ok jopt) :
    ∀ j, jopt = some j → goodJ j = true := by
  intro j hj
  rw [hj] at h
  unfold jurisdictionSeg at h
  cases hlk : lookupAnn ann "jurisdiction" <;> rw [hlk] at h
  case none =>
      injection h with h2
      exact Option.noConfusion h2
  case some v =>
      simp only [] at h
      by_cases hc : (isStrV v || isListV v) = true
      · rw [if_pos hc] at h
        cases hfj : formatJurisdiction v with
        | error e =>
            rw [hfj] at h
            exact Except.noConfusion h
        | ok js =>
            rw [hfj] at h
            cases js with
            | nil =>
                injection h with h2
                exact Option.noConfusion h2
            | cons x xs =>
                injection h with h2
                injection h2 with h3
                rw [← h3]
                obtain ⟨cs, hcs⟩ := formatJur_shape v _ hfj
                simp only [goodJ]
                rw [hcs]
                exact goodL_concepts cs
      · rw [if_neg hc] at h
        injection h with h2
        exact Option.noConfusion h2

theorem goodF_segOpt (k : String) (o : Option JSON)
    (h : ∀ j, o = some j → goodJ j = true) : goodF (segOpt k o) = true := by
  cases o with
  | none => rfl
  | some j =>
      simp only [segOpt, goodF, Bool.and_eq_true]
      exact ⟨h j rfl, trivial⟩

theorem goodF_seg_str (ann : List (String × Value)) (k : String) :
    goodF (segOpt k (strSeg ann k)) = true := by
  refine goodF_segOpt k _ (fun j hj => ?_)
  obtain ⟨t, rfl⟩ := strSeg_str ann k j hj
  rfl

theorem goodF_seg_contact (ann : List (String × Value)) (k : String) :
    goodF (segOpt k (contactSeg ann k)) = true := by
  refine goodF_segOpt k _ (fun j hj => ?_)
  unfold contactSeg at hj
  cases hlk : lookupAnn ann k <;> rw [hlk] at hj
  case none => exact Option.noConfusion hj
  case some v =>
      cases v with
      | str s => injection hj with h2; rw [← h2]; rfl
      | bool b => exact Option.noConfusion hj
      | int n => exact Option.noConfusion hj
      | float l => exact Option.noConfusion hj
      | list vs => exact Option.noConfusion hj

theorem goodF_seg_ident (ann : List (String × Value)) :
    goodF (segOpt "identifier" (identSeg ann)) = true := by
  refine goodF_segOpt _ _ (fun j hj => ?_)
  unfold identSeg at hj
  cases hlk : lookupAnn ann "identifier" <;> rw [hlk] at hj
  case none => exact Option.noConfusion hj
  case some v =>
      cases v with
      | str s =>
          simp only [] at hj
          by_cases hns : pyStrip s = ""
          · rw [if_neg (fun hn => hn hns)] at hj
            exact Option.noConfusion hj
          · rw [if_pos hns] at hj
            injection hj with h2
            rw [← h2]
            rfl
      | bool b => exact Option.noConfusion hj
      | int n => exact Option.noConfusion hj
      | float l => exact Option.noConfusion hj
      | list vs => exact Option.noConfusion hj

theorem goodF_seg_date (ann : List (String × Value)) :
    goodF (segOpt "date" (dateSeg ann)) = true := by
  refine goodF_segOpt _ _ (fun j hj => ?_)
  unfold dateSeg at hj
  cases hlk : lookupAnn ann "date" <;> rw [hlk] at hj
  case none => exact Option.noConfusion hj
  case some v =>
      cases v with
      | str s => injection hj with h2; rw [← h2]; rfl
      | bool b => exact Option.noConfusion hj
      | int n => exact Option.noConfusion hj
      | float l => exact Option.noConfusion hj
      | list vs => exact Option.noConfusion hj

theorem goodF_seg_exp (ann : List (String × Value)) :
    goodF (segOpt "experimental" (expSeg ann)) = true := by
  refine goodF_segOpt _ _ (fun j hj => ?_)
  unfold expSeg at hj
  cases hlk : lookupAnn ann "experimental" <;> rw [hlk] at hj
  case none => exact Option.noConfusion hj
  case some v =>
      cases v with
      | str s => injection hj with h2; rw [← h2]; rfl
      | bool b => injection hj with h2; rw [← h2]; rfl
      | int n => exact Option.noConfusion hj
      | float l => exact Option.noConfusion hj
      | list vs => exact Option.noConfusion hj

theorem goodL_raEntriesAll (ann : List (String × Value)) :
    goodL (raEntriesAll ann) = true := by
  unfold raEntriesAll
  rw [goodL_append, goodL_append]
  simp only [Bool.and_eq_true]
  refine ⟨⟨?_, ?_⟩, ?_⟩
  · cases hRD : lookupAnn ann "relatedDependency" with
    | none => rfl
    | some v =>
        cases v with
        | str s => rfl
        | list vs => exact goodL_vlDeps vs
        | bool b => rfl
        | int n => rfl
        | float l => rfl
  · split
    · rfl
    · rfl
  · cases hTD : tablesOrDeps ann with
    | none => rfl
    | some w =>
        cases w with
        | list vs => exact goodL_tableEntries vs
        | str s => rfl
        | bool b => rfl
        | int n => rfl
        | float l => rfl

theorem goodF_raSeg (ann : List (String × Value)) : goodF (raSeg ann) = true := by
  unfold raSeg
  split
  · simp only [goodF, goodJ, Bool.and_eq_true]
    exact ⟨goodL_raEntriesAll ann, trivial⟩
  · rfl

theorem goodF_paramSeg (ann : List (String × Value)) : goodF (paramSeg ann) = true := by
  unfold paramSeg
  cases hP : lookupAnn ann "parameters" with
  | none => rfl
  | some w =>
      cases w with
      | list vs =>
          simp only [goodF, goodJ, Bool.and_eq_true]
          exact ⟨goodL_paramEntries vs, trivial⟩
      | str s => rfl
      | bool b => rfl
      | int n => rfl
      | float l => rfl

theorem goodF_extSeg (ann : List (String × Value)) : goodF (extSeg ann) = true := by
  unfold extSeg
  cases hE : extensionsOf ann with
  | nil => rfl
  | cons x xs =>
      simp only [goodF, goodJ, Bool.and_eq_true]
      refine ⟨?_, trivial⟩
      rw [← hE]
      exact goodL_extensionsOf ann

theorem goodF_nameSeg (ann : List (String × Value)) : goodF (nameSeg ann) = true := by
  unfold nameSeg
  split
  · rfl
  · cases hT : strSeg ann "title" with
    | none => rfl
    | some j => cases j <;> rfl

theorem goodF_mid (ann : List (String × Value)) : goodF (midF ann) = true := by
  unfold midF
  simp only [goodF, Bool.and_eq_true]
  refine ⟨objFreeGoodJ _ (valueToJSON_objFree _), ?_, trivial⟩
  cases hty : lookupAnn ann "type" with
  | none => rfl
  | some v => cases v <;> rfl

theorem goodF_postMapped (ann : List (String × Value)) (jopt : Option JSON)
    (hj : jurisdictionSeg ann = .ok jopt) : goodF (postMapped ann jopt) = true := by
  unfold postMapped
  simp only [goodF_append]
  rw [goodF_seg_str ann "title", goodF_seg_str ann "name",
    goodF_seg_str ann "description", goodF_seg_str ann "version",
    goodF_seg_contact ann "author", goodF_seg_str ann "publisher",
    goodF_seg_contact ann "contact", goodF_seg_str ann "copyright",
    goodF_seg_str ann "purpose", goodF_seg_str ann "usage",
    goodF_seg_str ann "url", goodF_seg_ident ann, goodF_seg_date ann,
    goodF_seg_str ann "subject", goodF_seg_exp ann,
    goodF_segOpt "jurisdiction" jopt (joptGood ann jopt hj),
    goodF_seg_str ann "approvalDate", goodF_seg_str ann "lastReviewDate",
    goodF_seg_str ann "effectivePeriod"]
  rfl

theorem goodF_postAll (ann : List (String × Value)) (jopt : Option JSON)
    (hj : jurisdictionSeg ann = .ok jopt) : goodF (postAll ann jopt) = true := by
  unfold postAll
  simp only [goodF_append]
  rw [goodF_postMapped ann jopt hj, goodF_extSeg ann, goodF_raSeg ann,
    goodF_paramSeg ann, goodF_nameSeg ann]
  rfl

theorem goodF_cons (k : String) (v : JSON) (fs : JFields) :
    goodF (JFields.cons k v fs) = (goodJ v && goodF fs) := rfl

theorem goodF_build (ann : List (String × Value)) (jopt : Option JSON)
    (idv tm ct2 d64 fn tc : String) (hj : jurisdictionSeg ann = .ok jopt) :
    goodF (deco idv tm (midF ann) ct2 d64 fn tc (postAll ann jopt)) = true := by
  unfold deco
  rw [goodF_cons, goodF_cons, goodF_cons, goodF_append, goodF_mid ann, goodF_cons,
    goodF_postAll ann jopt hj]
  rfl

theorem cleanF_content_cons (ct d64 fn tc : String) (b : JFields)
    (hct : ¬(pyStrip ct = "")) :
    cleanF (.cons "content" (contentJ ct d64 fn tc) b)
      = .cons "content" (.arr (JList.cons (.obj (cleanF (attachFields ct d64 fn tc))) .nil))
          (cleanF b) := by
  have hne : isEmptyJ (JSON.obj (cleanF (attachFields ct d64 fn tc))) = false := by
    simp only [isEmptyJ]
    exact cleanAtt_nonempty ct d64 fn tc hct
  simp only [contentJ, cleanF]
  rw [show cleanL (JList.cons (.obj (attachFields ct d64 fn tc)) .nil)
      = JList.cons (.obj (cleanF (attachFields ct d64 fn tc))) .nil from by
    simp only [cleanL]
    rw [hne]
    simp]
  simp [cleanF, attachFields, JFields.ofList]

/-- C7: on every successful build the returned document satisfies the
pruning invariant (no field anywhere holds null, a blank string, an empty
list or dict, or an all-empty list or dict), and the structural fields
survive: resourceType is present and the content attachment list is present
and non-empty. -/
theorem claim7_output_invariant (sqlContent : String) (ann : List (String × Value))
    (libraryId filename tm tc : String) (d : JSON)
    (hb : buildLibraryFromContent sqlContent ann libraryId filename tm tc = .ok d) :
    fieldsOkJ d = true
    ∧ topField d "resourceType" = some (.str "Library")
    ∧ ∃ x rest, topField d "content" = some (.arr (.cons x rest)) := by
  rw [build_eq] at hb
  cases hj : jurisdictionSeg ann <;> rw [hj] at hb
  case error e => simp at hb
  case ok jopt =>
  cases hd : dialectRes ann <;> rw [hd] at hb
  case error e => simp at hb
  case ok ct2 =>
  simp only [Except.ok.injEq] at hb
  subst hb
  have hct := dialectRes_nonblank ann ct2 hd
  refine ⟨?_, ?_, ?_⟩
  · show fieldsOkF (cleanF (deco libraryId tm (midF ann) ct2
      (base64OfString sqlContent) filename tc (postAll ann jopt))) = true
    exact cleanOkF _ (goodF_build ann jopt libraryId tm ct2
      (base64OfString sqlContent) filename tc hj)
  · rfl
  · rw [topField_cleanObj]
    unfold deco
    rw [dictGet_cleanF_skip _ _ _ _ (by decide), dictGet_cleanF_skip _ _ _ _ (by decide),
      dictGet_cleanF_skip _ _ _ _ (by decide)]
    rw [cleanF_append, dictGet_append]
    rw [show dictGet (cleanF (midF ann)) "content" = none from by
      unfold midF
      rw [dictGet_cleanF_skip _ _ _ _ (by decide), dictGet_cleanF_skip _ _ _ _ (by decide)]
      rfl]
    simp only []
    rw [cleanF_content_cons ct2 (base64OfString sqlContent) filename tc
      (postAll ann jopt) hct]
    exact ⟨_, _, rfl⟩

theorem claim7_witness :
    ∃ d, buildLibraryFromContent "SELECT 1" [("title", Value.str "T")]
        "L1" "f.sql" "t1" "t2" = .ok d
      ∧ fieldsOkJ d = true
      ∧ topField d "resourceType" = some (.str "Library")
      ∧ ∃ x rest, topField d "content" = some (.arr (.cons x rest)) := by
  refine ⟨_, rfl, ?_⟩
  exact claim7_output_invariant "SELECT 1" [("title", Value.str "T")]
    "L1" "f.sql" "t1" "t2" _ rfl

end SFLB
